import Mathlib

/-!
# Budget tracker: financial-year bucketing and aggregation

A shallow embedding of `src/src/context/BudgetContext.jsx` (the `BudgetProvider` store and its
derived views) together with theorems about it.

Modelling conventions.

* A JavaScript string is a Lean `String`; where the source inspects characters (`split`,
  `Number`, template literals, `padStart`) the model works on the character list `String.data`.
* A JavaScript `Date` is represented by its local-time calendar fields (`getFullYear`,
  `getMonth`, `getDate` and the milliseconds elapsed since local midnight).  The relational
  operators on two `Date`s compare time values; for dates of one fixed-offset time zone that
  order is the lexicographic order of these fields, which is what `JsDate.le` computes.
  An Invalid Date is `none`.
* Amounts and budgets are rationals.  The sections up to the charts sheet compute with exact
  arithmetic, written as the same left folds the source performs.  The section on Number
  values gives the arithmetic of binary64 and, on it, the functions whose results depend on
  the rounding; the results that depend on it are stated there.
* An object used as a dictionary is an association list of its own properties, in insertion
  order; the reordering of integer-like keys is not modelled.  A month key holds a dash and
  so is the name of no inherited member.  Where a key is a category name, a read can reach a
  member of `Object.prototype`: `pivotStep` and, in the section on Number values,
  `Js.getCategoryBudgetData` and `Js.categoryData` follow such reads; the dictionary reading
  of `getCategoryBudgetData` is used where the result does not depend on them.
-/

namespace BudgetTracker

/-! ## Strings and numbers -/

/-- The character of a decimal digit `d < 10`. -/
def digitChar (d : Nat) : Char := Char.ofNat (48 + d)

/-- Digits of `n`, most significant first, pushed in front of `acc`; `fuel` bounds the number of
digits produced. -/
def renderNatAux : Nat → Nat → List Char → List Char
  | 0, _, acc => acc
  | fuel + 1, n, acc =>
    if n < 10 then digitChar n :: acc
    else renderNatAux fuel (n / 10) (digitChar (n % 10) :: acc)

/-- The decimal rendering of a natural number, as a template literal prints it. -/
def renderNat (n : Nat) : List Char := renderNatAux (n + 1) n []

/-- The decimal rendering of an integer, as a template literal prints it: `${year}`. -/
def renderInt : Int → List Char
  | Int.ofNat n => renderNat n
  | Int.negSucc n => '-' :: renderNat (n + 1)

/-- The value of a decimal digit character, `none` for any other character. -/
def digitVal? (c : Char) : Option Nat :=
  if 48 ≤ c.toNat ∧ c.toNat ≤ 57 then some (c.toNat - 48) else none

/-- Left-to-right decimal accumulation; `none` as soon as a character is not a digit. -/
def parseNatAux : List Char → Nat → Option Nat
  | [], acc => some acc
  | c :: cs, acc =>
    match digitVal? c with
    | some d => parseNatAux cs (acc * 10 + d)
    | none => none

/-- The function `Number` on one segment of a split label: the empty string is `0`, a string of
decimal digits is its value, and `none` stands for `NaN`.  The other numeric forms `Number`
accepts (surrounding white space, a sign, a fraction, an exponent, radix prefixes, `Infinity`)
do not occur in labels built by the program and are read as `NaN` here. -/
def jsNumber (s : List Char) : Option Nat := parseNatAux s 0

/-- The method `split('-')` on a character list. -/
def splitDash : List Char → List (List Char)
  | [] => [[]]
  | c :: cs =>
    if c = '-' then [] :: splitDash cs
    else
      match splitDash cs with
      | [] => [[c]]
      | seg :: rest => (c :: seg) :: rest

/-- The call `String(n).padStart(2, '0')` for a natural number `n`. -/
def padStart2 (n : Nat) : List Char :=
  if (renderNat n).length < 2 then '0' :: renderNat n else renderNat n

/-! ## Dates -/

/-- A valid `Date`, by its local-time fields. -/
structure JsDate where
  /-- The result of `getFullYear()`. -/
  year : Int
  /-- The result of `getMonth()`: `0` is January, `11` is December. -/
  month : Nat
  /-- The result of `getDate()`: the day of the month, from `1`. -/
  day : Nat
  /-- Milliseconds elapsed since local midnight. -/
  ms : Nat
deriving DecidableEq, Repr

/-- The fields denote a calendar date and a time of day. -/
def JsDate.wellFormed (d : JsDate) : Prop :=
  d.month < 12 ∧ 1 ≤ d.day ∧ d.day ≤ 31 ∧ d.ms < 86400000

instance (d : JsDate) : Decidable d.wellFormed := by
  unfold JsDate.wellFormed; exact inferInstance

/-- Comparison of time values, `a <= b`. -/
def JsDate.le (a b : JsDate) : Bool :=
  decide (a.year < b.year) ||
    (decide (a.year = b.year) &&
      (decide (a.month < b.month) ||
        (decide (a.month = b.month) &&
          (decide (a.day < b.day) || (decide (a.day = b.day) && decide (a.ms ≤ b.ms))))))

/-- The operator `a >= b` on two possibly invalid dates: false when either is invalid. -/
def dateGe (a b : Option JsDate) : Bool :=
  match a, b with
  | some x, some y => y.le x
  | _, _ => false

/-- The operator `a <= b` on two possibly invalid dates: false when either is invalid. -/
def dateLe (a b : Option JsDate) : Bool :=
  match a, b with
  | some x, some y => x.le y
  | _, _ => false

/-- The constructor call `new Date(year, monthIndex, day)` on a numeric year (`none` is `NaN` or
`undefined`): local midnight of that day.  A year from 0 to 99 stands for 1900 + year, and a
year past 275760 has no time value, giving an Invalid Date. -/
def newDate (year : Option Nat) (monthIndex day : Nat) : Option JsDate :=
  match year with
  | none => none
  | some y =>
    let fullYear := if y ≤ 99 then 1900 + y else y
    if fullYear ≤ 275760 then some ⟨(fullYear : Int), monthIndex, day, 0⟩ else none

/-! ## The store -/

/-- A record of the transaction store.  `date` is the `Date` that `new Date(transaction.date)`
yields for the stored ISO string. -/
structure Transaction where
  id : Nat
  date : JsDate
  description : String
  amount : ℚ
  category : String
  type : String
deriving DecidableEq

/-- A record of the category store. -/
structure Category where
  id : Nat
  name : String
  type : String
  budget : ℚ
deriving DecidableEq

/-- The state held by `BudgetProvider`. -/
structure State where
  transactions : List Transaction
  categories : List Category
  alertThreshold : ℚ
  currentFinancialYear : String
deriving DecidableEq

/-! ## Financial years -/

/-- The template literal that builds a label from two years. -/
def fyLabel (startYear endYear : Int) : String :=
  String.mk (renderInt startYear ++ '-' :: renderInt endYear)

/-- The initialiser of `currentFinancialYear`, from `now = new Date()`. -/
def initialFinancialYear (now : JsDate) : String :=
  if now.month ≥ 6 then fyLabel now.year (now.year + 1) else fyLabel (now.year - 1) now.year

/-- The label that the loop of `getAvailableFinancialYears` adds for a transaction date. -/
def transactionFinancialYear (date : JsDate) : String :=
  if date.month ≥ 6 then fyLabel date.year (date.year + 1) else fyLabel (date.year - 1) date.year

/-- Start and end date computed by `getTransactionsForFinancialYear` from a label. -/
def fyRange (fy : String) : Option JsDate × Option JsDate :=
  let years := (splitDash fy.data).map jsNumber
  (newDate (years.head?.join) 6 1, newDate (years.tail.head?.join) 5 30)

/-- The test of the filter in `getTransactionsForFinancialYear`:
`date >= startDate && date <= endDate`. -/
def inFinancialYear (fy : String) (date : JsDate) : Bool :=
  dateGe (some date) (fyRange fy).1 && dateLe (some date) (fyRange fy).2

/-- The function `getTransactionsForFinancialYear`; the empty label is the falsy one. -/
def getTransactionsForFinancialYear (s : State) (fy : String) : List Transaction :=
  let fy := if fy.data = [] then s.currentFinancialYear else fy
  s.transactions.filter fun transaction => inFinancialYear fy transaction.date

/-- The function `getTotalIncome`: a falsy label selects the whole store. -/
def getTotalIncome (s : State) (fy : String) : ℚ :=
  let filteredTransactions :=
    if fy.data = [] then s.transactions else getTransactionsForFinancialYear s fy
  (filteredTransactions.filter fun t => t.type = "Income").foldl (fun sum t => sum + t.amount) 0

/-- The function `getTotalExpenses`: a falsy label selects the whole store. -/
def getTotalExpenses (s : State) (fy : String) : ℚ :=
  let filteredTransactions :=
    if fy.data = [] then s.transactions else getTransactionsForFinancialYear s fy
  (filteredTransactions.filter fun t => t.type = "Expense").foldl (fun sum t => sum + t.amount) 0

/-- The function `getNetPosition`. -/
def getNetPosition (s : State) (fy : String) : ℚ :=
  getTotalIncome s fy - getTotalExpenses s fy

/-! ## Objects used as dictionaries -/

/-- The property read `obj[key]` among the own properties of the object; `none` is
`undefined`. -/
def objGet {α : Type} : List (String × α) → String → Option α
  | [], _ => none
  | (k, v) :: rest, key => if k = key then some v else objGet rest key

/-- The property write `obj[key] = v`: an existing key keeps its place, a new key goes last. -/
def objSet {α : Type} : List (String × α) → String → α → List (String × α)
  | [], key, v => [(key, v)]
  | (k, w) :: rest, key, v => if k = key then (k, v) :: rest else (k, w) :: objSet rest key v

/-- The result of `Object.keys(obj)`. -/
def objKeys {α : Type} (obj : List (String × α)) : List String := obj.map Prod.fst

/-- The names of the members of `Object.prototype`.  Each of them is a function, but for
`__proto__`, an accessor that reads and replaces the prototype of the object; read through a
plain object, every one of them is a truthy value. -/
def objectPrototypeKeys : List String :=
  ["constructor", "__defineGetter__", "__defineSetter__", "hasOwnProperty",
    "__lookupGetter__", "__lookupSetter__", "isPrototypeOf", "propertyIsEnumerable",
    "toString", "valueOf", "__proto__", "toLocaleString"]

/-! ## Monthly series -/

/-- A value of the object built by `getMonthlyData`. -/
structure MonthTotals where
  income : ℚ
  expenses : ℚ
deriving DecidableEq

/-- The key that `getMonthlyData` computes for a transaction date. -/
def monthKey (date : JsDate) : String :=
  String.mk (renderInt date.year ++ '-' :: padStart2 (date.month + 1))

/-- One iteration of the loop of `getMonthlyData`. -/
def monthlyStep (monthlyData : List (String × MonthTotals)) (transaction : Transaction) :
    List (String × MonthTotals) :=
  let key := monthKey transaction.date
  let entry :=
    match objGet monthlyData key with
    | some e => e
    | none => { income := 0, expenses := 0 }
  if transaction.type = "Income" then
    objSet monthlyData key { entry with income := entry.income + transaction.amount }
  else
    objSet monthlyData key { entry with expenses := entry.expenses + transaction.amount }

/-- The function `getMonthlyData`: a falsy label selects the whole store. -/
def getMonthlyData (s : State) (fy : String) : List (String × MonthTotals) :=
  let filteredTransactions :=
    if fy.data = [] then s.transactions else getTransactionsForFinancialYear s fy
  filteredTransactions.foldl monthlyStep []

/-! ## Category budget data -/

/-- A value of `categorySpending` before the last loop of `getCategoryBudgetData`. -/
structure Spending where
  type : String
  budget : ℚ
  actual : ℚ
  remaining : ℚ
  transactions : List Transaction
deriving DecidableEq

/-- A value of the object returned by `getCategoryBudgetData`. -/
structure BudgetEntry where
  type : String
  budget : ℚ
  actual : ℚ
  remaining : ℚ
  transactions : List Transaction
  percentage : ℚ
deriving DecidableEq

/-- The expression `x || 0` on a number. -/
def orZero (x : ℚ) : ℚ := if x = 0 then 0 else x

/-- The first loop of `getCategoryBudgetData`, one category. -/
def initCategory (categorySpending : List (String × Spending)) (category : Category) :
    List (String × Spending) :=
  objSet categorySpending category.name
    { type := category.type
      budget := orZero category.budget
      actual := 0
      remaining := orZero category.budget
      transactions := [] }

/-- The second loop of `getCategoryBudgetData`, one transaction of the financial year. -/
def addActual (categorySpending : List (String × Spending)) (transaction : Transaction) :
    List (String × Spending) :=
  match objGet categorySpending transaction.category with
  | some e =>
    objSet categorySpending transaction.category
      { e with
        actual := e.actual + transaction.amount
        transactions := e.transactions ++ [transaction] }
  | none => categorySpending

/-- The third loop of `getCategoryBudgetData`, one entry. -/
def finishEntry (data : Spending) : BudgetEntry :=
  { type := data.type
    budget := data.budget
    actual := data.actual
    remaining :=
      if data.type = "Expense" then data.budget - data.actual else data.actual - data.budget
    transactions := data.transactions
    percentage := if data.budget > 0 then data.actual / data.budget * 100 else 0 }

/-- The function `getCategoryBudgetData`. -/
def getCategoryBudgetData (s : State) : List (String × BudgetEntry) :=
  let categorySpending := s.categories.foldl initCategory []
  let fyTransactions := getTransactionsForFinancialYear s s.currentFinancialYear
  let categorySpending := fyTransactions.foldl addActual categorySpending
  categorySpending.map fun kv => (kv.1, finishEntry kv.2)

/-! ## Mutations of the category store -/

/-- The function `deleteCategory`. -/
def deleteCategory (s : State) (id : Nat) : State :=
  { s with categories := s.categories.filter fun category => category.id ≠ id }

/-! ## Available financial years -/

/-- The order of the default `sort()` on strings: lexicographic by code unit.  Characters are
compared by code point, which is the code unit for every character a label can hold. -/
def codeUnitLe : List Char → List Char → Bool
  | [], _ => true
  | _ :: _, [] => false
  | a :: as, b :: bs =>
    decide (a.toNat < b.toNat) || (decide (a.toNat = b.toNat) && codeUnitLe as bs)

/-- The relation that `Array.from(years).sort()` sorts by. -/
def sortsBefore (a b : String) : Prop := codeUnitLe a.data b.data = true

instance : DecidableRel sortsBefore := fun a b => by
  unfold sortsBefore; exact inferInstance

/-- The method `years.add(label)` of a `Set`, kept as the list of its members in insertion
order. -/
def setAdd (years : List String) (label : String) : List String :=
  if label ∈ years then years else years ++ [label]

/-- The function `getAvailableFinancialYears`, with `now = new Date()`.  The members of the set
are distinct strings, so the sorted array does not depend on the sorting algorithm; insertion
sort stands for it. -/
def getAvailableFinancialYears (s : State) (now : JsDate) : List String :=
  let currentYear := now.year
  if s.transactions.length = 0 then
    [fyLabel (currentYear - 1) currentYear, fyLabel currentYear (currentYear + 1)]
  else
    let years : List String := []
    let years := setAdd years (fyLabel (currentYear - 1) currentYear)
    let years := setAdd years (fyLabel currentYear (currentYear + 1))
    let years :=
      s.transactions.foldl (fun years transaction =>
        setAdd years (transactionFinancialYear transaction.date)) years
    years.insertionSort sortsBefore

/-! ## Mutations of the transaction store

The mutators receive form data or sheet rows whose amount and date are still text.  The two
built-in parsers are applied before the model starts: an amount is given as the value that
`parseFloat` returns for it, a date as the `Date` that `new Date(...)` builds from it. -/

/-- A value returned by `parseFloat`: `NaN` or a number (the infinities are left out). -/
inductive JsNum where
  | nan
  | num (q : ℚ)
deriving DecidableEq

/-- A record as the mutators write it to the transaction store.  `date` is the `Date` that
readers get back from the stored text, `none` for an Invalid Date.  A `Transaction` is such a
record whose date is valid and whose amount is a number. -/
structure StoredTransaction where
  id : Nat
  date : Option JsDate
  description : String
  amount : JsNum
  category : String
  type : String
deriving DecidableEq

/-- The form data passed to `addTransaction` and `updateTransaction`, and likewise a row of the
sheet passed to `importTransactions` (columns `Date`, `Description`, `Amount`, `Category`,
`Type`): `date` is `new Date(x.date)`, `none` when that is an Invalid Date, and `amount` is
`parseFloat(x.amount)`. -/
structure TransactionInput where
  date : Option JsDate
  description : String
  amount : JsNum
  category : String
  type : String
deriving DecidableEq

/-- The function `addTransaction`, with `now = Date.now()`.  The call `toISOString()` throws a
`RangeError` on an Invalid Date, before the store is touched: `none`. -/
def addTransaction (store : List StoredTransaction) (now : Nat)
    (transaction : TransactionInput) : Option (List StoredTransaction) :=
  match transaction.date with
  | none => none
  | some date =>
    some (store ++
      [{ id := now
         date := some date
         description := transaction.description
         amount := transaction.amount
         category := transaction.category
         type := transaction.type }])

/-- The function `updateTransaction`: the fields of the form data replace those of every
record with the given id, which keeps its id. -/
def updateTransaction (store : List StoredTransaction) (id : Nat)
    (updatedTransaction : TransactionInput) : List StoredTransaction :=
  store.map fun transaction =>
    if transaction.id = id then
      { id := transaction.id
        date := updatedTransaction.date
        description := updatedTransaction.description
        amount := updatedTransaction.amount
        category := updatedTransaction.category
        type := updatedTransaction.type }
    else transaction

/-- The function `deleteTransaction`. -/
def deleteTransaction (store : List StoredTransaction) (id : Nat) : List StoredTransaction :=
  store.filter fun transaction => transaction.id ≠ id

/-- The value that `importTransactions` resolves to. -/
inductive ImportResult where
  | success (count : Nat)
  | failure (error : String)
deriving DecidableEq

/-- The callback of `jsonData.map` in `importTransactions` for one row, with
`now = Date.now()` and `offset = Math.floor(Math.random() * 1000)`; `none` when
`toISOString()` throws on an Invalid Date. -/
def importRow (now : Nat) (offset : Fin 1000) (row : TransactionInput) :
    Option StoredTransaction :=
  match row.date with
  | none => none
  | some date =>
    some
      { id := now + offset.val
        date := some date
        description := row.description
        amount := row.amount
        category := row.category
        type := row.type }

/-- The call `jsonData.map(...)` from row number `i` on: `clock i` and `random i` are what
`Date.now()` and `Math.floor(Math.random() * 1000)` return for row `i`; `none` when a row
throws. -/
def importRows (clock : Nat → Nat) (random : Nat → Fin 1000) :
    Nat → List TransactionInput → Option (List StoredTransaction)
  | _, [] => some []
  | i, row :: rows =>
    match importRow (clock i) (random i) row with
    | none => none
    | some t =>
      match importRows clock random (i + 1) rows with
      | none => none
      | some ts => some (t :: ts)

/-- The function `importTransactions` on the rows read from the first sheet: the result it
resolves to and the transaction store afterwards.  A thrown error is caught and reported with
its message. -/
def importTransactions (store : List StoredTransaction) (rows : List TransactionInput)
    (clock : Nat → Nat) (random : Nat → Fin 1000) : ImportResult × List StoredTransaction :=
  match importRows clock random 0 rows with
  | some newTransactions =>
    (ImportResult.success newTransactions.length, store ++ newTransactions)
  | none => (ImportResult.failure "Invalid time value", store)

/-! ## The initial state -/

/-- The constant `defaultCategories`. -/
def defaultCategories : List Category :=
  [{ id := 1, name := "Salary", type := "Income", budget := 5000 },
   { id := 2, name := "Freelance", type := "Income", budget := 1000 },
   { id := 3, name := "Investments", type := "Income", budget := 500 },
   { id := 4, name := "Other Income", type := "Income", budget := 200 },
   { id := 5, name := "Housing", type := "Expense", budget := 1200 },
   { id := 6, name := "Transportation", type := "Expense", budget := 400 },
   { id := 7, name := "Food", type := "Expense", budget := 600 },
   { id := 8, name := "Utilities", type := "Expense", budget := 300 },
   { id := 9, name := "Entertainment", type := "Expense", budget := 200 },
   { id := 10, name := "Healthcare", type := "Expense", budget := 150 },
   { id := 11, name := "Shopping", type := "Expense", budget := 300 },
   { id := 12, name := "Other Expenses", type := "Expense", budget := 250 }]

/-- The four `useState` initialisers of `BudgetProvider`, with `now = new Date()`. -/
def initialState (now : JsDate) : State :=
  { transactions := []
    categories := defaultCategories
    alertThreshold := 500
    currentFinancialYear := initialFinancialYear now }

/-- The effect that runs on mount: each of the four saved slices replaces the initial value
when `localStorage.getItem` gave a truthy string, here already parsed; `none` is a missing or
empty item. -/
def loadSaved (s : State) (savedTransactions : Option (List Transaction))
    (savedCategories : Option (List Category)) (savedThreshold : Option ℚ)
    (savedFinancialYear : Option String) : State :=
  let s := match savedTransactions with
    | some transactions => { s with transactions := transactions }
    | none => s
  let s := match savedCategories with
    | some categories => { s with categories := categories }
    | none => s
  let s := match savedThreshold with
    | some threshold => { s with alertThreshold := threshold }
    | none => s
  match savedFinancialYear with
  | some fy => if fy.data = [] then s else { s with currentFinancialYear := fy }
  | none => s

/-! ## The summary sheet -/

/-- The value of an expression that divides: a number, an infinity (a non-zero number over
zero) or `NaN` (zero over zero). -/
inductive JsQuotient where
  | num (q : ℚ)
  | posInfinity
  | negInfinity
  | nan
deriving DecidableEq

/-- The operator `/` on two numbers. -/
def jsDivide (a b : ℚ) : JsQuotient :=
  if b = 0 then
    if a = 0 then JsQuotient.nan
    else if a > 0 then JsQuotient.posInfinity else JsQuotient.negInfinity
  else JsQuotient.num (a / b)

/-- The operator `*` of a quotient and a number. -/
def JsQuotient.times (x : JsQuotient) (k : ℚ) : JsQuotient :=
  match x with
  | JsQuotient.num q => JsQuotient.num (q * k)
  | JsQuotient.posInfinity =>
    if k > 0 then JsQuotient.posInfinity
    else if k < 0 then JsQuotient.negInfinity else JsQuotient.nan
  | JsQuotient.negInfinity =>
    if k > 0 then JsQuotient.negInfinity
    else if k < 0 then JsQuotient.posInfinity else JsQuotient.nan
  | JsQuotient.nan => JsQuotient.nan

/-- The value of the card Budget Utilization in `summaryCards`. -/
def budgetUtilization (totalIncome totalExpenses : ℚ) : JsQuotient :=
  if totalExpenses > 0 then (jsDivide totalExpenses totalIncome).times 100
  else JsQuotient.num 0

/-- The card Budget Utilization of `SummarySheet` for a state. -/
def summaryBudgetUtilization (s : State) : JsQuotient :=
  budgetUtilization (getTotalIncome s s.currentFinancialYear)
    (getTotalExpenses s s.currentFinancialYear)

/-! ## The transactions sheet -/

/-- The constant `filteredTransactions` of `TransactionsSheet`. -/
def tableFilteredTransactions (s : State) (filterType filterCategory : String) :
    List Transaction :=
  (getTransactionsForFinancialYear s s.currentFinancialYear).filter fun transaction =>
    let typeMatch := decide (filterType = "All") || decide (transaction.type = filterType)
    let categoryMatch :=
      decide (filterCategory = "All") || decide (transaction.category = filterCategory)
    typeMatch && categoryMatch

/-- The order that the comparator `(a, b) => new Date(b.date) - new Date(a.date)` asks for:
`a` may stand before `b` when the comparator is not positive, that is when `b` is not later
than `a`. -/
def newestFirst (a b : Transaction) : Prop := b.date.le a.date = true

instance : DecidableRel newestFirst := fun a b => by
  unfold newestFirst; exact inferInstance

/-- The rows of the transactions table: `filteredTransactions.sort(...)`.  The sort is stable,
so its result is the one of a stable insertion sort. -/
def transactionsTableRows (s : State) (filterType filterCategory : String) :
    List Transaction :=
  (tableFilteredTransactions s filterType filterCategory).insertionSort newestFirst

/-! ## The reports sheet -/

/-- The constant `filteredTransactions` of `ReportsSheet`. -/
def reportFilteredTransactions (s : State)
    (selectedMonth selectedCategory selectedType : String) : List Transaction :=
  (getTransactionsForFinancialYear s s.currentFinancialYear).filter fun transaction =>
    let monthMatch :=
      decide (selectedMonth = "all") || decide (monthKey transaction.date = selectedMonth)
    let categoryMatch :=
      decide (selectedCategory = "all") || decide (transaction.category = selectedCategory)
    let typeMatch :=
      decide (selectedType = "all") || decide (transaction.type = selectedType)
    monthMatch && categoryMatch && typeMatch

/-- The figure shown as Total Income in the summary stats of `ReportsSheet`. -/
def reportTotalIncome (filteredTransactions : List Transaction) : ℚ :=
  (filteredTransactions.filter fun t => t.type = "Income").foldl
    (fun sum t => sum + t.amount) 0

/-- The figure shown as Total Expenses in the summary stats of `ReportsSheet`. -/
def reportTotalExpenses (filteredTransactions : List Transaction) : ℚ :=
  (filteredTransactions.filter fun t => t.type = "Expense").foldl
    (fun sum t => sum + t.amount) 0

/-- The figure shown as Net Position in the summary stats of `ReportsSheet`. -/
def reportNetPosition (filteredTransactions : List Transaction) : ℚ :=
  (filteredTransactions.filter fun t => t.type = "Income").foldl
      (fun sum t => sum + t.amount) 0
    - (filteredTransactions.filter fun t => t.type = "Expense").foldl
      (fun sum t => sum + t.amount) 0

/-! ## The reports sheet: monthly breakdown -/

/-- The names that `toLocaleDateString('en-US', { month: 'long' })` gives the months. -/
def monthNames : List String :=
  ["January", "February", "March", "April", "May", "June", "July", "August", "September",
    "October", "November", "December"]

/-- The text `date.toLocaleDateString('en-US', { year: 'numeric', month: 'long' })`, such as
`August 2024`, for a year of the common era. -/
def monthName (date : JsDate) : String :=
  String.mk ((monthNames.getD date.month "").data ++ ' ' :: renderInt date.year)

/-- A value of `categories` in a section of `pivotData`. -/
structure PivotCategory where
  income : ℚ
  expenses : ℚ
  total : ℚ
deriving DecidableEq

/-- A section of `pivotData`: one month. -/
structure PivotMonth where
  month : String
  categories : List (String × PivotCategory)
  totalIncome : ℚ
  totalExpenses : ℚ
deriving DecidableEq

/-- One iteration of the loop of `pivotData`.  When the category is no own property of the
month's `categories` and is the name of a member of `Object.prototype`, the test
`!categories[category]` finds that member: no entry is created and the additions to the
category go to the inherited object, while the totals of the month are updated. -/
def pivotStep (data : List (String × PivotMonth)) (transaction : Transaction) :
    List (String × PivotMonth) :=
  let key := monthKey transaction.date
  let monthData :=
    match objGet data key with
    | some monthData => monthData
    | none =>
      { month := monthName transaction.date, categories := [], totalIncome := 0,
        totalExpenses := 0 }
  let inherited : Bool :=
    (objGet monthData.categories transaction.category).isNone &&
      decide (transaction.category ∈ objectPrototypeKeys)
  let entry :=
    match objGet monthData.categories transaction.category with
    | some entry => entry
    | none => { income := 0, expenses := 0, total := 0 }
  if transaction.type = "Income" then
    objSet data key
      { monthData with
        categories :=
          if inherited then monthData.categories
          else
            objSet monthData.categories transaction.category
              { entry with
                income := entry.income + transaction.amount
                total := entry.total + transaction.amount }
        totalIncome := monthData.totalIncome + transaction.amount }
  else
    objSet data key
      { monthData with
        categories :=
          if inherited then monthData.categories
          else
            objSet monthData.categories transaction.category
              { entry with
                expenses := entry.expenses + transaction.amount
                total := entry.total + transaction.amount }
        totalExpenses := monthData.totalExpenses + transaction.amount }

/-- The order that the comparator `(a, b) => b.month.localeCompare(a.month)` asks for.  For
the month names above, each a capitalised English word followed by a year, the collation
order of `localeCompare` is the order of the code units. -/
def monthNameDescending (a b : PivotMonth) : Prop := codeUnitLe b.month.data a.month.data = true

instance : DecidableRel monthNameDescending := fun a b => by
  unfold monthNameDescending; exact inferInstance

/-- The constant `pivotData` of `ReportsSheet`. -/
def pivotData (s : State) (selectedMonth selectedCategory selectedType : String) :
    List PivotMonth :=
  let filteredTransactions :=
    reportFilteredTransactions s selectedMonth selectedCategory selectedType
  let data := filteredTransactions.foldl pivotStep []
  (data.map fun kv => kv.2).insertionSort monthNameDescending

/-! ## The charts sheet -/

/-- The three arrays that `monthlyBarOptions` plots.  A value is `none` where the source would
read a property of `undefined`. -/
structure MonthlyBar where
  months : List String
  incomeData : List (Option ℚ)
  expenseData : List (Option ℚ)
deriving DecidableEq

/-- The data of `monthlyBarOptions` in `ChartsSheet`: `slice(-6)` keeps the last six keys of
the sorted array, all of them when there are fewer. -/
def monthlyBarOptions (s : State) : MonthlyBar :=
  let monthlyData := getMonthlyData s s.currentFinancialYear
  let sorted := (objKeys monthlyData).insertionSort sortsBefore
  let months := sorted.drop (sorted.length - 6)
  { months := months
    incomeData := months.map fun month => (objGet monthlyData month).map fun e => e.income
    expenseData := months.map fun month => (objGet monthlyData month).map fun e => e.expenses }

/-! ## Number values

The sections above compute with exact rationals, in the order of the folds of the source.  A
Number is a binary64 value: every arithmetic operation rounds its exact result to the nearest
such value, ties to even.  The definitions of this section give that arithmetic on
`JsQuotient`, whose `num q` is a finite Number of value `q`.  The sign of a zero is not kept:
`-0` is read as `0`. -/

/-- The number of binary digits of `n`; `fuel` bounds the recursion. -/
def bitLengthAux : Nat → Nat → Nat
  | 0, _ => 0
  | fuel + 1, n => if n = 0 then 0 else bitLengthAux fuel (n / 2) + 1

/-- The number of binary digits of `n`: `0` for `0`, and `k` when `2 ^ (k - 1) ≤ n < 2 ^ k`. -/
def bitLength (n : Nat) : Nat := bitLengthAux n n

/-- The integer nearest to `p / q`, the even one of the two when `p / q` lies half way. -/
def roundHalfEven (p q : Nat) : Nat :=
  if 2 * (p % q) < q then p / q
  else if q < 2 * (p % q) then p / q + 1
  else if p / q % 2 = 0 then p / q
  else p / q + 1

/-- The test `2 ^ e ≤ p / q` for positive `p` and `q`. -/
def powLe (e : Int) (p q : Nat) : Bool :=
  if 0 ≤ e then decide (q * 2 ^ e.toNat ≤ p) else decide (q ≤ p * 2 ^ (-e).toNat)

/-- The exponent `e` with `2 ^ e ≤ p / q < 2 ^ (e + 1)`, for positive `p` and `q`. -/
def binaryExponent (p q : Nat) : Int :=
  let e : Int := (bitLength p : Int) - (bitLength q : Int)
  if powLe e p q then e else e - 1

/-- The binary64 value nearest to `p / q` for positive `p` and `q`, ties to even, as if the
exponent had no upper bound: 53 significant binary digits, and multiples of `2 ^ (-1074)`
below `2 ^ (-1022)`. -/
def roundMagnitude (p q : Nat) : ℚ :=
  let e : Int := max (binaryExponent p q) (-1022) - 52
  let n : Nat :=
    if 0 ≤ e then roundHalfEven p (q * 2 ^ e.toNat) else roundHalfEven (p * 2 ^ (-e).toNat) q
  (n : ℚ) * (2 : ℚ) ^ e

/-- The Number nearest to a real number: a magnitude that rounds to `2 ^ 1024` or more gives
an infinity. -/
def toDouble (x : ℚ) : JsQuotient :=
  if x = 0 then JsQuotient.num 0
  else
    let r := roundMagnitude x.num.natAbs x.den
    if (2 : ℚ) ^ (1024 : Nat) ≤ r then
      if 0 < x then JsQuotient.posInfinity else JsQuotient.negInfinity
    else JsQuotient.num (if 0 < x then r else -r)

/-- The unary operator `-` on a Number. -/
def JsQuotient.neg : JsQuotient → JsQuotient
  | JsQuotient.num a => JsQuotient.num (-a)
  | JsQuotient.posInfinity => JsQuotient.negInfinity
  | JsQuotient.negInfinity => JsQuotient.posInfinity
  | JsQuotient.nan => JsQuotient.nan

/-- The operator `+` on two Numbers. -/
def JsQuotient.plus : JsQuotient → JsQuotient → JsQuotient
  | JsQuotient.num a, JsQuotient.num b => toDouble (a + b)
  | JsQuotient.nan, _ => JsQuotient.nan
  | _, JsQuotient.nan => JsQuotient.nan
  | JsQuotient.posInfinity, JsQuotient.negInfinity => JsQuotient.nan
  | JsQuotient.negInfinity, JsQuotient.posInfinity => JsQuotient.nan
  | JsQuotient.posInfinity, _ => JsQuotient.posInfinity
  | _, JsQuotient.posInfinity => JsQuotient.posInfinity
  | JsQuotient.negInfinity, _ => JsQuotient.negInfinity
  | _, JsQuotient.negInfinity => JsQuotient.negInfinity

/-- The operator `-` on two Numbers. -/
def JsQuotient.minus (x y : JsQuotient) : JsQuotient := x.plus y.neg

/-- The test `x > 0` on a Number. -/
def JsQuotient.positive : JsQuotient → Bool
  | JsQuotient.num a => decide (0 < a)
  | JsQuotient.posInfinity => true
  | _ => false

/-- The operator `*` on two Numbers. -/
def JsQuotient.product : JsQuotient → JsQuotient → JsQuotient
  | JsQuotient.num a, JsQuotient.num b => toDouble (a * b)
  | JsQuotient.nan, _ => JsQuotient.nan
  | _, JsQuotient.nan => JsQuotient.nan
  | x, y =>
    if x = JsQuotient.num 0 ∨ y = JsQuotient.num 0 then JsQuotient.nan
    else if x.positive = y.positive then JsQuotient.posInfinity
    else JsQuotient.negInfinity

/-- The operator `/` on two Numbers. -/
def JsQuotient.over : JsQuotient → JsQuotient → JsQuotient
  | JsQuotient.num a, JsQuotient.num b =>
    if b = 0 then
      if a = 0 then JsQuotient.nan
      else if 0 < a then JsQuotient.posInfinity else JsQuotient.negInfinity
    else toDouble (a / b)
  | JsQuotient.nan, _ => JsQuotient.nan
  | _, JsQuotient.nan => JsQuotient.nan
  | JsQuotient.num _, _ => JsQuotient.num 0
  | x, JsQuotient.num b =>
    if x.positive = decide (0 ≤ b) then JsQuotient.posInfinity else JsQuotient.negInfinity
  | _, _ => JsQuotient.nan

/-- The truthiness of a Number: every value but `0` and `NaN`. -/
def JsQuotient.truthy (x : JsQuotient) : Bool :=
  decide (x ≠ JsQuotient.num 0 ∧ x ≠ JsQuotient.nan)

/-! ## The aggregation functions on Number values

The functions of `BudgetContext.jsx` and `ReportsSheet.jsx` whose results depend on the
rounding or on inherited properties.  A property read `obj[key]` on a plain object finds the
own properties of the object and then the members it inherits; `Js.getCategoryBudgetData` and
`Js.categoryData` follow the reads of their loops past the own properties. -/

/-- The function `getTotalIncome` on Number values. -/
def Js.getTotalIncome (s : State) (fy : String) : JsQuotient :=
  let filteredTransactions :=
    if fy.data = [] then s.transactions else getTransactionsForFinancialYear s fy
  (filteredTransactions.filter fun t => t.type = "Income").foldl
    (fun sum t => sum.plus (JsQuotient.num t.amount)) (JsQuotient.num 0)

/-- The function `getTotalExpenses` on Number values. -/
def Js.getTotalExpenses (s : State) (fy : String) : JsQuotient :=
  let filteredTransactions :=
    if fy.data = [] then s.transactions else getTransactionsForFinancialYear s fy
  (filteredTransactions.filter fun t => t.type = "Expense").foldl
    (fun sum t => sum.plus (JsQuotient.num t.amount)) (JsQuotient.num 0)

/-- A value of the object built by `getMonthlyData`, as Numbers. -/
structure Js.MonthTotals where
  income : JsQuotient
  expenses : JsQuotient
deriving DecidableEq

/-- One iteration of the loop of `getMonthlyData` on Number values.  A month key holds a dash,
so it is the name of no inherited member and the read finds own properties only. -/
def Js.monthlyStep (monthlyData : List (String × Js.MonthTotals)) (transaction : Transaction) :
    List (String × Js.MonthTotals) :=
  let key := monthKey transaction.date
  let entry : Js.MonthTotals :=
    match objGet monthlyData key with
    | some e => e
    | none => { income := JsQuotient.num 0, expenses := JsQuotient.num 0 }
  if transaction.type = "Income" then
    objSet monthlyData key
      { entry with income := entry.income.plus (JsQuotient.num transaction.amount) }
  else
    objSet monthlyData key
      { entry with expenses := entry.expenses.plus (JsQuotient.num transaction.amount) }

/-- The function `getMonthlyData` on Number values. -/
def Js.getMonthlyData (s : State) (fy : String) : List (String × Js.MonthTotals) :=
  let filteredTransactions :=
    if fy.data = [] then s.transactions else getTransactionsForFinancialYear s fy
  filteredTransactions.foldl Js.monthlyStep []

/-- A value of `categorySpending` before the last loop of `getCategoryBudgetData`, with the
accumulated `actual` as a Number. -/
structure Js.Spending where
  type : String
  budget : ℚ
  actual : JsQuotient
  remaining : ℚ
  transactions : List Transaction
deriving DecidableEq

/-- A value of the object returned by `getCategoryBudgetData`, as Numbers. -/
structure Js.BudgetEntry where
  type : String
  budget : ℚ
  actual : JsQuotient
  remaining : JsQuotient
  transactions : List Transaction
  percentage : JsQuotient
deriving DecidableEq

/-- The object `categorySpending`: its own properties in insertion order, and the object that
an assignment to `categorySpending['__proto__']` has installed as its prototype; `none` is
`Object.prototype`, the prototype it starts with. -/
structure Js.CategorySpending where
  own : List (String × Js.Spending)
  proto : Option Js.Spending
deriving DecidableEq

/-- The object that `getCategoryBudgetData` returns: the own properties, completed by the
last loop, and the prototype, which `Object.keys` does not visit. -/
structure Js.CategoryBudgetData where
  own : List (String × Js.BudgetEntry)
  proto : Option Js.Spending
deriving DecidableEq

/-- The first loop of `getCategoryBudgetData`, one category.  The assignment creates an own
property, but for the name `__proto__`, where it replaces the prototype. -/
def Js.initCategory (categorySpending : Js.CategorySpending) (category : Category) :
    Js.CategorySpending :=
  let entry : Js.Spending :=
    { type := category.type
      budget := orZero category.budget
      actual := JsQuotient.num 0
      remaining := orZero category.budget
      transactions := [] }
  if category.name = "__proto__" then { categorySpending with proto := some entry }
  else { categorySpending with own := objSet categorySpending.own category.name entry }

/-- The test `if (categorySpending[key])` for a key that is neither an own property nor
`__proto__`: the read goes to the installed prototype, whose properties are `type`, `budget`,
`actual`, `remaining` and `transactions` (an array, always truthy), and then to
`Object.prototype`. -/
def Js.inheritedTruthy (proto : Option Js.Spending) (key : String) : Bool :=
  (match proto with
    | some p =>
      (decide (key = "type") && decide (p.type ≠ "")) ||
      (decide (key = "budget") && decide (p.budget ≠ 0)) ||
      (decide (key = "actual") && p.actual.truthy) ||
      (decide (key = "remaining") && decide (p.remaining ≠ 0)) ||
      decide (key = "transactions")
    | none => false) ||
  decide (key ∈ objectPrototypeKeys)

/-- The second loop of `getCategoryBudgetData`, one transaction of the financial year; `none`
is a thrown `TypeError`.  An own property takes the amount.  Under the key `__proto__` the
read gives the prototype: an installed one takes the amount, and `Object.prototype` has no
`transactions`, so `.transactions.push` throws.  Any other truthy inherited value passes the
guard, and it is a function, an array, a string or a number, none of which has an array
`transactions`, so the body throws. -/
def Js.addActual (categorySpending : Js.CategorySpending) (transaction : Transaction) :
    Option Js.CategorySpending :=
  match objGet categorySpending.own transaction.category with
  | some e =>
    some { categorySpending with
      own := objSet categorySpending.own transaction.category
        { e with
          actual := e.actual.plus (JsQuotient.num transaction.amount)
          transactions := e.transactions ++ [transaction] } }
  | none =>
    if transaction.category = "__proto__" then
      match categorySpending.proto with
      | some p =>
        some { categorySpending with
          proto := some
            { p with
              actual := p.actual.plus (JsQuotient.num transaction.amount)
              transactions := p.transactions ++ [transaction] } }
      | none => none
    else if Js.inheritedTruthy categorySpending.proto transaction.category then none
    else some categorySpending

/-- The third loop of `getCategoryBudgetData`, one entry. -/
def Js.finishEntry (data : Js.Spending) : Js.BudgetEntry :=
  { type := data.type
    budget := data.budget
    actual := data.actual
    remaining :=
      if data.type = "Expense" then (JsQuotient.num data.budget).minus data.actual
      else data.actual.minus (JsQuotient.num data.budget)
    transactions := data.transactions
    percentage :=
      if data.budget > 0 then
        (data.actual.over (JsQuotient.num data.budget)).product (JsQuotient.num 100)
      else JsQuotient.num 0 }

/-- The function `getCategoryBudgetData` on Number values and with the reads of the second
loop reaching the prototype; `none` is a thrown `TypeError`. -/
def Js.getCategoryBudgetData (s : State) : Option Js.CategoryBudgetData :=
  let categorySpending := s.categories.foldl Js.initCategory { own := [], proto := none }
  let fyTransactions := getTransactionsForFinancialYear s s.currentFinancialYear
  match fyTransactions.foldlM Js.addActual categorySpending with
  | some categorySpending =>
    some
      { own := categorySpending.own.map fun kv => (kv.1, Js.finishEntry kv.2)
        proto := categorySpending.proto }
  | none => none

/-- A value of the object `data` in `categoryData`, as Numbers. -/
structure Js.CategoryItem where
  category : String
  type : String
  income : JsQuotient
  expenses : JsQuotient
  total : JsQuotient
  count : Nat
  budget : ℚ
deriving DecidableEq

/-- A row of `categoryData`, as Numbers. -/
structure Js.CategoryRow where
  category : String
  type : String
  income : JsQuotient
  expenses : JsQuotient
  total : JsQuotient
  count : Nat
  budget : ℚ
  variance : JsQuotient
  percentage : JsQuotient
deriving DecidableEq

/-- The expression `budgetInfo.budget || 0` for
`budgetInfo = categoryBudgetData[key] || { type, budget: 0 }`: the budget of an own entry;
under `__proto__` the budget of an installed prototype; and `0` otherwise, since no other
inherited value has a property `budget`. -/
def Js.budgetInfoBudget (categoryBudgetData : Js.CategoryBudgetData) (key : String) : ℚ :=
  match objGet categoryBudgetData.own key with
  | some budgetInfo => orZero budgetInfo.budget
  | none =>
    if key = "__proto__" then
      match categoryBudgetData.proto with
      | some p => orZero p.budget
      | none => 0
    else 0

/-- The item that the loop of `categoryData` creates for the first transaction of a
category. -/
def Js.newCategoryItem (categoryBudgetData : Js.CategoryBudgetData)
    (transaction : Transaction) : Js.CategoryItem :=
  { category := transaction.category
    type := transaction.type
    income := JsQuotient.num 0
    expenses := JsQuotient.num 0
    total := JsQuotient.num 0
    count := 0
    budget := Js.budgetInfoBudget categoryBudgetData transaction.category }

/-- The updates that the loop of `categoryData` makes to the item of a transaction. -/
def Js.categoryAdd (item : Js.CategoryItem) (transaction : Transaction) : Js.CategoryItem :=
  let item :=
    if transaction.type = "Income" then
      { item with income := item.income.plus (JsQuotient.num transaction.amount) }
    else { item with expenses := item.expenses.plus (JsQuotient.num transaction.amount) }
  { item with
    total := item.total.plus (JsQuotient.num transaction.amount)
    count := item.count + 1 }

/-- One iteration of the first loop of `categoryData`.  When the category is no own property
of `data` and is the name of a member of `Object.prototype`, the test `!data[category]` finds
that member: no item is created, and the additions go to the inherited object, not to
`data`. -/
def Js.categoryStep (categoryBudgetData : Js.CategoryBudgetData)
    (data : List (String × Js.CategoryItem)) (transaction : Transaction) :
    List (String × Js.CategoryItem) :=
  match objGet data transaction.category with
  | some item => objSet data transaction.category (Js.categoryAdd item transaction)
  | none =>
    if transaction.category ∈ objectPrototypeKeys then data
    else
      objSet data transaction.category
        (Js.categoryAdd (Js.newCategoryItem categoryBudgetData transaction) transaction)

/-- The second loop of `categoryData`, one item. -/
def Js.finishCategoryItem (item : Js.CategoryItem) : Js.CategoryRow :=
  { category := item.category
    type := item.type
    income := item.income
    expenses := item.expenses
    total := item.total
    count := item.count
    budget := item.budget
    variance :=
      if item.type = "Expense" then (JsQuotient.num item.budget).minus item.expenses
      else item.income.minus (JsQuotient.num item.budget)
    percentage :=
      if item.type = "Expense" then
        if item.budget > 0 then
          (item.expenses.over (JsQuotient.num item.budget)).product (JsQuotient.num 100)
        else JsQuotient.num 0
      else
        if item.budget > 0 then
          (item.income.over (JsQuotient.num item.budget)).product (JsQuotient.num 100)
        else JsQuotient.num 0 }

/-- The order that the comparator `(a, b) => b.total - a.total` asks for: `a` stays before `b`
unless the difference is positive.  A difference that is `NaN` counts as `0`. -/
def Js.largestTotalFirst (a b : Js.CategoryRow) : Prop :=
  (b.total.minus a.total).positive = false

instance : DecidableRel Js.largestTotalFirst := fun a b => by
  unfold Js.largestTotalFirst; exact inferInstance

/-- The constant `categoryData` of `ReportsSheet` on Number values and with the reads of its
loop reaching the prototype; `none` when `getCategoryBudgetData` throws, since the provider
then has no value to give the sheet. -/
def Js.categoryData (s : State) (selectedMonth selectedCategory selectedType : String) :
    Option (List Js.CategoryRow) :=
  match Js.getCategoryBudgetData s with
  | some categoryBudgetData =>
    let filteredTransactions :=
      reportFilteredTransactions s selectedMonth selectedCategory selectedType
    let data := filteredTransactions.foldl (Js.categoryStep categoryBudgetData) []
    some ((data.map fun kv => Js.finishCategoryItem kv.2).insertionSort Js.largestTotalFirst)
  | none => none

/-! ## Definitions used to state the results -/

/-- The entry that the first loop writes for a category. -/
def initialSpending (category : Category) : Spending :=
  { type := category.type
    budget := orZero category.budget
    actual := 0
    remaining := orZero category.budget
    transactions := [] }

/-- The effect of the second loop on the entry under key `k`. -/
def withActual (k : String) (txs : List Transaction) (e : Spending) : Spending :=
  { e with
    actual := (txs.filter fun t => t.category = k).foldl (fun a t => a + t.amount) e.actual
    transactions := e.transactions ++ txs.filter fun t => t.category = k }

/-- Appending a transaction to the transaction store. -/
def appendTransaction (s : State) (o : Transaction) : State :=
  { s with transactions := s.transactions ++ [o] }

/-- The entry that one iteration of the loop writes, from the entry it found. -/
def monthAdd (e : MonthTotals) (t : Transaction) : MonthTotals :=
  if t.type = "Income" then { e with income := e.income + t.amount }
  else { e with expenses := e.expenses + t.amount }

/-- The effect of the loop of `getMonthlyData` on the entry under key `k`. -/
def monthAcc (k : String) (txs : List Transaction) (e : MonthTotals) : MonthTotals :=
  { income :=
      (txs.filter fun t => monthKey t.date = k ∧ t.type = "Income").foldl
        (fun a t => a + t.amount) e.income
    expenses :=
      (txs.filter fun t => monthKey t.date = k ∧ t.type ≠ "Income").foldl
        (fun a t => a + t.amount) e.expenses }

/-- The start year of the label that the July-start rule gives a date. -/
def fyStartYear (date : JsDate) : Int :=
  if date.month ≥ 6 then date.year else date.year - 1

/-- The start year that `getTransactionsForFinancialYear` reads from a label: `Number` of the
first segment of `split('-')`. -/
def labelStartYear? (label : String) : Option Nat :=
  jsNumber ((splitDash label.data).headD [])

/-- The fields of a stored record other than its id, in the shape of the input they came
from. -/
def StoredTransaction.fields (t : StoredTransaction) : TransactionInput :=
  { date := t.date
    description := t.description
    amount := t.amount
    category := t.category
    type := t.type }

/-- A valid row of an import sheet: the date parses to a valid date, the amount to a number,
and the type is exactly Income or Expense. -/
def TransactionInput.validRow (row : TransactionInput) : Prop :=
  row.date ≠ none ∧ row.amount ≠ JsNum.nan ∧ (row.type = "Income" ∨ row.type = "Expense")

instance (row : TransactionInput) : Decidable row.validRow := by
  unfold TransactionInput.validRow; exact inferInstance

/-- The month of `a` is earlier than the month of `b`. -/
def monthBefore (a b : JsDate) : Prop :=
  a.year < b.year ∨ (a.year = b.year ∧ a.month < b.month)

/-- A date with a four-digit year and a month index from 0 to 11. -/
def fourDigitYear (d : JsDate) : Prop :=
  1000 ≤ d.year ∧ d.year ≤ 9999 ∧ d.month < 12

instance (d : JsDate) : Decidable (fourDigitYear d) := by
  unfold fourDigitYear
  infer_instance

/-- The amounts are whole numbers whose magnitudes add up to at most
`Number.MAX_SAFE_INTEGER`, which is `2 ^ 53 - 1`. -/
def wholeAmounts (txs : List Transaction) : Prop :=
  (∀ t ∈ txs, t.amount.den = 1) ∧ (txs.map fun t => |t.amount|).sum ≤ 9007199254740991

instance (txs : List Transaction) : Decidable (wholeAmounts txs) := by
  unfold wholeAmounts
  infer_instance

/-- A value of `getMonthlyData` computed exactly, read as two Numbers. -/
def MonthTotals.toNumbers (e : MonthTotals) : Js.MonthTotals :=
  { income := JsQuotient.num e.income, expenses := JsQuotient.num e.expenses }

/-- The entry that one iteration of the loop writes, from the entry it found, on Numbers. -/
def Js.monthAdd (e : Js.MonthTotals) (t : Transaction) : Js.MonthTotals :=
  if t.type = "Income" then { e with income := e.income.plus (JsQuotient.num t.amount) }
  else { e with expenses := e.expenses.plus (JsQuotient.num t.amount) }

/-- The sum of the magnitudes held by a value of `getMonthlyData`. -/
def monthsMagnitude (obj : List (String × MonthTotals)) : ℚ :=
  (obj.map fun kv => |kv.2.income| + |kv.2.expenses|).sum

/-- A value of `categorySpending` computed exactly, with its `actual` read as a Number. -/
def Spending.toNumbers (e : Spending) : Js.Spending :=
  { type := e.type
    budget := e.budget
    actual := JsQuotient.num e.actual
    remaining := e.remaining
    transactions := e.transactions }

/-- The second loop of `getCategoryBudgetData` on the own properties, for a transaction whose
category is an own property or names nothing that is inherited. -/
def Js.addActualOwn (own : List (String × Js.Spending)) (transaction : Transaction) :
    List (String × Js.Spending) :=
  match objGet own transaction.category with
  | some e =>
    objSet own transaction.category
      { e with
        actual := e.actual.plus (JsQuotient.num transaction.amount)
        transactions := e.transactions ++ [transaction] }
  | none => own

/-- The effect of the second loop on the own entry under key `k`, on Numbers. -/
def Js.withActual (k : String) (txs : List Transaction) (e : Js.Spending) : Js.Spending :=
  { e with
    actual := (txs.filter fun t => t.category = k).foldl
      (fun a t => a.plus (JsQuotient.num t.amount)) e.actual
    transactions := e.transactions ++ txs.filter fun t => t.category = k }

/-- The sum of the magnitudes of the `actual` values of `categorySpending`. -/
def spendingMagnitude (obj : List (String × Spending)) : ℚ :=
  (obj.map fun kv => |kv.2.actual|).sum

/-- The effect of one iteration of the first loop of `categoryData` on the item under the
category of the transaction, on Numbers; `none` is a missing item. -/
def Js.categoryFoldAt (categoryBudgetData : Js.CategoryBudgetData)
    (item : Option Js.CategoryItem) (t : Transaction) : Option Js.CategoryItem :=
  some (Js.categoryAdd
    (match item with
      | some item => item
      | none => Js.newCategoryItem categoryBudgetData t) t)

/-! ## Example stores -/

/-- The store of the worked scenario: a salary of 4500 and a food expense of 700 in August
2024. -/
def scenarioStore : State :=
  { transactions :=
      [{ id := 1, date := ⟨2024, 7, 1, 0⟩, description := "Pay", amount := 4500,
         category := "Salary", type := "Income" },
       { id := 2, date := ⟨2024, 7, 15, 0⟩, description := "Groceries", amount := 700,
         category := "Food", type := "Expense" }]
    categories :=
      [{ id := 1, name := "Salary", type := "Income", budget := 5000 },
       { id := 7, name := "Food", type := "Expense", budget := 600 }]
    alertThreshold := 500
    currentFinancialYear := "2024-2025" }

/-- A store holding one transaction, entered for 30 June 2024 and read at 10:00 local time. -/
def june30Store : State :=
  { transactions :=
      [{ id := 1, date := ⟨2024, 5, 30, 36000000⟩, description := "Groceries", amount := 50,
         category := "Food", type := "Expense" }]
    categories := []
    alertThreshold := 500
    currentFinancialYear := "2023-2024" }

/-- A store in which two categories share the name Food. -/
def duplicateNameStore : State :=
  { transactions :=
      [{ id := 1, date := ⟨2024, 7, 15, 0⟩, description := "Groceries", amount := 50,
         category := "Food", type := "Expense" }]
    categories :=
      [{ id := 7, name := "Food", type := "Expense", budget := 600 },
       { id := 13, name := "Food", type := "Expense", budget := 300 }]
    alertThreshold := 500
    currentFinancialYear := "2024-2025" }

/-- A store without transactions and categories, in the financial year 2024-2025. -/
def emptyStore : State :=
  { transactions := []
    categories := []
    alertThreshold := 500
    currentFinancialYear := "2024-2025" }

/-- A transaction dated 1 March 2024, read at local midnight. -/
def marchTransaction : Transaction :=
  { id := 1, date := ⟨2024, 2, 1, 0⟩, description := "Rent", amount := 1200,
    category := "Housing", type := "Expense" }

/-- A store with the transaction of 1 March 2024 alone. -/
def marchStore : State :=
  { transactions := [marchTransaction]
    categories := []
    alertThreshold := 500
    currentFinancialYear := "2023-2024" }

/-- A store with two transactions of the year 1000, one in March and one in August. -/
def year1000Store : State :=
  { transactions :=
      [{ id := 1, date := ⟨1000, 2, 1, 0⟩, description := "Tithe", amount := 1,
         category := "Other Expenses", type := "Expense" },
       { id := 2, date := ⟨1000, 7, 1, 0⟩, description := "Harvest", amount := 2,
         category := "Other Income", type := "Income" }]
    categories := []
    alertThreshold := 500
    currentFinancialYear := "2024-2025" }

/-- A valid row: groceries of 700 on 15 August 2024. -/
def foodRow : TransactionInput :=
  { date := some ⟨2024, 7, 15, 0⟩, description := "Groceries", amount := JsNum.num 700,
    category := "Food", type := "Expense" }

/-- A valid row: a salary of 4500 on 1 August 2024. -/
def salaryRow : TransactionInput :=
  { date := some ⟨2024, 7, 1, 0⟩, description := "Pay", amount := JsNum.num 4500,
    category := "Salary", type := "Income" }

/-- A row whose amount, such as the text `abc`, parses to `NaN`. -/
def nanAmountRow : TransactionInput :=
  { date := some ⟨2024, 7, 15, 0⟩, description := "Groceries", amount := JsNum.nan,
    category := "Food", type := "Expense" }

/-- A row whose type is neither Income nor Expense. -/
def transferRow : TransactionInput :=
  { date := some ⟨2024, 7, 15, 0⟩, description := "To savings", amount := JsNum.num 10,
    category := "Savings", type := "Transfer" }

/-- A row whose date does not parse to a valid date. -/
def invalidDateRow : TransactionInput :=
  { date := none, description := "Bus", amount := JsNum.num 3,
    category := "Transportation", type := "Expense" }

/-- Form data with a negative amount, such as the text `-50`. -/
def negativeAmountInput : TransactionInput :=
  { date := some ⟨2024, 7, 15, 0⟩, description := "Refund", amount := JsNum.num (-50),
    category := "Food", type := "Expense" }

/-- A clock that returns the same millisecond at every call. -/
def frozenClock : Nat → Nat := fun _ => 1723680000000

/-- A random source for which `Math.floor(Math.random() * 1000)` is 123 at every call. -/
def constantRandom : Nat → Fin 1000 := fun _ => 123

/-- A store with one expense of 700 in August 2024 and no income. -/
def expenseOnlyStore : State :=
  { transactions :=
      [{ id := 2, date := ⟨2024, 7, 15, 0⟩, description := "Groceries", amount := 700,
         category := "Food", type := "Expense" }]
    categories := [{ id := 7, name := "Food", type := "Expense", budget := 600 }]
    alertThreshold := 500
    currentFinancialYear := "2024-2025" }

/-- A stored record: rent of 1200 on 1 March 2024, with id 1. -/
def storedRent : StoredTransaction :=
  { id := 1, date := some ⟨2024, 2, 1, 0⟩, description := "Rent", amount := JsNum.num 1200,
    category := "Housing", type := "Expense" }

/-- A stored record: groceries of 700 on 15 August 2024, with id 2. -/
def storedFood : StoredTransaction :=
  { id := 2, date := some ⟨2024, 7, 15, 0⟩, description := "Groceries",
    amount := JsNum.num 700, category := "Food", type := "Expense" }

/-- A store with an expense on 10 July 2024 and one on 15 August 2024. -/
def julyAugustStore : State :=
  { transactions :=
      [{ id := 1, date := ⟨2024, 6, 10, 0⟩, description := "Rent", amount := 1200,
         category := "Housing", type := "Expense" },
       { id := 2, date := ⟨2024, 7, 15, 0⟩, description := "Groceries", amount := 700,
         category := "Food", type := "Expense" }]
    categories := defaultCategories
    alertThreshold := 500
    currentFinancialYear := "2024-2025" }

/-- A store in the financial year `999-1000` with a transaction on 15 August 999 and one on
1 March 1000. -/
def year999Store : State :=
  { transactions :=
      [{ id := 1, date := ⟨999, 7, 15, 0⟩, description := "Harvest", amount := 2,
         category := "Other Income", type := "Income" },
       { id := 2, date := ⟨1000, 2, 1, 0⟩, description := "Tithe", amount := 1,
         category := "Other Expenses", type := "Expense" }]
    categories := defaultCategories
    alertThreshold := 500
    currentFinancialYear := "999-1000" }

/-- A store in which an Income and an Expense category share the name Food, with one Income
transaction under that name. -/
def twoFoodStore : State :=
  { transactions :=
      [{ id := 1, date := ⟨2024, 7, 15, 0⟩, description := "Market stall", amount := 50,
         category := "Food", type := "Income" }]
    categories :=
      [{ id := 7, name := "Food", type := "Income", budget := 100 },
       { id := 13, name := "Food", type := "Expense", budget := 100 }]
    alertThreshold := 500
    currentFinancialYear := "2024-2025" }

/-- A store whose only category has the type Transfer, with one transaction of that type. -/
def transferCategoryStore : State :=
  { transactions :=
      [{ id := 1, date := ⟨2024, 7, 15, 0⟩, description := "To savings", amount := 50,
         category := "Savings", type := "Transfer" }]
    categories := [{ id := 21, name := "Savings", type := "Transfer", budget := 100 }]
    alertThreshold := 500
    currentFinancialYear := "2024-2025" }

/-- The category Food of the scenario store. -/
def scenarioFood : Category :=
  { id := 7, name := "Food", type := "Expense", budget := 600 }

/-- A store with transactions in seven months of the financial year 2024-2025, entered out of
order. -/
def sevenMonthStore : State :=
  { transactions :=
      [{ id := 1, date := ⟨2024, 9, 5, 0⟩, description := "Pay", amount := 4000,
         category := "Salary", type := "Income" },
       { id := 2, date := ⟨2024, 6, 10, 0⟩, description := "Rent", amount := 1500,
         category := "Rent", type := "Expense" },
       { id := 3, date := ⟨2025, 0, 20, 0⟩, description := "Pay", amount := 4100,
         category := "Salary", type := "Income" },
       { id := 4, date := ⟨2024, 7, 15, 0⟩, description := "Groceries", amount := 300,
         category := "Food", type := "Expense" },
       { id := 5, date := ⟨2024, 11, 24, 0⟩, description := "Gifts", amount := 250,
         category := "Other Expenses", type := "Expense" },
       { id := 6, date := ⟨2024, 8, 1, 0⟩, description := "Rent", amount := 1500,
         category := "Rent", type := "Expense" },
       { id := 7, date := ⟨2024, 10, 2, 0⟩, description := "Pay", amount := 4000,
         category := "Salary", type := "Income" },
       { id := 8, date := ⟨2024, 9, 28, 0⟩, description := "Groceries", amount := 320,
         category := "Food", type := "Expense" }]
    categories := defaultCategories
    alertThreshold := 500
    currentFinancialYear := "2024-2025" }

/-- A store with three Income transactions of the financial year 2024-2025 whose amounts are
the Numbers of `0.1`, `0.2` and `10.1`: the first and the third in August 2024 under
Interest, the second in September 2024 under Refunds. -/
def tenthsStore : State :=
  { transactions :=
      [{ id := 1, date := ⟨2024, 7, 1, 0⟩, description := "Savings account",
         amount := 3602879701896397 / 36028797018963968, category := "Interest",
         type := "Income" },
       { id := 2, date := ⟨2024, 8, 1, 0⟩, description := "Postage refund",
         amount := 3602879701896397 / 18014398509481984, category := "Refunds",
         type := "Income" },
       { id := 3, date := ⟨2024, 7, 20, 0⟩, description := "Term deposit",
         amount := 5685794529555251 / 562949953421312, category := "Interest",
         type := "Income" }]
    categories :=
      [{ id := 1, name := "Interest", type := "Income", budget := 20 },
       { id := 2, name := "Refunds", type := "Income", budget := 5 }]
    alertThreshold := 500
    currentFinancialYear := "2024-2025" }

/-- A store with the category Food and one transaction under it, in the financial year
2024-2025. -/
def foodOnlyStore : State :=
  { transactions :=
      [{ id := 1, date := ⟨2024, 7, 15, 0⟩, description := "Groceries", amount := 700,
         category := "Food", type := "Expense" }]
    categories := [{ id := 7, name := "Food", type := "Expense", budget := 600 }]
    alertThreshold := 500
    currentFinancialYear := "2024-2025" }

/-- A transaction of 20 August 2024 whose category is the word `constructor`. -/
def constructorOrphan : Transaction :=
  { id := 2, date := ⟨2024, 7, 20, 0⟩, description := "Paving", amount := 50,
    category := "constructor", type := "Expense" }

/-- The store with the category Food and two transactions of the financial year 2024-2025:
one under Food and one whose category is the word `constructor`. -/
def constructorStore : State :=
  { transactions :=
      [{ id := 1, date := ⟨2024, 7, 15, 0⟩, description := "Groceries", amount := 700,
         category := "Food", type := "Expense" },
       { id := 2, date := ⟨2024, 7, 20, 0⟩, description := "Paving", amount := 50,
         category := "constructor", type := "Expense" }]
    categories := [{ id := 7, name := "Food", type := "Expense", budget := 600 }]
    alertThreshold := 500
    currentFinancialYear := "2024-2025" }

/-! ## Rendering and parsing of labels -/

theorem digitVal?_digitChar (d : Nat) (h : d < 10) : digitVal? (digitChar d) = some d := by
  interval_cases d <;> decide

theorem digitChar_ne_dash (d : Nat) (h : d < 10) : digitChar d ≠ '-' := by
  interval_cases d <;> decide

theorem parseNatAux_renderNatAux (fuel : Nat) :
    ∀ (n : Nat) (acc : List Char), n < fuel →
      parseNatAux (renderNatAux fuel n acc) 0 = parseNatAux acc n := by
  induction fuel with
  | zero => intro n acc h; omega
  | succ fuel ih =>
    intro n acc h
    unfold renderNatAux
    split
    · next hlt =>
      simp [parseNatAux, digitVal?_digitChar n hlt]
    · next hge =>
      rw [ih (n / 10) _ (by omega)]
      simp only [parseNatAux, digitVal?_digitChar (n % 10) (Nat.mod_lt _ (by decide))]
      congr 1
      omega

/-- Reading back a rendered natural number with `Number` gives the number. -/
theorem jsNumber_renderNat (n : Nat) : jsNumber (renderNat n) = some n := by
  unfold jsNumber renderNat
  rw [parseNatAux_renderNatAux (n + 1) n [] (by omega)]
  rfl

theorem renderNatAux_eq_append (fuel : Nat) :
    ∀ (n : Nat) (acc : List Char),
      ∃ ds : List Char, renderNatAux fuel n acc = ds ++ acc ∧ ∀ c ∈ ds, c ≠ '-' := by
  induction fuel with
  | zero => intro n acc; exact ⟨[], rfl, by simp⟩
  | succ fuel ih =>
    intro n acc
    unfold renderNatAux
    split
    · next hlt =>
      exact ⟨[digitChar n], rfl, by simpa using digitChar_ne_dash n hlt⟩
    · next hge =>
      obtain ⟨ds, hds, hno⟩ := ih (n / 10) (digitChar (n % 10) :: acc)
      refine ⟨ds ++ [digitChar (n % 10)], by simp [hds], ?_⟩
      intro c hc
      rcases List.mem_append.1 hc with h | h
      · exact hno c h
      · have : c = digitChar (n % 10) := by simpa using h
        rw [this]
        exact digitChar_ne_dash _ (Nat.mod_lt _ (by decide))

theorem renderNat_no_dash (n : Nat) : ∀ c ∈ renderNat n, c ≠ '-' := by
  obtain ⟨ds, hds, hno⟩ := renderNatAux_eq_append (n + 1) n []
  unfold renderNat
  rw [hds]
  simpa using hno

theorem splitDash_no_dash (ds : List Char) (h : ∀ c ∈ ds, c ≠ '-') : splitDash ds = [ds] := by
  induction ds with
  | nil => rfl
  | cons c cs ih =>
    have hc : c ≠ '-' := h c (by simp)
    have hcs : ∀ x ∈ cs, x ≠ '-' := fun x hx => h x (by simp [hx])
    simp [splitDash, hc, ih hcs]

theorem splitDash_append_dash (ds rest : List Char) (h : ∀ c ∈ ds, c ≠ '-') :
    splitDash (ds ++ '-' :: rest) = ds :: splitDash rest := by
  induction ds with
  | nil => simp [splitDash]
  | cons c cs ih =>
    have hc : c ≠ '-' := h c (by simp)
    have hcs : ∀ x ∈ cs, x ≠ '-' := fun x hx => h x (by simp [hx])
    simp [splitDash, hc, ih hcs]

/-- The range that `getTransactionsForFinancialYear` computes from the label of two natural
years. -/
theorem fyRange_fyLabel (a b : Nat) :
    fyRange (fyLabel a b) = (newDate (some a) 6 1, newDate (some b) 5 30) := by
  have hsplit : splitDash (renderNat a ++ '-' :: renderNat b) = [renderNat a, renderNat b] := by
    rw [splitDash_append_dash _ _ (renderNat_no_dash a), splitDash_no_dash _ (renderNat_no_dash b)]
  show fyRange (String.mk (renderNat a ++ '-' :: renderNat b)) = _
  simp [fyRange, hsplit, jsNumber_renderNat]

/-! ## Financial-year labels -/

/-- C1: a date in July-December of year `Y` gets the label `Y-(Y+1)` and a date in January-June
of year `Y` gets the label `(Y-1)-Y`, both from the initialiser of the current financial year
and from the loop over the transaction dates in `getAvailableFinancialYears`. -/
theorem financialYear_label_rule (Y : Int) (m day ms : Nat) :
    (6 ≤ m ∧ m ≤ 11 →
      initialFinancialYear ⟨Y, m, day, ms⟩ = fyLabel Y (Y + 1) ∧
      transactionFinancialYear ⟨Y, m, day, ms⟩ = fyLabel Y (Y + 1)) ∧
    (m ≤ 5 →
      initialFinancialYear ⟨Y, m, day, ms⟩ = fyLabel (Y - 1) Y ∧
      transactionFinancialYear ⟨Y, m, day, ms⟩ = fyLabel (Y - 1) Y) := by
  constructor
  · intro h
    have h6 : m ≥ 6 := h.1
    simp [initialFinancialYear, transactionFinancialYear, h6]
  · intro h
    have h6 : ¬ m ≥ 6 := by omega
    simp [initialFinancialYear, transactionFinancialYear, h6]

/-- The rule of C1 at 15 August 2024 and at 1 March 2024, with the labels written out. -/
theorem financialYear_label_rule_witness :
    (initialFinancialYear ⟨2024, 7, 15, 0⟩ = "2024-2025" ∧
      transactionFinancialYear ⟨2024, 7, 15, 0⟩ = "2024-2025") ∧
    (initialFinancialYear ⟨2024, 2, 1, 0⟩ = "2023-2024" ∧
      transactionFinancialYear ⟨2024, 2, 1, 0⟩ = "2023-2024") :=
  ⟨(financialYear_label_rule 2024 7 15 0).1 (by decide),
   (financialYear_label_rule 2024 2 1 0).2 (by decide)⟩

/-! ## The filter of a financial year -/

theorem fyLabel_data_ne_nil (a b : Int) : (fyLabel a b).data ≠ [] := by
  simp [fyLabel]

theorem data_ne_nil_of_ne_empty (fy : String) (h : fy ≠ "") : fy.data ≠ [] := by
  intro hd
  exact h (String.ext hd)

/-- Membership in the result of `getTransactionsForFinancialYear` for a non-empty label. -/
theorem mem_getTransactionsForFinancialYear (s : State) (fy : String) (h : fy.data ≠ [])
    (t : Transaction) :
    t ∈ getTransactionsForFinancialYear s fy ↔
      t ∈ s.transactions ∧ inFinancialYear fy t.date = true := by
  simp [getTransactionsForFinancialYear, h, List.mem_filter]

/-- What the filter tests, in calendar terms, for the label of two years from 100 to 275760:
the date is on or after 1 July of the start year, and before 30 June of the end year or at
midnight of that day. -/
theorem inFinancialYear_fyLabel (a b : Nat) (ha : 100 ≤ a ∧ a ≤ 275760)
    (hb : 100 ≤ b ∧ b ≤ 275760) (d : JsDate) (hd : d.wellFormed) :
    inFinancialYear (fyLabel a b) d = true ↔
      ((a : Int) < d.year ∨ (d.year = a ∧ 6 ≤ d.month)) ∧
      (d.year < b ∨ (d.year = b ∧
        (d.month < 5 ∨ (d.month = 5 ∧ (d.day < 30 ∨ (d.day = 30 ∧ d.ms = 0)))))) := by
  obtain ⟨hm, hd1, hd31, hms⟩ := hd
  have ha1 : ¬ a ≤ 99 := by omega
  have hb1 : ¬ b ≤ 99 := by omega
  simp only [inFinancialYear, fyRange_fyLabel, newDate, if_neg ha1, if_neg hb1, if_pos ha.2,
    if_pos hb.2, dateGe, dateLe, JsDate.le, Bool.and_eq_true, Bool.or_eq_true,
    decide_eq_true_eq]
  constructor
  · rintro ⟨h1, h2⟩
    constructor
    · rcases h1 with h | ⟨h, h'⟩
      · left; exact h
      · right
        refine ⟨h.symm, ?_⟩
        rcases h' with h' | ⟨h', _⟩ <;> omega
    · rcases h2 with h | ⟨h, h'⟩
      · left; exact h
      · right
        refine ⟨h, ?_⟩
        rcases h' with h' | ⟨h', h''⟩
        · left; exact h'
        · right
          refine ⟨h', ?_⟩
          rcases h'' with h'' | ⟨h'', h3⟩
          · left; exact h''
          · right; exact ⟨h'', by omega⟩
  · rintro ⟨h1, h2⟩
    constructor
    · rcases h1 with h | ⟨h, h'⟩
      · left; exact h
      · right
        refine ⟨h.symm, ?_⟩
        rcases Nat.lt_or_ge 6 d.month with h6 | h6
        · left; exact h6
        · right
          refine ⟨by omega, ?_⟩
          rcases Nat.lt_or_ge 1 d.day with h7 | h7
          · left; exact h7
          · right; exact ⟨by omega, Nat.zero_le _⟩
    · rcases h2 with h | ⟨h, h'⟩
      · left; exact h
      · right
        refine ⟨h, ?_⟩
        rcases h' with h' | ⟨h', h''⟩
        · left; exact h'
        · right
          refine ⟨h', ?_⟩
          rcases h'' with h'' | ⟨h'', h3⟩
          · left; exact h''
          · right; exact ⟨h'', by omega⟩

/-- C2 at a failing input: the transaction of 30 June 2024, 10:00, carries the label
`2023-2024` by the July-start rule, and `getTransactionsForFinancialYear` returns it for no
label `Y-(Y+1)` at all. -/
theorem june30_in_no_financialYear :
    june30Store.transactions.map (fun t => transactionFinancialYear t.date) = ["2023-2024"] ∧
    ∀ Y : Nat, getTransactionsForFinancialYear june30Store (fyLabel Y (Y + 1 : Nat)) = [] := by
  refine ⟨by decide, ?_⟩
  intro Y
  have hne := fyLabel_data_ne_nil (Y : Int) ((Y + 1 : Nat) : Int)
  simp only [getTransactionsForFinancialYear, inFinancialYear, if_neg hne, fyRange_fyLabel,
    june30Store]
  simp only [List.filter_eq_nil_iff, List.mem_singleton, forall_eq]
  simp only [newDate]
  split_ifs <;> simp [dateGe, dateLe, JsDate.le] <;> omega

/-- C3 at a failing input: the filter for `2023-2024` drops a transaction dated 30 June 2024
at 10:00, a day the claim includes. -/
theorem june30_not_in_its_financialYear :
    getTransactionsForFinancialYear june30Store "2023-2024" = [] ∧
    (fyRange "2023-2024").2 = some ⟨2024, 5, 30, 0⟩ := by
  decide

/-! ## Totals -/

theorem foldl_add_amount (l : List Transaction) :
    ∀ init : ℚ, l.foldl (fun sum t => sum + t.amount) init
      = init + (l.map fun t => t.amount).sum := by
  induction l with
  | nil => intro init; simp
  | cons t ts ih => intro init; simp [ih, add_assoc]

/-- C4: for a financial-year label (a non-empty string) `getTotalIncome` is the sum of the
amounts of the Income transactions that `getTransactionsForFinancialYear` returns, and
`getTotalExpenses` the sum over its Expense transactions; both are 0 when it returns none. -/
theorem totals_are_sums_over_financialYear (s : State) (fy : String) (h : fy ≠ "") :
    getTotalIncome s fy
      = (((getTransactionsForFinancialYear s fy).filter fun t => t.type = "Income").map
          fun t => t.amount).sum ∧
    getTotalExpenses s fy
      = (((getTransactionsForFinancialYear s fy).filter fun t => t.type = "Expense").map
          fun t => t.amount).sum ∧
    (getTransactionsForFinancialYear s fy = [] →
      getTotalIncome s fy = 0 ∧ getTotalExpenses s fy = 0) := by
  have hd := data_ne_nil_of_ne_empty fy h
  have hi : getTotalIncome s fy
      = (((getTransactionsForFinancialYear s fy).filter fun t => t.type = "Income").map
          fun t => t.amount).sum := by
    simp [getTotalIncome, hd, foldl_add_amount]
  have he : getTotalExpenses s fy
      = (((getTransactionsForFinancialYear s fy).filter fun t => t.type = "Expense").map
          fun t => t.amount).sum := by
    simp [getTotalExpenses, hd, foldl_add_amount]
  refine ⟨hi, he, ?_⟩
  intro hnil
  rw [hi, he, hnil]
  simp

/-- C4 on the scenario store for the label `2024-2025`. -/
theorem totals_are_sums_over_financialYear_witness :
    "2024-2025" ≠ "" ∧
    getTotalIncome scenarioStore "2024-2025"
      = (((getTransactionsForFinancialYear scenarioStore "2024-2025").filter
          fun t => t.type = "Income").map fun t => t.amount).sum :=
  ⟨by decide, (totals_are_sums_over_financialYear scenarioStore "2024-2025" (by decide)).1⟩

/-- C5: `getNetPosition` is `getTotalIncome` minus `getTotalExpenses`, for every store and
label. -/
theorem netPosition_eq_income_sub_expenses (s : State) (fy : String) :
    getNetPosition s fy = getTotalIncome s fy - getTotalExpenses s fy := by
  rfl

/-! ## Dictionary lemmas -/

theorem objGet_objSet_same {α : Type} (obj : List (String × α)) (k : String) (v : α) :
    objGet (objSet obj k v) k = some v := by
  induction obj with
  | nil => simp [objSet, objGet]
  | cons kv rest ih =>
    obtain ⟨k', w⟩ := kv
    by_cases h : k' = k
    · simp [objSet, objGet, h]
    · simp [objSet, objGet, h, ih]

theorem objGet_objSet_ne {α : Type} (obj : List (String × α)) (k k' : String) (v : α)
    (h : k ≠ k') : objGet (objSet obj k v) k' = objGet obj k' := by
  induction obj with
  | nil => simp [objSet, objGet, h]
  | cons kv rest ih =>
    obtain ⟨k₀, w⟩ := kv
    by_cases h₀ : k₀ = k
    · subst h₀
      simp [objSet, objGet, h]
    · by_cases h₁ : k₀ = k'
      · subst h₁
        simp [objSet, objGet, h₀]
      · simp [objSet, objGet, h₀, h₁, ih]

theorem mem_objSet {α : Type} (obj : List (String × α)) (k : String) (v : α)
    (x : String × α) (hx : x ∈ objSet obj k v) : x ∈ obj ∨ x = (k, v) := by
  induction obj with
  | nil => right; simpa [objSet] using hx
  | cons kv rest ih =>
    obtain ⟨k₀, w⟩ := kv
    by_cases h₀ : k₀ = k
    · subst h₀
      simp only [objSet, if_true, List.mem_cons] at hx
      rcases hx with hx | hx
      · right; exact hx
      · left; exact List.mem_cons_of_mem _ hx
    · simp only [objSet, if_neg h₀, List.mem_cons] at hx
      rcases hx with hx | hx
      · left; rw [hx]; exact List.mem_cons_self _ _
      · rcases ih hx with h | h
        · left; exact List.mem_cons_of_mem _ h
        · right; exact h

theorem mem_of_objGet {α : Type} (obj : List (String × α)) (k : String) (v : α)
    (h : objGet obj k = some v) : (k, v) ∈ obj := by
  induction obj with
  | nil => simp [objGet] at h
  | cons kv rest ih =>
    obtain ⟨k₀, w⟩ := kv
    by_cases h₀ : k₀ = k
    · subst h₀
      simp [objGet] at h
      simp [h]
    · simp only [objGet, if_neg h₀] at h
      exact List.mem_cons_of_mem _ (ih h)

theorem objGet_map {α β : Type} (f : α → β) (obj : List (String × α)) (k : String) :
    objGet (obj.map fun kv => (kv.1, f kv.2)) k = (objGet obj k).map f := by
  induction obj with
  | nil => simp [objGet]
  | cons kv rest ih =>
    obtain ⟨k₀, w⟩ := kv
    by_cases h₀ : k₀ = k
    · simp [objGet, h₀]
    · simp [objGet, h₀, ih]

/-! ## The three loops of `getCategoryBudgetData` -/

theorem orZero_eq (x : ℚ) : orZero x = x := by
  unfold orZero
  split
  · next h => exact h.symm
  · rfl

theorem initCategory_eq (obj : List (String × Spending)) (c : Category) :
    initCategory obj c = objSet obj c.name (initialSpending c) := rfl

theorem objGet_foldl_initCategory_of_not_mem (cats : List Category) (k : String)
    (hk : ∀ c ∈ cats, c.name ≠ k) :
    ∀ obj : List (String × Spending), objGet (cats.foldl initCategory obj) k = objGet obj k := by
  induction cats with
  | nil => intro obj; rfl
  | cons c cs ih =>
    intro obj
    have hc : c.name ≠ k := hk c (by simp)
    have hcs : ∀ c' ∈ cs, c'.name ≠ k := fun c' h' => hk c' (by simp [h'])
    simp only [List.foldl_cons]
    rw [ih hcs, initCategory_eq, objGet_objSet_ne _ _ _ _ hc]

theorem objGet_foldl_initCategory_of_mem (cats : List Category)
    (hnd : (cats.map fun c => c.name).Nodup) (c : Category) (hc : c ∈ cats) :
    ∀ obj : List (String × Spending),
      objGet (cats.foldl initCategory obj) c.name = some (initialSpending c) := by
  induction cats with
  | nil => simp at hc
  | cons c' cs ih =>
    intro obj
    simp only [List.map_cons, List.nodup_cons, List.mem_map, not_exists, not_and] at hnd
    simp only [List.foldl_cons]
    rcases List.mem_cons.1 hc with h | h
    · subst h
      rw [objGet_foldl_initCategory_of_not_mem cs c.name (fun c' h' => hnd.1 c' h'),
        initCategory_eq, objGet_objSet_same]
    · exact ih hnd.2 h _

theorem objGet_foldl_initCategory_some (cats : List Category) (k : String) (e : Spending) :
    ∀ obj : List (String × Spending), objGet (cats.foldl initCategory obj) k = some e →
      objGet obj k = some e ∨ ∃ c ∈ cats, c.name = k ∧ e = initialSpending c := by
  induction cats with
  | nil => intro obj h; left; exact h
  | cons c cs ih =>
    intro obj h
    simp only [List.foldl_cons] at h
    rcases ih _ h with h' | ⟨c', hc', hn, he⟩
    · by_cases hk : c.name = k
      · right
        refine ⟨c, by simp, hk, ?_⟩
        rw [initCategory_eq, hk, objGet_objSet_same] at h'
        exact (Option.some.inj h').symm
      · left
        rwa [initCategory_eq, objGet_objSet_ne _ _ _ _ hk] at h'
    · right
      exact ⟨c', by simp [hc'], hn, he⟩

theorem withActual_nil (k : String) (e : Spending) : withActual k [] e = e := by
  simp [withActual]

theorem objGet_foldl_addActual (txs : List Transaction) (k : String) :
    ∀ obj : List (String × Spending),
      objGet (txs.foldl addActual obj) k = (objGet obj k).map (withActual k txs) := by
  induction txs with
  | nil =>
    intro obj
    simp only [List.foldl_nil]
    cases objGet obj k <;> simp [withActual_nil]
  | cons t ts ih =>
    intro obj
    simp only [List.foldl_cons]
    rw [ih]
    by_cases hk : t.category = k
    · cases hget : objGet obj k with
      | none =>
        have : addActual obj t = obj := by
          unfold addActual
          rw [hk, hget]
        rw [this, hget]
        rfl
      | some e =>
        have : addActual obj t = objSet obj k
            { e with actual := e.actual + t.amount, transactions := e.transactions ++ [t] } := by
          unfold addActual
          rw [hk, hget]
        rw [this, objGet_objSet_same]
        simp [withActual, hk]
    · have : objGet (addActual obj t) k = objGet obj k := by
        unfold addActual
        cases hget : objGet obj t.category with
        | none => rfl
        | some e => exact objGet_objSet_ne _ _ _ _ hk
      rw [this]
      cases hget : objGet obj k with
      | none => rfl
      | some e => simp [withActual, hk]

/-- The entry of `getCategoryBudgetData` under a key, from the first loop's entry. -/
theorem objGet_getCategoryBudgetData (s : State) (k : String) :
    objGet (getCategoryBudgetData s) k
      = (objGet (s.categories.foldl initCategory []) k).map fun e =>
          finishEntry
            (withActual k (getTransactionsForFinancialYear s s.currentFinancialYear) e) := by
  unfold getCategoryBudgetData
  simp only []
  rw [objGet_map, objGet_foldl_addActual]
  cases objGet (s.categories.foldl initCategory []) k <;> rfl

theorem objGet_eq_none_iff {α : Type} (obj : List (String × α)) (k : String) :
    objGet obj k = none ↔ k ∉ objKeys obj := by
  induction obj with
  | nil => simp [objGet, objKeys]
  | cons kv rest ih =>
    obtain ⟨k₀, w⟩ := kv
    by_cases h₀ : k₀ = k
    · simp [objGet, objKeys, h₀]
    · have h₁ : ¬ k = k₀ := fun h => h₀ h.symm
      simpa [objGet, objKeys, h₀, h₁] using ih

theorem objKeys_objSet {α : Type} (obj : List (String × α)) (k : String) (v : α) :
    objKeys (objSet obj k v) = if k ∈ objKeys obj then objKeys obj else objKeys obj ++ [k] := by
  induction obj with
  | nil => simp [objSet, objKeys]
  | cons kv rest ih =>
    obtain ⟨k₀, w⟩ := kv
    by_cases h₀ : k₀ = k
    · subst h₀
      simp [objSet, objKeys]
    · have h₁ : ¬ k = k₀ := fun h => h₀ h.symm
      have ih' : List.map Prod.fst (objSet rest k v)
          = if k ∈ List.map Prod.fst rest then List.map Prod.fst rest
            else List.map Prod.fst rest ++ [k] := ih
      simp only [objSet, if_neg h₀, objKeys, List.map_cons, List.mem_cons, h₁, false_or, ih']
      split <;> simp

theorem nodup_objKeys_objSet {α : Type} (obj : List (String × α)) (k : String) (v : α)
    (h : (objKeys obj).Nodup) : (objKeys (objSet obj k v)).Nodup := by
  rw [objKeys_objSet]
  split
  · exact h
  · next hk =>
    exact List.Nodup.append h (List.nodup_singleton k) (by simpa using hk)

theorem objGet_of_mem {α : Type} (obj : List (String × α)) (h : (objKeys obj).Nodup)
    (k : String) (v : α) (hm : (k, v) ∈ obj) : objGet obj k = some v := by
  induction obj with
  | nil => simp at hm
  | cons kv rest ih =>
    obtain ⟨k₀, w⟩ := kv
    simp only [objKeys, List.map_cons, List.nodup_cons] at h
    rcases List.mem_cons.1 hm with hm | hm
    · have h1 : k = k₀ := congrArg Prod.fst hm
      have h2 : v = w := congrArg Prod.snd hm
      subst h1 h2
      simp [objGet]
    · have hk : k₀ ≠ k := by
        intro hk
        apply h.1
        rw [hk]
        exact List.mem_map.2 ⟨(k, v), hm, rfl⟩
      simp only [objGet, if_neg hk]
      exact ih h.2 hm

theorem objKeys_addActual (obj : List (String × Spending)) (t : Transaction) :
    objKeys (addActual obj t) = objKeys obj := by
  unfold addActual
  cases hget : objGet obj t.category with
  | none => rfl
  | some e =>
    have hk : t.category ∈ objKeys obj := by
      by_contra hk
      rw [(objGet_eq_none_iff obj t.category).2 hk] at hget
      exact Option.noConfusion hget
    simp only [objKeys_objSet, if_pos hk]

theorem objKeys_foldl_addActual (txs : List Transaction) :
    ∀ obj : List (String × Spending), objKeys (txs.foldl addActual obj) = objKeys obj := by
  induction txs with
  | nil => intro obj; rfl
  | cons t ts ih => intro obj; simp only [List.foldl_cons]; rw [ih, objKeys_addActual]

theorem nodup_objKeys_foldl_initCategory (cats : List Category) :
    ∀ obj : List (String × Spending), (objKeys obj).Nodup →
      (objKeys (cats.foldl initCategory obj)).Nodup := by
  induction cats with
  | nil => intro obj h; exact h
  | cons c cs ih =>
    intro obj h
    simp only [List.foldl_cons]
    exact ih _ (nodup_objKeys_objSet obj c.name _ h)

/-- No two entries of `getCategoryBudgetData` share a key. -/
theorem nodup_objKeys_getCategoryBudgetData (s : State) :
    (objKeys (getCategoryBudgetData s)).Nodup := by
  have h : objKeys (getCategoryBudgetData s)
      = objKeys (s.categories.foldl initCategory []) := by
    unfold getCategoryBudgetData
    simp only [objKeys, List.map_map]
    exact objKeys_foldl_addActual _ _
  rw [h]
  exact nodup_objKeys_foldl_initCategory _ _ (by simp [objKeys])

/-! ## Transactions without an entry -/

theorem addActual_of_none (obj : List (String × Spending)) (t : Transaction)
    (h : objGet obj t.category = none) : addActual obj t = obj := by
  unfold addActual
  rw [h]

/-! ## Deleting a category -/

/-- C9 as stated fails: after deleting category 7, named Food and used by a transaction, the
breakdown still has an entry under Food, because category 13 has the same name. -/
theorem deleteCategory_duplicate_name_counterexample :
    (∃ c ∈ duplicateNameStore.categories, c.id = 7 ∧ c.name = "Food" ∧
      ∃ t ∈ duplicateNameStore.transactions, t.category = c.name) ∧
    "Food" ∈ objKeys (getCategoryBudgetData (deleteCategory duplicateNameStore 7)) := by
  decide

/-- C9, amended: when no category with another id has the name of `c`, deleting `c.id` leaves
the transaction store and the three totals of every financial year as they were, and
`getCategoryBudgetData` has no entry under the name of `c`. -/
theorem deleteCategory_frame (s : State) (c : Category)
    (huniq : ∀ c' ∈ s.categories, c'.name = c.name → c'.id = c.id) :
    (deleteCategory s c.id).transactions = s.transactions ∧
    (∀ fy : String,
      getTotalIncome (deleteCategory s c.id) fy = getTotalIncome s fy ∧
      getTotalExpenses (deleteCategory s c.id) fy = getTotalExpenses s fy ∧
      getNetPosition (deleteCategory s c.id) fy = getNetPosition s fy) ∧
    c.name ∉ objKeys (getCategoryBudgetData (deleteCategory s c.id)) := by
  refine ⟨rfl, fun fy => ⟨rfl, rfl, rfl⟩, ?_⟩
  rw [← objGet_eq_none_iff, objGet_getCategoryBudgetData]
  have hno : ∀ c' ∈ (deleteCategory s c.id).categories, c'.name ≠ c.name := by
    intro c' hc' hname
    simp only [deleteCategory, List.mem_filter, decide_eq_true_eq] at hc'
    exact hc'.2 (huniq c' hc'.1 hname)
  rw [objGet_foldl_initCategory_of_not_mem _ _ hno]
  rfl

/-- C9, amended, on the scenario store: deleting its category Food, which has a transaction. -/
theorem deleteCategory_frame_witness :
    (∀ c' ∈ scenarioStore.categories, c'.name = "Food" → c'.id = 7) ∧
    (∃ t ∈ scenarioStore.transactions, t.category = "Food") ∧
    (deleteCategory scenarioStore 7).transactions = scenarioStore.transactions ∧
    getTotalExpenses (deleteCategory scenarioStore 7) "2024-2025"
      = getTotalExpenses scenarioStore "2024-2025" ∧
    "Food" ∉ objKeys (getCategoryBudgetData (deleteCategory scenarioStore 7)) := by
  have huniq : ∀ c' ∈ scenarioStore.categories, c'.name = "Food" → c'.id = 7 := by decide
  obtain ⟨h1, h2, h3⟩ := deleteCategory_frame scenarioStore
    { id := 7, name := "Food", type := "Expense", budget := 600 } huniq
  exact ⟨huniq, by decide, h1, (h2 "2024-2025").2.1, h3⟩

/-! ## Month keys -/

theorem renderNat_injective (a b : Nat) (h : renderNat a = renderNat b) : a = b := by
  have ha := jsNumber_renderNat a
  rw [h, jsNumber_renderNat b] at ha
  exact (Option.some.inj ha).symm

theorem renderInt_injective (a b : Int) (h : renderInt a = renderInt b) : a = b := by
  cases a with
  | ofNat n =>
    cases b with
    | ofNat m =>
      have : n = m := renderNat_injective n m h
      rw [this]
    | negSucc m =>
      exfalso
      have hmem : '-' ∈ renderNat n := by
        have h' : renderNat n = '-' :: renderNat (m + 1) := h
        rw [h']
        exact List.mem_cons_self _ _
      exact renderNat_no_dash n '-' hmem rfl
  | negSucc n =>
    cases b with
    | ofNat m =>
      exfalso
      have hmem : '-' ∈ renderNat m := by
        have h' : '-' :: renderNat (n + 1) = renderNat m := h
        rw [← h']
        exact List.mem_cons_self _ _
      exact renderNat_no_dash m '-' hmem rfl
    | negSucc m =>
      have h' : '-' :: renderNat (n + 1) = '-' :: renderNat (m + 1) := h
      have : n + 1 = m + 1 := renderNat_injective _ _ (List.cons.inj h').2
      have : n = m := by omega
      rw [this]

theorem jsNumber_padStart2 (n : Nat) : jsNumber (padStart2 n) = some n := by
  unfold padStart2
  split
  · have h0 : digitVal? '0' = some 0 := by decide
    show parseNatAux ('0' :: renderNat n) 0 = some n
    simp only [parseNatAux, h0]
    exact jsNumber_renderNat n
  · exact jsNumber_renderNat n

theorem padStart2_injective (a b : Nat) (h : padStart2 a = padStart2 b) : a = b := by
  have ha := jsNumber_padStart2 a
  rw [h, jsNumber_padStart2 b] at ha
  exact (Option.some.inj ha).symm

theorem padStart2_no_dash (n : Nat) : ∀ c ∈ padStart2 n, c ≠ '-' := by
  intro c hc
  unfold padStart2 at hc
  split at hc
  · rcases List.mem_cons.1 hc with h | h
    · rw [h]; decide
    · exact renderNat_no_dash n c h
  · exact renderNat_no_dash n c hc

theorem append_dash_inj (a : List Char) :
    ∀ (a' p p' : List Char), (∀ c ∈ p, c ≠ '-') → (∀ c ∈ p', c ≠ '-') →
      a ++ '-' :: p = a' ++ '-' :: p' → a = a' ∧ p = p' := by
  induction a with
  | nil =>
    intro a' p p' hp hp' h
    cases a' with
    | nil => exact ⟨rfl, (List.cons.inj h).2⟩
    | cons c r =>
      exfalso
      have h2 : p = r ++ '-' :: p' := (List.cons.inj h).2
      exact hp '-' (by rw [h2]; simp) rfl
  | cons x xs ih =>
    intro a' p p' hp hp' h
    cases a' with
    | nil =>
      exfalso
      have h2 : xs ++ '-' :: p = p' := (List.cons.inj h).2
      exact hp' '-' (by rw [← h2]; simp) rfl
    | cons c r =>
      have h1 := List.cons.inj h
      obtain ⟨hxs, hpp⟩ := ih r p p' hp hp' h1.2
      exact ⟨by rw [h1.1, hxs], hpp⟩

/-- Two dates have the same month key exactly when they agree on year and month. -/
theorem monthKey_eq_iff (d d' : JsDate) :
    monthKey d = monthKey d' ↔ d.year = d'.year ∧ d.month = d'.month := by
  constructor
  · intro h
    have hdata : renderInt d.year ++ '-' :: padStart2 (d.month + 1)
        = renderInt d'.year ++ '-' :: padStart2 (d'.month + 1) := congrArg String.data h
    obtain ⟨hy, hm⟩ := append_dash_inj _ _ _ _ (padStart2_no_dash _) (padStart2_no_dash _) hdata
    refine ⟨renderInt_injective _ _ hy, ?_⟩
    have := padStart2_injective _ _ hm
    omega
  · intro h
    unfold monthKey
    rw [h.1, h.2]

/-! ## Monthly series -/

theorem monthlyStep_eq (obj : List (String × MonthTotals)) (t : Transaction) :
    monthlyStep obj t
      = objSet obj (monthKey t.date)
          (monthAdd ((objGet obj (monthKey t.date)).getD { income := 0, expenses := 0 }) t) := by
  unfold monthlyStep monthAdd
  dsimp only
  cases objGet obj (monthKey t.date) <;> simp only [Option.getD] <;> split <;> rfl

theorem monthAcc_cons_same (k : String) (t : Transaction) (ts : List Transaction)
    (e : MonthTotals) (hk : monthKey t.date = k) :
    monthAcc k (t :: ts) e = monthAcc k ts (monthAdd e t) := by
  unfold monthAcc monthAdd
  by_cases ht : t.type = "Income"
  · simp [List.filter_cons, hk, ht]
  · simp [List.filter_cons, hk, ht]

theorem monthAcc_cons_other (k : String) (t : Transaction) (ts : List Transaction)
    (e : MonthTotals) (hk : monthKey t.date ≠ k) :
    monthAcc k (t :: ts) e = monthAcc k ts e := by
  unfold monthAcc
  simp [List.filter_cons, hk]

theorem objGet_foldl_monthlyStep_other (txs : List Transaction) (k : String)
    (hk : ∀ t ∈ txs, monthKey t.date ≠ k) :
    ∀ obj : List (String × MonthTotals),
      objGet (txs.foldl monthlyStep obj) k = objGet obj k := by
  induction txs with
  | nil => intro obj; rfl
  | cons t ts ih =>
    intro obj
    have ht : monthKey t.date ≠ k := hk t (by simp)
    have hts : ∀ t' ∈ ts, monthKey t'.date ≠ k := fun t' h' => hk t' (by simp [h'])
    simp only [List.foldl_cons]
    rw [ih hts, monthlyStep_eq, objGet_objSet_ne _ _ _ _ ht]

theorem objGet_foldl_monthlyStep_some (txs : List Transaction) (k : String) :
    ∀ (obj : List (String × MonthTotals)) (e : MonthTotals), objGet obj k = some e →
      objGet (txs.foldl monthlyStep obj) k = some (monthAcc k txs e) := by
  induction txs with
  | nil => intro obj e h; simpa [monthAcc] using h
  | cons t ts ih =>
    intro obj e h
    simp only [List.foldl_cons]
    by_cases ht : monthKey t.date = k
    · have hstep : objGet (monthlyStep obj t) k = some (monthAdd e t) := by
        rw [monthlyStep_eq, ht, objGet_objSet_same, h]
        rfl
      rw [ih _ _ hstep, monthAcc_cons_same k t ts e ht]
    · have hstep : objGet (monthlyStep obj t) k = some e := by
        rw [monthlyStep_eq, objGet_objSet_ne _ _ _ _ ht, h]
      rw [ih _ _ hstep, monthAcc_cons_other k t ts e ht]

theorem objGet_foldl_monthlyStep_none (txs : List Transaction) (k : String) :
    ∀ obj : List (String × MonthTotals), objGet obj k = none →
      (∃ t ∈ txs, monthKey t.date = k) →
      objGet (txs.foldl monthlyStep obj) k
        = some (monthAcc k txs { income := 0, expenses := 0 }) := by
  induction txs with
  | nil => intro obj _ h; simp at h
  | cons t ts ih =>
    intro obj hnone hex
    simp only [List.foldl_cons]
    by_cases ht : monthKey t.date = k
    · have hstep : objGet (monthlyStep obj t) k
          = some (monthAdd { income := 0, expenses := 0 } t) := by
        rw [monthlyStep_eq, ht, objGet_objSet_same, hnone]
        rfl
      rw [objGet_foldl_monthlyStep_some ts k _ _ hstep, monthAcc_cons_same k t ts _ ht]
    · have hstep : objGet (monthlyStep obj t) k = none := by
        rw [monthlyStep_eq, objGet_objSet_ne _ _ _ _ ht, hnone]
      have hex' : ∃ t' ∈ ts, monthKey t'.date = k := by
        obtain ⟨t', ht', hk'⟩ := hex
        rcases List.mem_cons.1 ht' with h | h
        · rw [h] at hk'; exact absurd hk' ht
        · exact ⟨t', h, hk'⟩
      rw [ih _ hstep hex', monthAcc_cons_other k t ts _ ht]

theorem nodup_objKeys_foldl_monthlyStep (txs : List Transaction) :
    ∀ obj : List (String × MonthTotals), (objKeys obj).Nodup →
      (objKeys (txs.foldl monthlyStep obj)).Nodup := by
  induction txs with
  | nil => intro obj h; exact h
  | cons t ts ih =>
    intro obj h
    simp only [List.foldl_cons]
    apply ih
    rw [monthlyStep_eq]
    exact nodup_objKeys_objSet obj _ _ h

theorem padStart2_month_length (m : Nat) (h : m < 12) : (padStart2 (m + 1)).length = 2 := by
  interval_cases m <;> decide

theorem monthAcc_zero_eq_sums (txs : List Transaction) (t0 : Transaction) :
    monthAcc (monthKey t0.date) txs { income := 0, expenses := 0 }
      = { income :=
            ((txs.filter fun t => t.date.year = t0.date.year ∧ t.date.month = t0.date.month ∧
              t.type = "Income").map fun t => t.amount).sum
          expenses :=
            ((txs.filter fun t => t.date.year = t0.date.year ∧ t.date.month = t0.date.month ∧
              t.type ≠ "Income").map fun t => t.amount).sum } := by
  have h1 : (txs.filter fun t => monthKey t.date = monthKey t0.date ∧ t.type = "Income")
      = txs.filter fun t => t.date.year = t0.date.year ∧ t.date.month = t0.date.month ∧
          t.type = "Income" := by
    apply List.filter_congr
    intro t _
    rw [decide_eq_decide, monthKey_eq_iff, and_assoc]
  have h2 : (txs.filter fun t => monthKey t.date = monthKey t0.date ∧ t.type ≠ "Income")
      = txs.filter fun t => t.date.year = t0.date.year ∧ t.date.month = t0.date.month ∧
          t.type ≠ "Income" := by
    apply List.filter_congr
    intro t _
    rw [decide_eq_decide, monthKey_eq_iff, and_assoc]
  unfold monthAcc
  rw [h1, h2, foldl_add_amount, foldl_add_amount]
  simp

/-! ## Idempotence of the filter -/

/-- C11: filtering by a label the list that `getTransactionsForFinancialYear` returned for the
same label gives that list again, elements and order included. -/
theorem getTransactionsForFinancialYear_idempotent (s : State) (fy : String) :
    getTransactionsForFinancialYear
        { s with transactions := getTransactionsForFinancialYear s fy } fy
      = getTransactionsForFinancialYear s fy := by
  simp [getTransactionsForFinancialYear, List.filter_filter]

/-! ## Available financial years without transactions -/

/-- With no transaction, `getAvailableFinancialYears` returns the two labels around today's
calendar year, whatever the month. -/
theorem getAvailableFinancialYears_no_transactions (s : State) (now : JsDate)
    (h : s.transactions = []) :
    getAvailableFinancialYears s now
      = [fyLabel (now.year - 1) now.year, fyLabel now.year (now.year + 1)] := by
  simp [getAvailableFinancialYears, h]

/-- C12 at a failing input: on 15 August 2024, with no transaction, the financial year that
contains today is `2024-2025`, and `getAvailableFinancialYears` returns the year before it and
that year, not the year `2025-2026` that follows. -/
theorem availableYears_in_august_lack_next_year :
    initialFinancialYear ⟨2024, 7, 15, 0⟩ = "2024-2025" ∧
    getAvailableFinancialYears emptyStore ⟨2024, 7, 15, 0⟩ = ["2023-2024", "2024-2025"] ∧
    "2025-2026" ∉ getAvailableFinancialYears emptyStore ⟨2024, 7, 15, 0⟩ := by
  decide

/-! ## Worked scenarios -/

/-- C15: a transaction of the store dated in March 2024, so one dated 1 March 2024 at any
time of day, gets the label `2023-2024`, is returned by `getTransactionsForFinancialYear` for
`2023-2024` and is not returned for `2024-2025`. -/
theorem march_2024_belongs_to_2023_2024 (s : State) (t : Transaction)
    (ht : t ∈ s.transactions) (hy : t.date.year = 2024) (hm : t.date.month = 2) :
    transactionFinancialYear t.date = "2023-2024" ∧
    t ∈ getTransactionsForFinancialYear s "2023-2024" ∧
    t ∉ getTransactionsForFinancialYear s "2024-2025" := by
  have h1 : ("2023-2024" : String).data ≠ [] := by decide
  have h2 : ("2024-2025" : String).data ≠ [] := by decide
  have hr1 : fyRange "2023-2024" = (some ⟨2023, 6, 1, 0⟩, some ⟨2024, 5, 30, 0⟩) := by decide
  have hr2 : fyRange "2024-2025" = (some ⟨2024, 6, 1, 0⟩, some ⟨2025, 5, 30, 0⟩) := by decide
  refine ⟨?_, ?_, ?_⟩
  · have hlabel : fyLabel 2023 2024 = "2023-2024" := by decide
    simp [transactionFinancialYear, hy, hm, hlabel]
  · rw [mem_getTransactionsForFinancialYear s _ h1]
    refine ⟨ht, ?_⟩
    simp [inFinancialYear, hr1, dateGe, dateLe, JsDate.le, hy, hm]
  · rw [mem_getTransactionsForFinancialYear s _ h2]
    intro h
    simp [inFinancialYear, hr2, dateGe, dateLe, JsDate.le, hy, hm] at h

/-- C15 on a store holding one transaction dated 1 March 2024. -/
theorem march_2024_belongs_to_2023_2024_witness :
    (∃ t ∈ marchStore.transactions,
      t.date.year = 2024 ∧ t.date.month = 2 ∧ t.date.day = 1 ∧
      transactionFinancialYear t.date = "2023-2024") ∧
    getTransactionsForFinancialYear marchStore "2023-2024" = marchStore.transactions ∧
    getTransactionsForFinancialYear marchStore "2024-2025" = [] := by
  have hmem : marchTransaction ∈ marchStore.transactions := by
    simp [marchStore]
  have h := march_2024_belongs_to_2023_2024 marchStore marchTransaction hmem rfl rfl
  exact ⟨⟨marchTransaction, hmem, rfl, rfl, rfl, h.1⟩, by rfl, by rfl⟩

/-- C14: on the scenario store, for `2024-2025`, the totals are 4500, 700 and 3800; the Food
entry has actual 700, remaining -100 and percentage 350/3, which is 116.67 to two decimals; the
Salary entry has actual 4500, remaining -500 and percentage 90. -/
theorem scenario_totals_and_breakdown :
    getTotalIncome scenarioStore "2024-2025" = 4500 ∧
    getTotalExpenses scenarioStore "2024-2025" = 700 ∧
    getNetPosition scenarioStore "2024-2025" = 3800 ∧
    (∃ food : BudgetEntry, objGet (getCategoryBudgetData scenarioStore) "Food" = some food ∧
      food.actual = 700 ∧ food.remaining = -100 ∧ food.percentage = 350 / 3 ∧
      116.665 ≤ food.percentage ∧ food.percentage < 116.675) ∧
    (∃ salary : BudgetEntry,
      objGet (getCategoryBudgetData scenarioStore) "Salary" = some salary ∧
      salary.actual = 4500 ∧ salary.remaining = -500 ∧ salary.percentage = 90) := by
  have hd : ("2024-2025" : String).data ≠ [] := by decide
  have hfy : getTransactionsForFinancialYear scenarioStore "2024-2025"
      = scenarioStore.transactions := by rfl
  have hcur : getTransactionsForFinancialYear scenarioStore scenarioStore.currentFinancialYear
      = scenarioStore.transactions := by rfl
  have hI : getTotalIncome scenarioStore "2024-2025" = 4500 := by
    unfold getTotalIncome
    simp only [if_neg hd]
    rw [hfy]
    simp [scenarioStore]
  have hE : getTotalExpenses scenarioStore "2024-2025" = 700 := by
    unfold getTotalExpenses
    simp only [if_neg hd]
    rw [hfy]
    simp [scenarioStore]
  refine ⟨hI, hE, ?_, ?_, ?_⟩
  · unfold getNetPosition
    rw [hI, hE]
    norm_num
  · have hfood : objGet (getCategoryBudgetData scenarioStore) "Food"
        = some (finishEntry (withActual "Food" scenarioStore.transactions
            (initialSpending { id := 7, name := "Food", type := "Expense", budget := 600 }))) := by
      rw [objGet_getCategoryBudgetData, hcur]
      rfl
    refine ⟨_, hfood, ?_, ?_, ?_, ?_, ?_⟩ <;>
      simp [finishEntry, withActual, initialSpending, orZero, scenarioStore] <;> norm_num
  · have hsalary : objGet (getCategoryBudgetData scenarioStore) "Salary"
        = some (finishEntry (withActual "Salary" scenarioStore.transactions
            (initialSpending { id := 1, name := "Salary", type := "Income", budget := 5000 }))) := by
      rw [objGet_getCategoryBudgetData, hcur]
      rfl
    refine ⟨_, hsalary, ?_, ?_, ?_⟩ <;>
      simp [finishEntry, withActual, initialSpending, orZero, scenarioStore] <;> norm_num

/-! ## The order of the default sort on labels -/

theorem digitChar_toNat (d : Nat) (h : d < 10) : (digitChar d).toNat = 48 + d := by
  interval_cases d <;> rfl

/-- The rendering of a four-digit number, digit by digit. -/
theorem renderNat_four_digits (n : Nat) (h : 1000 ≤ n ∧ n ≤ 9999) :
    renderNat n = [digitChar (n / 1000), digitChar (n / 100 % 10), digitChar (n / 10 % 10),
      digitChar (n % 10)] := by
  obtain ⟨k, rfl⟩ : ∃ k, n = k + 3 := ⟨n - 3, by omega⟩
  have h1 : ¬ (k + 3 < 10) := by omega
  have h2 : ¬ ((k + 3) / 10 < 10) := by omega
  have h3 : ¬ ((k + 3) / 10 / 10 < 10) := by omega
  have h4 : (k + 3) / 10 / 10 / 10 < 10 := by omega
  have e1 : (k + 3) / 10 / 10 = (k + 3) / 100 := by omega
  have e2 : (k + 3) / 10 / 10 / 10 = (k + 3) / 1000 := by omega
  simp only [renderNat, renderNatAux, if_neg h1, if_neg h2, if_neg h3, if_pos h4]
  rw [e2, e1]

/-- Between labels with four-digit start years the order of the default sort is the order of
the start years. -/
theorem le_of_sortsBefore_fyLabel (a b : Nat) (ha : 1000 ≤ a ∧ a ≤ 9999)
    (hb : 1000 ≤ b ∧ b ≤ 9999) (ea eb : Int)
    (h : sortsBefore (fyLabel a ea) (fyLabel b eb)) : a ≤ b := by
  have h' : codeUnitLe (renderNat a ++ '-' :: renderInt ea) (renderNat b ++ '-' :: renderInt eb)
      = true := h
  rw [renderNat_four_digits a ha, renderNat_four_digits b hb] at h'
  simp only [List.cons_append, List.nil_append, codeUnitLe, Bool.or_eq_true, Bool.and_eq_true,
    decide_eq_true_eq] at h'
  rw [digitChar_toNat (a / 1000) (by omega), digitChar_toNat (b / 1000) (by omega),
    digitChar_toNat (a / 100 % 10) (by omega), digitChar_toNat (b / 100 % 10) (by omega),
    digitChar_toNat (a / 10 % 10) (by omega), digitChar_toNat (b / 10 % 10) (by omega),
    digitChar_toNat (a % 10) (by omega), digitChar_toNat (b % 10) (by omega)] at h'
  omega

theorem codeUnitLe_total (a : List Char) :
    ∀ b : List Char, codeUnitLe a b = true ∨ codeUnitLe b a = true := by
  induction a with
  | nil => intro b; left; cases b <;> rfl
  | cons x xs ih =>
    intro b
    cases b with
    | nil => right; rfl
    | cons y ys =>
      simp only [codeUnitLe, Bool.or_eq_true, Bool.and_eq_true, decide_eq_true_eq]
      rcases Nat.lt_trichotomy x.toNat y.toNat with h | h | h
      · left; left; exact h
      · rcases ih ys with h' | h'
        · left; right; exact ⟨h, h'⟩
        · right; right; exact ⟨h.symm, h'⟩
      · right; left; exact h

theorem codeUnitLe_trans (a : List Char) :
    ∀ b c : List Char, codeUnitLe a b = true → codeUnitLe b c = true →
      codeUnitLe a c = true := by
  induction a with
  | nil => intro b c _ _; cases c <;> rfl
  | cons x xs ih =>
    intro b c hab hbc
    cases b with
    | nil => simp [codeUnitLe] at hab
    | cons y ys =>
      cases c with
      | nil => simp [codeUnitLe] at hbc
      | cons z zs =>
        simp only [codeUnitLe, Bool.or_eq_true, Bool.and_eq_true, decide_eq_true_eq]
          at hab hbc ⊢
        rcases hab with h1 | ⟨h1, h1'⟩
        · rcases hbc with h2 | ⟨h2, _⟩
          · left; omega
          · left; omega
        · rcases hbc with h2 | ⟨h2, h2'⟩
          · left; omega
          · right; exact ⟨by omega, ih ys zs h1' h2'⟩

instance : IsTotal String sortsBefore :=
  ⟨fun a b => codeUnitLe_total a.data b.data⟩

instance : IsTrans String sortsBefore :=
  ⟨fun a b c => codeUnitLe_trans a.data b.data c.data⟩

theorem mem_setAdd (years : List String) (label x : String) :
    x ∈ setAdd years label ↔ x ∈ years ∨ x = label := by
  unfold setAdd
  split
  · next h =>
    constructor
    · intro hx; left; exact hx
    · rintro (hx | hx)
      · exact hx
      · rw [hx]; exact h
  · simp

theorem nodup_setAdd (years : List String) (label : String) (h : years.Nodup) :
    (setAdd years label).Nodup := by
  unfold setAdd
  split
  · exact h
  · next hl => exact List.Nodup.append h (List.nodup_singleton label) (by simpa using hl)

theorem mem_foldl_setAdd (f : Transaction → String) (txs : List Transaction) (x : String) :
    ∀ init : List String,
      x ∈ txs.foldl (fun years t => setAdd years (f t)) init ↔
        x ∈ init ∨ ∃ t ∈ txs, x = f t := by
  induction txs with
  | nil => intro init; simp
  | cons t ts ih =>
    intro init
    simp only [List.foldl_cons]
    rw [ih, mem_setAdd]
    constructor
    · rintro ((h | h) | ⟨t', ht', h⟩)
      · left; exact h
      · right; exact ⟨t, by simp, h⟩
      · right; exact ⟨t', by simp [ht'], h⟩
    · rintro (h | ⟨t', ht', h⟩)
      · left; left; exact h
      · rcases List.mem_cons.1 ht' with e | e
        · left; right; rw [h, e]
        · right; exact ⟨t', e, h⟩

theorem nodup_foldl_setAdd (f : Transaction → String) (txs : List Transaction) :
    ∀ init : List String, init.Nodup →
      (txs.foldl (fun years t => setAdd years (f t)) init).Nodup := by
  induction txs with
  | nil => intro init h; exact h
  | cons t ts ih =>
    intro init h
    simp only [List.foldl_cons]
    exact ih _ (nodup_setAdd _ _ h)

/-- A list of labels with four-digit start years that the default sort has put in order,
without repetition, is the list of the labels of strictly increasing start years. -/
theorem exists_increasing_starts (l : List String) :
    (∀ x ∈ l, ∃ a : Nat, (1000 ≤ a ∧ a ≤ 9999) ∧ x = fyLabel (a : Int) ((a : Int) + 1)) →
    l.Sorted sortsBefore → l.Nodup →
    ∃ starts : List Nat, (∀ a ∈ starts, 1000 ≤ a ∧ a ≤ 9999) ∧ starts.Sorted (· < ·) ∧
      l = starts.map fun a : Nat => fyLabel (a : Int) ((a : Int) + 1) := by
  induction l with
  | nil => intro _ _ _; exact ⟨[], by simp, List.sorted_nil, rfl⟩
  | cons x xs ih =>
    intro hall hs hnd
    obtain ⟨a, ha, hx⟩ := hall x (by simp)
    obtain ⟨hrel, hs'⟩ := List.sorted_cons.1 hs
    obtain ⟨hnot, hnd'⟩ := List.nodup_cons.1 hnd
    obtain ⟨starts, hrange, hsorted, hmap⟩ :=
      ih (fun y hy => hall y (by simp [hy])) hs' hnd'
    refine ⟨a :: starts, ?_, ?_, ?_⟩
    · intro b hb
      rcases List.mem_cons.1 hb with e | e
      · rw [e]; exact ha
      · exact hrange b e
    · refine List.sorted_cons.2 ⟨?_, hsorted⟩
      intro b hb
      have hmem : fyLabel (b : Int) ((b : Int) + 1) ∈ xs := by
        rw [hmap]
        exact List.mem_map.2 ⟨b, hb, rfl⟩
      have hle : a ≤ b := by
        have hr := hrel _ hmem
        rw [hx] at hr
        exact le_of_sortsBefore_fyLabel a b ha (hrange b hb) _ _ hr
      have hne : a ≠ b := by
        intro e
        apply hnot
        rw [hx, e]
        exact hmem
      omega
    · rw [hx, hmap]
      rfl

theorem transactionFinancialYear_eq (date : JsDate) :
    transactionFinancialYear date = fyLabel (fyStartYear date) (fyStartYear date + 1) := by
  unfold transactionFinancialYear fyStartYear
  split
  · rfl
  · simp

/-- The conclusion of C13 for any list that holds exactly the two default labels and the
labels of the transaction dates, without repetition and in the order of the default sort. -/
theorem availableYears_of_sorted_labels (s : State) (now : JsDate) (R : List String)
    (htx : ∀ t ∈ s.transactions, 1000 ≤ fyStartYear t.date ∧ fyStartYear t.date ≤ 9999)
    (hnow : 1001 ≤ now.year ∧ now.year ≤ 9999)
    (hmem : ∀ x, x ∈ R ↔ x = fyLabel (now.year - 1) now.year ∨
      x = fyLabel now.year (now.year + 1) ∨
      ∃ t ∈ s.transactions, x = transactionFinancialYear t.date)
    (hnd : R.Nodup) (hsorted : R.Sorted sortsBefore) :
    (∃ starts : List Nat, starts.Sorted (· < ·) ∧
      R = starts.map fun a : Nat => fyLabel (a : Int) ((a : Int) + 1)) ∧
    R.Nodup ∧
    (∀ t ∈ s.transactions, transactionFinancialYear t.date ∈ R) ∧
    initialFinancialYear now ∈ R ∧
    (∀ x ∈ R, x = fyLabel (now.year - 1) now.year ∨ x = fyLabel now.year (now.year + 1) ∨
      ∃ t ∈ s.transactions, x = transactionFinancialYear t.date) := by
  refine ⟨?_, hnd, ?_, ?_, fun x hx => (hmem x).1 hx⟩
  · have hall : ∀ x ∈ R, ∃ a : Nat, (1000 ≤ a ∧ a ≤ 9999) ∧
        x = fyLabel (a : Int) ((a : Int) + 1) := by
      intro x hx
      rcases (hmem x).1 hx with h | h | ⟨t, ht, h⟩
      · refine ⟨(now.year - 1).toNat, by omega, ?_⟩
        have e : ((now.year - 1).toNat : Int) = now.year - 1 := Int.toNat_of_nonneg (by omega)
        rw [h, e]
        simp
      · refine ⟨now.year.toNat, by omega, ?_⟩
        have e : (now.year.toNat : Int) = now.year := Int.toNat_of_nonneg (by omega)
        rw [h, e]
      · have hr := htx t ht
        refine ⟨(fyStartYear t.date).toNat, by omega, ?_⟩
        have e : ((fyStartYear t.date).toNat : Int) = fyStartYear t.date :=
          Int.toNat_of_nonneg (by omega)
        rw [h, e, transactionFinancialYear_eq]
    obtain ⟨starts, _, hs, hmap⟩ := exists_increasing_starts R hall hsorted hnd
    exact ⟨starts, hs, hmap⟩
  · intro t ht
    exact (hmem _).2 (Or.inr (Or.inr ⟨t, ht, rfl⟩))
  · apply (hmem _).2
    unfold initialFinancialYear
    split
    · right; left; rfl
    · left; rfl

theorem sortsBefore_default_labels (now : JsDate) (hnow : 1001 ≤ now.year ∧ now.year ≤ 9999) :
    sortsBefore (fyLabel (now.year - 1) now.year) (fyLabel now.year (now.year + 1)) ∧
    fyLabel (now.year - 1) now.year ≠ fyLabel now.year (now.year + 1) := by
  obtain ⟨n, hn⟩ := Int.eq_ofNat_of_zero_le (by omega : 0 ≤ now.year)
  have hnot : ¬ sortsBefore (fyLabel now.year (now.year + 1))
      (fyLabel (now.year - 1) now.year) := by
    intro h
    have e : (n : Int) - 1 = ((n - 1 : Nat) : Int) := by omega
    rw [hn, e] at h
    have := le_of_sortsBefore_fyLabel n (n - 1) (by omega) (by omega) _ _ h
    omega
  constructor
  · exact (total_of sortsBefore _ _).resolve_right hnot
  · intro h
    apply hnot
    rw [← h]
    exact (total_of sortsBefore _ _).elim id id

/-- C13, amended: when the start year of every label involved has four digits (the label of
each transaction date starts in 1000 to 9999 and today's calendar year is 1001 to 9999),
`getAvailableFinancialYears` returns the labels `Y-(Y+1)` of a strictly increasing list of
start years, so it is sorted by start year and free of duplicates; it contains the label of
every transaction date and of the financial year containing today, and nothing but those and
the two defaults of today's calendar year. -/
theorem getAvailableFinancialYears_sorted_set (s : State) (now : JsDate)
    (htx : ∀ t ∈ s.transactions, 1000 ≤ fyStartYear t.date ∧ fyStartYear t.date ≤ 9999)
    (hnow : 1001 ≤ now.year ∧ now.year ≤ 9999) :
    (∃ starts : List Nat, starts.Sorted (· < ·) ∧
      getAvailableFinancialYears s now
        = starts.map fun a : Nat => fyLabel (a : Int) ((a : Int) + 1)) ∧
    (getAvailableFinancialYears s now).Nodup ∧
    (∀ t ∈ s.transactions, transactionFinancialYear t.date ∈ getAvailableFinancialYears s now) ∧
    initialFinancialYear now ∈ getAvailableFinancialYears s now ∧
    (∀ x ∈ getAvailableFinancialYears s now,
      x = fyLabel (now.year - 1) now.year ∨ x = fyLabel now.year (now.year + 1) ∨
      ∃ t ∈ s.transactions, x = transactionFinancialYear t.date) := by
  obtain ⟨hdef, hne⟩ := sortsBefore_default_labels now hnow
  apply availableYears_of_sorted_labels s now _ htx hnow
  · intro x
    by_cases hlen : s.transactions.length = 0
    · have hnil : s.transactions = [] := List.length_eq_zero.1 hlen
      simp [getAvailableFinancialYears, hnil]
    · simp only [getAvailableFinancialYears, if_neg hlen, List.mem_insertionSort,
        mem_foldl_setAdd, mem_setAdd]
      simp [or_assoc]
  · by_cases hlen : s.transactions.length = 0
    · simp only [getAvailableFinancialYears, if_pos hlen]
      simpa using hne
    · simp only [getAvailableFinancialYears, if_neg hlen]
      rw [(List.perm_insertionSort sortsBefore _).nodup_iff]
      apply nodup_foldl_setAdd
      apply nodup_setAdd
      apply nodup_setAdd
      exact List.nodup_nil
  · by_cases hlen : s.transactions.length = 0
    · simp only [getAvailableFinancialYears, if_pos hlen]
      simpa [List.Sorted] using hdef
    · simp only [getAvailableFinancialYears, if_neg hlen]
      exact List.sorted_insertionSort sortsBefore _

/-- C13 as stated fails: two transactions dated in the year 1000, March and August, get the
labels `999-1000` and `1000-1001`; with today in August 2024 the returned list puts `999-1000`
last, so its start years 1000, 2023, 2024, 999 are not in ascending order. -/
theorem availableYears_year_1000_counterexample :
    (∀ t ∈ year1000Store.transactions, 1000 ≤ t.date.year ∧ t.date.year ≤ 9999) ∧
    getAvailableFinancialYears year1000Store ⟨2024, 7, 15, 0⟩
      = ["1000-1001", "2023-2024", "2024-2025", "999-1000"] ∧
    (getAvailableFinancialYears year1000Store ⟨2024, 7, 15, 0⟩).map labelStartYear?
      = [some 1000, some 2023, some 2024, some 999] ∧
    ¬ List.Sorted (· ≤ ·) [1000, 2023, 2024, 999] := by
  decide

/-- C13, amended, on the store of the June transaction with today on 15 August 2024. -/
theorem getAvailableFinancialYears_sorted_set_witness :
    (∀ t ∈ june30Store.transactions,
      1000 ≤ fyStartYear t.date ∧ fyStartYear t.date ≤ 9999) ∧
    ((1001 : Int) ≤ 2024 ∧ (2024 : Int) ≤ 9999) ∧
    getAvailableFinancialYears june30Store ⟨2024, 7, 15, 0⟩ = ["2023-2024", "2024-2025"] ∧
    (∃ starts : List Nat, starts.Sorted (· < ·) ∧
      getAvailableFinancialYears june30Store ⟨2024, 7, 15, 0⟩
        = starts.map fun a : Nat => fyLabel (a : Int) ((a : Int) + 1)) :=
  ⟨by decide, by decide, by decide,
    (getAvailableFinancialYears_sorted_set june30Store ⟨2024, 7, 15, 0⟩ (by decide)
      (by decide)).1⟩

/-! ## Importing a sheet -/

theorem importRows_of_valid_dates (clock : Nat → Nat) (random : Nat → Fin 1000)
    (rows : List TransactionInput) :
    ∀ i : Nat, (∀ row ∈ rows, row.date ≠ none) →
      ∃ added : List StoredTransaction,
        importRows clock random i rows = some added ∧
        added.map StoredTransaction.fields = rows ∧
        added.map (fun t => t.id)
          = (List.range' i rows.length).map fun j => clock j + (random j).val := by
  induction rows with
  | nil => intro i _; exact ⟨[], rfl, rfl, rfl⟩
  | cons row rows ih =>
    intro i h
    obtain ⟨added, hadd, hfields, hids⟩ := ih (i + 1) (fun r hr => h r (by simp [hr]))
    have hrow : row.date ≠ none := h row (by simp)
    cases hd : row.date with
    | none => exact absurd hd hrow
    | some d =>
      refine ⟨{ id := clock i + (random i).val, date := some d,
                description := row.description, amount := row.amount,
                category := row.category, type := row.type } :: added, ?_, ?_, ?_⟩
      · simp [importRows, importRow, hd, hadd]
      · simp only [List.map_cons, hfields, StoredTransaction.fields]
        congr 1
        cases row
        simp_all
      · simp [List.range'_succ, hids]

theorem importRows_of_invalid_date (clock : Nat → Nat) (random : Nat → Fin 1000)
    (rows : List TransactionInput) :
    ∀ i : Nat, (∃ row ∈ rows, row.date = none) → importRows clock random i rows = none := by
  induction rows with
  | nil => intro i h; simp at h
  | cons row rows ih =>
    intro i h
    cases hd : row.date with
    | none => simp [importRows, importRow, hd]
    | some d =>
      have h' : ∃ r ∈ rows, r.date = none := by
        obtain ⟨r, hr, hnone⟩ := h
        rcases List.mem_cons.1 hr with e | e
        · rw [e, hd] at hnone; exact Option.noConfusion hnone
        · exact ⟨r, e, hnone⟩
      simp [importRows, importRow, hd, ih (i + 1) h']

/-- C16: for a sheet of valid rows `importTransactions` reports success with the number of
rows, and the new store is the old one followed by one new record per row, in row order, whose
date, description, amount, category and type are those of the row. -/
theorem importTransactions_appends_valid_rows (store : List StoredTransaction)
    (rows : List TransactionInput) (clock : Nat → Nat) (random : Nat → Fin 1000)
    (hvalid : ∀ row ∈ rows, row.validRow) :
    ∃ added : List StoredTransaction,
      importTransactions store rows clock random
        = (ImportResult.success rows.length, store ++ added) ∧
      added.length = rows.length ∧
      added.map StoredTransaction.fields = rows := by
  obtain ⟨added, hadd, hfields, _⟩ :=
    importRows_of_valid_dates clock random rows 0 (fun row hr => (hvalid row hr).1)
  have hlen : added.length = rows.length := by
    rw [← hfields, List.length_map]
  refine ⟨added, ?_, hlen, hfields⟩
  simp [importTransactions, hadd, hlen]

/-- C16 on a sheet of two valid rows, imported into a store that holds one record. -/
theorem importTransactions_appends_valid_rows_witness :
    (∀ row ∈ [salaryRow, foodRow], row.validRow) ∧
    ∃ added : List StoredTransaction,
      importTransactions
          [{ id := 1, date := some ⟨2024, 2, 1, 0⟩, description := "Rent",
             amount := JsNum.num 1200, category := "Housing", type := "Expense" }]
          [salaryRow, foodRow] frozenClock constantRandom
        = (ImportResult.success 2,
            [{ id := 1, date := some ⟨2024, 2, 1, 0⟩, description := "Rent",
               amount := JsNum.num 1200, category := "Housing", type := "Expense" }] ++ added) ∧
      added.length = 2 ∧
      added.map StoredTransaction.fields = [salaryRow, foodRow] :=
  ⟨by decide,
    importTransactions_appends_valid_rows _ [salaryRow, foodRow] frozenClock constantRandom
      (by decide)⟩

/-- C19: `importTransactions` either reports success with the number of rows, every row
appended after the old store, or reports failure with a message and leaves the store as it
was; a row whose date is not a valid date gives the failure, whatever rows precede it. -/
theorem importTransactions_all_or_nothing (store : List StoredTransaction)
    (rows : List TransactionInput) (clock : Nat → Nat) (random : Nat → Fin 1000) :
    ((∃ added : List StoredTransaction,
        importTransactions store rows clock random
          = (ImportResult.success rows.length, store ++ added) ∧
        added.map StoredTransaction.fields = rows) ∨
      (∃ msg : String, msg ≠ "" ∧
        importTransactions store rows clock random = (ImportResult.failure msg, store))) ∧
    ((∃ row ∈ rows, row.date = none) →
      ∃ msg : String, msg ≠ "" ∧
        importTransactions store rows clock random = (ImportResult.failure msg, store)) := by
  have hfail : (∃ row ∈ rows, row.date = none) →
      ∃ msg : String, msg ≠ "" ∧
        importTransactions store rows clock random = (ImportResult.failure msg, store) := by
    intro h
    refine ⟨"Invalid time value", by decide, ?_⟩
    simp [importTransactions, importRows_of_invalid_date clock random rows 0 h]
  refine ⟨?_, hfail⟩
  by_cases h : ∃ row ∈ rows, row.date = none
  · right; exact hfail h
  · left
    have hall : ∀ row ∈ rows, row.date ≠ none := fun row hr hnone => h ⟨row, hr, hnone⟩
    obtain ⟨added, hadd, hfields, _⟩ := importRows_of_valid_dates clock random rows 0 hall
    have hlen : added.length = rows.length := by
      rw [← hfields, List.length_map]
    exact ⟨added, by simp [importTransactions, hadd, hlen], hfields⟩

/-- C19 on a sheet whose second row has an invalid date: failure, and the valid first row is
not appended. -/
theorem importTransactions_all_or_nothing_witness :
    (∃ row ∈ [foodRow, invalidDateRow], row.date = none) ∧
    ∃ msg : String, msg ≠ "" ∧
      importTransactions [] [foodRow, invalidDateRow] frozenClock constantRandom
        = (ImportResult.failure msg, []) :=
  ⟨by decide,
    (importTransactions_all_or_nothing [] [foodRow, invalidDateRow] frozenClock
      constantRandom).2 (by decide)⟩

/-! ## Amounts written to the store -/

/-- C17 as stated fails: `addTransaction` with the amount -50 is not rejected and stores the
amount -50, a negative number. -/
theorem addTransaction_negative_amount_counterexample :
    ∃ t : StoredTransaction,
      addTransaction [] 1723680000000 negativeAmountInput = some [t] ∧
      t.amount = JsNum.num (-50) ∧ (-50 : ℚ) < 0 := by
  refine ⟨_, rfl, rfl, by norm_num⟩

/-- C17, amended: a numeric amount is stored as supplied, with its sign.  The record that
`addTransaction` appends and every record that `updateTransaction` rewrites carry the amount
of the form data, every other record keeps its own, and the records that
`importTransactions` appends carry the amounts of their rows. -/
theorem numeric_amount_stored_as_supplied (store : List StoredTransaction) (now id : Nat)
    (input : TransactionInput) (q : ℚ) (rows : List TransactionInput) (clock : Nat → Nat)
    (random : Nat → Fin 1000) (hq : input.amount = JsNum.num q)
    (hrows : ∀ row ∈ rows, row.amount ≠ JsNum.nan) :
    (∀ date : JsDate, input.date = some date →
      ∃ t : StoredTransaction,
        addTransaction store now input = some (store ++ [t]) ∧ t.amount = JsNum.num q) ∧
    ((updateTransaction store id input).map fun t => t.amount)
      = (store.map fun t => if t.id = id then JsNum.num q else t.amount) ∧
    (∀ added : List StoredTransaction,
      importTransactions store rows clock random
        = (ImportResult.success rows.length, store ++ added) →
      ((added.map fun t => t.amount) = rows.map fun row => row.amount) ∧
      ∀ t ∈ added, t.amount ≠ JsNum.nan) := by
  refine ⟨?_, ?_, ?_⟩
  · intro date hd
    unfold addTransaction
    rw [hd]
    exact ⟨_, rfl, hq⟩
  · unfold updateTransaction
    rw [List.map_map]
    apply List.map_congr_left
    intro t _
    by_cases ht : t.id = id
    · simp [ht, hq]
    · simp [ht]
  · intro added h
    have hamounts : (added.map fun t => t.amount) = rows.map fun row => row.amount := by
      by_cases hbad : ∃ row ∈ rows, row.date = none
      · exfalso
        have hnone := importRows_of_invalid_date clock random rows 0 hbad
        simp [importTransactions, hnone] at h
      · have hall : ∀ row ∈ rows, row.date ≠ none :=
          fun row hr hnone => hbad ⟨row, hr, hnone⟩
        obtain ⟨added', hadd, hfields, _⟩ := importRows_of_valid_dates clock random rows 0 hall
        simp only [importTransactions, hadd] at h
        have happ : store ++ added' = store ++ added := congrArg Prod.snd h
        have heq : added' = added := List.append_cancel_left happ
        rw [← heq, ← hfields, List.map_map]
        rfl
    refine ⟨hamounts, ?_⟩
    intro t ht hnan
    have hmem : t.amount ∈ rows.map fun row => row.amount := by
      rw [← hamounts]
      exact List.mem_map.2 ⟨t, ht, rfl⟩
    obtain ⟨row, hrow, hrt⟩ := List.mem_map.1 hmem
    exact hrows row hrow (hrt.trans hnan)

/-- C17, amended, on form data with the amount -50 and on a sheet of two numeric rows. -/
theorem numeric_amount_stored_as_supplied_witness :
    negativeAmountInput.amount = JsNum.num (-50) ∧
    (∀ row ∈ [salaryRow, foodRow], row.amount ≠ JsNum.nan) ∧
    (∃ t : StoredTransaction,
      addTransaction [] 1723680000000 negativeAmountInput = some ([] ++ [t]) ∧
      t.amount = JsNum.num (-50)) :=
  ⟨rfl, by decide,
    (numeric_amount_stored_as_supplied [] 1723680000000 1 negativeAmountInput (-50)
      [salaryRow, foodRow] frozenClock constantRandom rfl (by decide)).1 _ rfl⟩

/-- C18 at a failing input: a sheet whose first row has an amount that parses to `NaN` and
whose second row has the type Transfer is imported with success and count 2, and both rows are
appended as they are. -/
theorem importTransactions_accepts_bad_amount_and_type :
    nanAmountRow.amount = JsNum.nan ∧
    (transferRow.type ≠ "Income" ∧ transferRow.type ≠ "Expense") ∧
    ∃ added : List StoredTransaction,
      importTransactions [] [nanAmountRow, transferRow] frozenClock constantRandom
        = (ImportResult.success 2, added) ∧
      added.map StoredTransaction.fields = [nanAmountRow, transferRow] := by
  refine ⟨rfl, by decide, _, rfl, rfl⟩

/-- C20 at a failing input: when the clock returns the same millisecond and the random source
the same offset for two rows of one import, or the same millisecond for two calls of
`addTransaction`, the two new records get the same id. -/
theorem transaction_ids_collide :
    (∃ added : List StoredTransaction,
      importTransactions [] [salaryRow, foodRow] frozenClock constantRandom
        = (ImportResult.success 2, added) ∧
      added.map (fun t => t.id) = [1723680000123, 1723680000123]) ∧
    (∃ store : List StoredTransaction,
      (addTransaction [] 1723680000000 salaryRow).bind
          (fun store₁ => addTransaction store₁ 1723680000000 foodRow) = some store ∧
      store.map (fun t => t.id) = [1723680000000, 1723680000000]) ∧
    ¬ ([1723680000123, 1723680000123] : List Nat).Nodup ∧
    ¬ ([1723680000000, 1723680000000] : List Nat).Nodup := by
  refine ⟨⟨_, rfl, rfl⟩, ⟨_, rfl, rfl⟩, by decide, by decide⟩

/-! ## Editing and deleting transactions -/

/-- C21: `updateTransaction` keeps the length and order of the store; at every position a
record with another id is unchanged, and a record with the given id keeps its id and takes the
fields of the form data; the store is unchanged when no record has the id.
`deleteTransaction` yields the records with another id, unchanged and in their order. -/
theorem updateTransaction_deleteTransaction_frame (store : List StoredTransaction) (id : Nat)
    (u : TransactionInput) :
    (updateTransaction store id u).length = store.length ∧
    (∀ (i : Nat) (t : StoredTransaction), store[i]? = some t →
      ∃ t' : StoredTransaction, (updateTransaction store id u)[i]? = some t' ∧
        (t.id ≠ id → t' = t) ∧ (t.id = id → t'.id = t.id ∧ t'.fields = u)) ∧
    ((∀ t ∈ store, t.id ≠ id) → updateTransaction store id u = store) ∧
    deleteTransaction store id = store.filter (fun t => decide (t.id ≠ id)) ∧
    (deleteTransaction store id).Sublist store ∧
    (∀ t : StoredTransaction, t ∈ deleteTransaction store id ↔ t ∈ store ∧ t.id ≠ id) := by
  refine ⟨?_, ?_, ?_, rfl, ?_, ?_⟩
  · simp [updateTransaction]
  · intro i t ht
    simp only [updateTransaction, List.getElem?_map, ht, Option.map_some']
    refine ⟨_, rfl, ?_, ?_⟩
    · intro hne
      simp [hne]
    · intro heq
      simp [heq, StoredTransaction.fields]
  · intro h
    unfold updateTransaction
    conv_rhs => rw [← List.map_id store]
    apply List.map_congr_left
    intro t ht
    simp [h t ht]
  · exact List.filter_sublist store
  · intro t
    simp [deleteTransaction, List.mem_filter]

/-- C21 on a store of two records: editing id 2 rewrites the second record only, and deleting
id 1 leaves the second record. -/
theorem updateTransaction_deleteTransaction_frame_witness :
    updateTransaction [storedRent, storedFood] 2 negativeAmountInput
      = [storedRent,
         { id := 2, date := negativeAmountInput.date,
           description := negativeAmountInput.description,
           amount := negativeAmountInput.amount, category := negativeAmountInput.category,
           type := negativeAmountInput.type }] ∧
    deleteTransaction [storedRent, storedFood] 1 = [storedFood] ∧
    (updateTransaction [storedRent, storedFood] 2 negativeAmountInput).length = 2 :=
  ⟨by rfl, by rfl,
    (updateTransaction_deleteTransaction_frame [storedRent, storedFood] 2
      negativeAmountInput).1⟩

/-! ## The initial state -/

/-- C22: whatever the current date, the state used when nothing is persisted has twelve
categories, four of type Income and eight of type Expense, with pairwise distinct ids,
pairwise distinct names and non-negative budgets, the alert threshold 500, no transaction, and
as current financial year the July-start label of the current date. -/
theorem initialState_defaults (Y : Int) (m day ms : Nat) :
    loadSaved (initialState ⟨Y, m, day, ms⟩) none none none none
      = initialState ⟨Y, m, day, ms⟩ ∧
    (initialState ⟨Y, m, day, ms⟩).categories.length = 12 ∧
    (∀ c ∈ (initialState ⟨Y, m, day, ms⟩).categories, c.type = "Income" ∨ c.type = "Expense") ∧
    (((initialState ⟨Y, m, day, ms⟩).categories.filter fun c => c.type = "Income").map
        fun c => c.name) = ["Salary", "Freelance", "Investments", "Other Income"] ∧
    (((initialState ⟨Y, m, day, ms⟩).categories.filter fun c => c.type = "Expense").map
        fun c => c.name)
      = ["Housing", "Transportation", "Food", "Utilities", "Entertainment", "Healthcare",
          "Shopping", "Other Expenses"] ∧
    ((initialState ⟨Y, m, day, ms⟩).categories.map fun c => c.id).Nodup ∧
    ((initialState ⟨Y, m, day, ms⟩).categories.map fun c => c.name).Nodup ∧
    (∀ c ∈ (initialState ⟨Y, m, day, ms⟩).categories, 0 ≤ c.budget) ∧
    (initialState ⟨Y, m, day, ms⟩).alertThreshold = 500 ∧
    (initialState ⟨Y, m, day, ms⟩).transactions = [] ∧
    (6 ≤ m → (initialState ⟨Y, m, day, ms⟩).currentFinancialYear = fyLabel Y (Y + 1)) ∧
    (m ≤ 5 → (initialState ⟨Y, m, day, ms⟩).currentFinancialYear = fyLabel (Y - 1) Y) := by
  have hcat : (initialState ⟨Y, m, day, ms⟩).categories = defaultCategories := rfl
  rw [hcat]
  refine ⟨rfl, rfl, by decide, by decide, by decide, by decide, by decide, ?_, rfl, rfl, ?_, ?_⟩
  · intro c hc
    simp only [defaultCategories, List.mem_cons, List.mem_singleton,
      List.not_mem_nil, or_false] at hc
    rcases hc with h | h | h | h | h | h | h | h | h | h | h | h <;> rw [h] <;> norm_num
  · intro h
    have h6 : m ≥ 6 := h
    simp [initialState, initialFinancialYear, h6]
  · intro h
    have h6 : ¬ m ≥ 6 := by omega
    simp [initialState, initialFinancialYear, h6]

/-! ## Budget utilization -/

/-- The guard of the card Budget Utilization looks at the expenses: with expenses above zero
and no income the division by zero is evaluated and gives an infinity. -/
theorem budgetUtilization_zero_income (totalExpenses : ℚ) (h : 0 < totalExpenses) :
    budgetUtilization 0 totalExpenses = JsQuotient.posInfinity := by
  have hne : totalExpenses ≠ 0 := ne_of_gt h
  simp [budgetUtilization, jsDivide, JsQuotient.times, h, hne]

/-- C25 at a failing input: with one expense of 700 and no income the total income is 0, the
total expenses are 700, and the card Budget Utilization is the infinity that 700 / 0 gives,
not 0. -/
theorem budgetUtilization_divides_by_zero :
    getTotalIncome expenseOnlyStore "2024-2025" = 0 ∧
    getTotalExpenses expenseOnlyStore "2024-2025" = 700 ∧
    summaryBudgetUtilization expenseOnlyStore = JsQuotient.posInfinity ∧
    summaryBudgetUtilization expenseOnlyStore ≠ JsQuotient.num 0 := by
  have hd : ("2024-2025" : String).data ≠ [] := by decide
  have hfy : getTransactionsForFinancialYear expenseOnlyStore "2024-2025"
      = expenseOnlyStore.transactions := by rfl
  have hI : getTotalIncome expenseOnlyStore "2024-2025" = 0 := by
    unfold getTotalIncome
    simp only [if_neg hd]
    rw [hfy]
    simp [expenseOnlyStore]
  have hE : getTotalExpenses expenseOnlyStore "2024-2025" = 700 := by
    unfold getTotalExpenses
    simp only [if_neg hd]
    rw [hfy]
    simp [expenseOnlyStore]
  have hU : summaryBudgetUtilization expenseOnlyStore = JsQuotient.posInfinity := by
    show budgetUtilization (getTotalIncome expenseOnlyStore "2024-2025")
      (getTotalExpenses expenseOnlyStore "2024-2025") = _
    rw [hI, hE]
    exact budgetUtilization_zero_income 700 (by norm_num)
  refine ⟨hI, hE, hU, ?_⟩
  rw [hU]
  exact fun h => JsQuotient.noConfusion h

/-! ## The transactions table -/

theorem JsDate.le_total (a b : JsDate) : a.le b = true ∨ b.le a = true := by
  simp only [JsDate.le, Bool.or_eq_true, Bool.and_eq_true, decide_eq_true_eq]
  omega

theorem JsDate.le_trans (a b c : JsDate) (hab : a.le b = true) (hbc : b.le c = true) :
    a.le c = true := by
  simp only [JsDate.le, Bool.or_eq_true, Bool.and_eq_true, decide_eq_true_eq] at hab hbc ⊢
  omega

instance : IsTotal Transaction newestFirst :=
  ⟨fun a b => JsDate.le_total b.date a.date⟩

instance : IsTrans Transaction newestFirst :=
  ⟨fun a b c hab hbc => JsDate.le_trans c.date b.date a.date hbc hab⟩

/-- C23: the rows of the transactions table are a permutation of the transactions of the
current financial year that match the type filter (All or the same type) and the category
filter (All or the same category), and each row is dated no earlier than the rows after it. -/
theorem transactionsTableRows_sorted_perm (s : State) (filterType filterCategory : String) :
    (transactionsTableRows s filterType filterCategory).Perm
      ((getTransactionsForFinancialYear s s.currentFinancialYear).filter fun t =>
        decide ((filterType = "All" ∨ t.type = filterType) ∧
          (filterCategory = "All" ∨ t.category = filterCategory))) ∧
    (transactionsTableRows s filterType filterCategory).Pairwise
      (fun earlierRow laterRow => laterRow.date.le earlierRow.date = true) := by
  constructor
  · have hfilter : tableFilteredTransactions s filterType filterCategory
        = (getTransactionsForFinancialYear s s.currentFinancialYear).filter fun t =>
          decide ((filterType = "All" ∨ t.type = filterType) ∧
            (filterCategory = "All" ∨ t.category = filterCategory)) := by
      unfold tableFilteredTransactions
      apply List.filter_congr
      intro t _
      simp [Bool.decide_and, Bool.decide_or]
    rw [← hfilter]
    exact List.perm_insertionSort newestFirst _
  · exact List.sorted_insertionSort newestFirst _

/-- C23 on the scenario store without filters: the expense of 15 August stands before the
salary of 1 August. -/
theorem transactionsTableRows_sorted_perm_witness :
    (transactionsTableRows scenarioStore "All" "All").map (fun t => t.id) = [2, 1] ∧
    (transactionsTableRows scenarioStore "All" "All").Pairwise
      (fun earlierRow laterRow => laterRow.date.le earlierRow.date = true) :=
  ⟨by decide, (transactionsTableRows_sorted_perm scenarioStore "All" "All").2⟩

/-! ## The reports sheet: filters and summary stats -/

/-- C28: with the three filters at `all` the filtered list of the reports sheet is the list of
the current financial year and the three summary figures are `getTotalIncome`,
`getTotalExpenses` and `getNetPosition` of that year; for every choice of the filters the
filtered list is the sublist of the year's list made of the transactions that match the month,
the category and the type filter. -/
theorem reportFilteredTransactions_spec (s : State) (h : s.currentFinancialYear ≠ "") :
    reportFilteredTransactions s "all" "all" "all"
      = getTransactionsForFinancialYear s s.currentFinancialYear ∧
    reportTotalIncome (reportFilteredTransactions s "all" "all" "all")
      = getTotalIncome s s.currentFinancialYear ∧
    reportTotalExpenses (reportFilteredTransactions s "all" "all" "all")
      = getTotalExpenses s s.currentFinancialYear ∧
    reportNetPosition (reportFilteredTransactions s "all" "all" "all")
      = getNetPosition s s.currentFinancialYear ∧
    (∀ selectedMonth selectedCategory selectedType : String,
      (reportFilteredTransactions s selectedMonth selectedCategory selectedType).Sublist
        (getTransactionsForFinancialYear s s.currentFinancialYear) ∧
      reportFilteredTransactions s selectedMonth selectedCategory selectedType
        = (getTransactionsForFinancialYear s s.currentFinancialYear).filter fun t =>
          decide ((selectedMonth = "all" ∨ monthKey t.date = selectedMonth) ∧
            (selectedCategory = "all" ∨ t.category = selectedCategory) ∧
            (selectedType = "all" ∨ t.type = selectedType))) := by
  have hd := data_ne_nil_of_ne_empty _ h
  have hall : reportFilteredTransactions s "all" "all" "all"
      = getTransactionsForFinancialYear s s.currentFinancialYear := by
    unfold reportFilteredTransactions
    simp
  refine ⟨hall, ?_, ?_, ?_, ?_⟩
  · rw [hall]
    simp [reportTotalIncome, getTotalIncome, hd]
  · rw [hall]
    simp [reportTotalExpenses, getTotalExpenses, hd]
  · rw [hall]
    simp [reportNetPosition, getNetPosition, getTotalIncome, getTotalExpenses, hd]
  · intro selectedMonth selectedCategory selectedType
    constructor
    · exact List.filter_sublist _
    · unfold reportFilteredTransactions
      apply List.filter_congr
      intro t _
      simp [Bool.decide_and, Bool.decide_or, Bool.and_assoc]

/-- C28 on the scenario store: without filters both transactions are listed and the figures
are 4500, 700 and 3800; with the type filter Income the salary alone is listed. -/
theorem reportFilteredTransactions_spec_witness :
    scenarioStore.currentFinancialYear ≠ "" ∧
    reportFilteredTransactions scenarioStore "all" "all" "all"
      = getTransactionsForFinancialYear scenarioStore scenarioStore.currentFinancialYear ∧
    (reportFilteredTransactions scenarioStore "all" "all" "Income").map (fun t => t.id)
      = [1] :=
  ⟨by decide, (reportFilteredTransactions_spec scenarioStore (by decide)).1, by decide⟩

/-! ## Sums over the values of a dictionary -/

theorem sum_map_objSet {α : Type} (f : α → ℚ) (obj : List (String × α)) (k : String) (v : α) :
    ((objSet obj k v).map fun kv => f kv.2).sum
      = (obj.map fun kv => f kv.2).sum - ((objGet obj k).map f).getD 0 + f v := by
  induction obj with
  | nil => simp [objSet, objGet]
  | cons kv rest ih =>
    obtain ⟨k₀, w⟩ := kv
    by_cases h₀ : k₀ = k
    · simp [objSet, objGet, h₀]
      ring
    · simp [objSet, objGet, h₀, ih]
      ring

theorem sum_income_monthlyStep (obj : List (String × MonthTotals)) (t : Transaction) :
    ((monthlyStep obj t).map fun kv => kv.2.income).sum
      = (obj.map fun kv => kv.2.income).sum + (if t.type = "Income" then t.amount else 0) := by
  rw [monthlyStep_eq, sum_map_objSet (fun e : MonthTotals => e.income)]
  cases objGet obj (monthKey t.date) with
  | none => by_cases ht : t.type = "Income" <;> simp [monthAdd, ht]
  | some e =>
    by_cases ht : t.type = "Income"
    · simp [monthAdd, ht]
      ring
    · simp [monthAdd, ht]

theorem sum_expenses_monthlyStep (obj : List (String × MonthTotals)) (t : Transaction) :
    ((monthlyStep obj t).map fun kv => kv.2.expenses).sum
      = (obj.map fun kv => kv.2.expenses).sum
        + (if t.type = "Income" then 0 else t.amount) := by
  rw [monthlyStep_eq, sum_map_objSet (fun e : MonthTotals => e.expenses)]
  cases objGet obj (monthKey t.date) with
  | none => by_cases ht : t.type = "Income" <;> simp [monthAdd, ht]
  | some e =>
    by_cases ht : t.type = "Income"
    · simp [monthAdd, ht]
    · simp [monthAdd, ht]
      ring

theorem sum_income_foldl_monthlyStep (txs : List Transaction) :
    ∀ obj : List (String × MonthTotals),
      ((txs.foldl monthlyStep obj).map fun kv => kv.2.income).sum
        = (obj.map fun kv => kv.2.income).sum
          + ((txs.filter fun t => t.type = "Income").map fun t => t.amount).sum := by
  induction txs with
  | nil => intro obj; simp
  | cons t ts ih =>
    intro obj
    simp only [List.foldl_cons]
    rw [ih, sum_income_monthlyStep]
    by_cases ht : t.type = "Income"
    · simp [List.filter_cons, ht, add_assoc]
    · simp [List.filter_cons, ht]

theorem sum_expenses_foldl_monthlyStep (txs : List Transaction) :
    ∀ obj : List (String × MonthTotals),
      ((txs.foldl monthlyStep obj).map fun kv => kv.2.expenses).sum
        = (obj.map fun kv => kv.2.expenses).sum
          + ((txs.filter fun t => t.type ≠ "Income").map fun t => t.amount).sum := by
  induction txs with
  | nil => intro obj; simp
  | cons t ts ih =>
    intro obj
    simp only [List.foldl_cons]
    rw [ih, sum_expenses_monthlyStep]
    by_cases ht : t.type = "Income"
    · simp [List.filter_cons, ht]
    · simp [List.filter_cons, ht, add_assoc]

/-- In exact arithmetic, when every transaction has type Income or Expense, the incomes of the
months of `getMonthlyData` add up to `getTotalIncome` and the expenses of the months to
`getTotalExpenses`, for every argument. -/
theorem monthlyData_sums_to_totals (s : State) (fy : String)
    (htypes : ∀ t ∈ s.transactions, t.type = "Income" ∨ t.type = "Expense") :
    ((getMonthlyData s fy).map fun kv => kv.2.income).sum = getTotalIncome s fy ∧
    ((getMonthlyData s fy).map fun kv => kv.2.expenses).sum = getTotalExpenses s fy := by
  have hsub : ∀ t ∈ (if fy.data = [] then s.transactions
      else getTransactionsForFinancialYear s fy), t.type = "Income" ∨ t.type = "Expense" := by
    intro t ht
    split at ht
    · exact htypes t ht
    · exact htypes t (List.mem_of_mem_filter ht)
  have hexp : ((if fy.data = [] then s.transactions
      else getTransactionsForFinancialYear s fy).filter fun t => t.type ≠ "Income")
      = (if fy.data = [] then s.transactions
          else getTransactionsForFinancialYear s fy).filter fun t => t.type = "Expense" := by
    apply List.filter_congr
    intro t ht
    rcases hsub t ht with h | h <;> simp [h]
  constructor
  · unfold getMonthlyData getTotalIncome
    simp only []
    rw [sum_income_foldl_monthlyStep, foldl_add_amount]
    simp
  · unfold getMonthlyData getTotalExpenses
    simp only []
    rw [sum_expenses_foldl_monthlyStep, foldl_add_amount, hexp]
    simp

/-! ## The sum of the actual amounts -/

theorem sum_actual_addActual (obj : List (String × Spending)) (t : Transaction) :
    ((addActual obj t).map fun kv => kv.2.actual).sum
      = (obj.map fun kv => kv.2.actual).sum
        + (if t.category ∈ objKeys obj then t.amount else 0) := by
  cases hget : objGet obj t.category with
  | none =>
    have hk : t.category ∉ objKeys obj := (objGet_eq_none_iff obj t.category).1 hget
    rw [addActual_of_none obj t hget]
    simp [hk]
  | some e =>
    have hk : t.category ∈ objKeys obj := by
      by_contra hk
      rw [(objGet_eq_none_iff obj t.category).2 hk] at hget
      exact Option.noConfusion hget
    have hadd : addActual obj t = objSet obj t.category
        { e with actual := e.actual + t.amount, transactions := e.transactions ++ [t] } := by
      unfold addActual
      rw [hget]
    rw [hadd, sum_map_objSet (fun e : Spending => e.actual), hget]
    simp [hk]
    ring

theorem sum_actual_foldl_addActual (txs : List Transaction) :
    ∀ obj : List (String × Spending),
      ((txs.foldl addActual obj).map fun kv => kv.2.actual).sum
        = (obj.map fun kv => kv.2.actual).sum
          + ((txs.filter fun t => t.category ∈ objKeys obj).map fun t => t.amount).sum := by
  induction txs with
  | nil => intro obj; simp
  | cons t ts ih =>
    intro obj
    simp only [List.foldl_cons]
    rw [ih, sum_actual_addActual, objKeys_addActual]
    by_cases hk : t.category ∈ objKeys obj
    · simp [List.filter_cons, hk, add_assoc]
    · simp [List.filter_cons, hk]

theorem mem_objKeys_foldl_initCategory (cats : List Category) (k : String) :
    ∀ obj : List (String × Spending),
      k ∈ objKeys (cats.foldl initCategory obj) ↔
        k ∈ objKeys obj ∨ k ∈ cats.map fun c => c.name := by
  induction cats with
  | nil => intro obj; simp
  | cons c cs ih =>
    intro obj
    simp only [List.foldl_cons]
    rw [ih, initCategory_eq, objKeys_objSet]
    by_cases hc : c.name ∈ objKeys obj
    · simp only [if_pos hc, List.map_cons, List.mem_cons]
      constructor
      · rintro (h | h)
        · left; exact h
        · right; right; exact h
      · rintro (h | h | h)
        · left; exact h
        · left; rw [h]; exact hc
        · right; exact h
    · simp only [if_neg hc, List.map_cons, List.mem_cons, List.mem_append,
        List.not_mem_nil, or_false]
      constructor
      · rintro ((h | h) | h)
        · left; exact h
        · right; left; exact h
        · right; right; exact h
      · rintro (h | h | h)
        · left; left; exact h
        · left; right; exact h
        · right; exact h

theorem actual_zero_foldl_initCategory (cats : List Category) :
    ∀ obj : List (String × Spending), (∀ kv ∈ obj, kv.2.actual = 0) →
      ∀ kv ∈ cats.foldl initCategory obj, kv.2.actual = 0 := by
  induction cats with
  | nil => intro obj h; exact h
  | cons c cs ih =>
    intro obj h
    simp only [List.foldl_cons]
    apply ih
    intro kv hkv
    rw [initCategory_eq] at hkv
    rcases mem_objSet _ _ _ _ hkv with h' | h'
    · exact h kv h'
    · rw [h']
      rfl

theorem sum_amount_split_by_type (l : List Transaction)
    (h : ∀ t ∈ l, t.type = "Income" ∨ t.type = "Expense") :
    (l.map fun t => t.amount).sum
      = ((l.filter fun t => t.type = "Income").map fun t => t.amount).sum
        + ((l.filter fun t => t.type = "Expense").map fun t => t.amount).sum := by
  induction l with
  | nil => simp
  | cons t ts ih =>
    have ih' := ih (fun x hx => h x (by simp [hx]))
    have hne : ("Income" : String) ≠ "Expense" := by decide
    rcases h t (by simp) with ht | ht
    · have ht' : t.type ≠ "Expense" := by rw [ht]; exact hne
      simp [List.filter_cons, ht, hne, ih']
      ring
    · have ht' : t.type ≠ "Income" := by rw [ht]; exact hne.symm
      simp [List.filter_cons, ht, hne.symm, ih']
      ring

/-- In exact arithmetic and in the dictionary reading, the actual amounts of the entries of
`getCategoryBudgetData` add up to the sum of the amounts of the current-financial-year
transactions whose category is the name of a category of the store; when the current financial
year is a label and each of its transactions has such a category and the type Income or
Expense, that sum is `getTotalIncome` plus `getTotalExpenses` of the year. -/
theorem sum_actual_getCategoryBudgetData (s : State) :
    ((getCategoryBudgetData s).map fun kv => kv.2.actual).sum
      = (((getTransactionsForFinancialYear s s.currentFinancialYear).filter fun t =>
          t.category ∈ s.categories.map fun c => c.name).map fun t => t.amount).sum ∧
    (s.currentFinancialYear ≠ "" →
      (∀ t ∈ getTransactionsForFinancialYear s s.currentFinancialYear,
        (t.category ∈ s.categories.map fun c => c.name) ∧
          (t.type = "Income" ∨ t.type = "Expense")) →
      ((getCategoryBudgetData s).map fun kv => kv.2.actual).sum
        = getTotalIncome s s.currentFinancialYear
          + getTotalExpenses s s.currentFinancialYear) := by
  have hsum : ((getCategoryBudgetData s).map fun kv => kv.2.actual).sum
      = (((getTransactionsForFinancialYear s s.currentFinancialYear).filter fun t =>
          t.category ∈ s.categories.map fun c => c.name).map fun t => t.amount).sum := by
    have hmap : ((getCategoryBudgetData s).map fun kv => kv.2.actual)
        = (((getTransactionsForFinancialYear s s.currentFinancialYear).foldl addActual
            (s.categories.foldl initCategory [])).map fun kv => kv.2.actual) := by
      unfold getCategoryBudgetData
      simp only [List.map_map]
      rfl
    have hzero : ((s.categories.foldl initCategory []).map fun kv => kv.2.actual).sum = 0 := by
      apply List.sum_eq_zero
      intro x hx
      obtain ⟨kv, hkv, rfl⟩ := List.mem_map.1 hx
      exact actual_zero_foldl_initCategory s.categories [] (by simp) kv hkv
    have hkeys : ((getTransactionsForFinancialYear s s.currentFinancialYear).filter fun t =>
          t.category ∈ objKeys (s.categories.foldl initCategory []))
        = (getTransactionsForFinancialYear s s.currentFinancialYear).filter fun t =>
          t.category ∈ s.categories.map fun c => c.name := by
      apply List.filter_congr
      intro t _
      rw [decide_eq_decide, mem_objKeys_foldl_initCategory]
      simp [objKeys]
    rw [hmap, sum_actual_foldl_addActual, hzero, hkeys, zero_add]
  refine ⟨hsum, ?_⟩
  intro hcur hall
  have hd := data_ne_nil_of_ne_empty _ hcur
  have hfilter : ((getTransactionsForFinancialYear s s.currentFinancialYear).filter fun t =>
        t.category ∈ s.categories.map fun c => c.name)
      = getTransactionsForFinancialYear s s.currentFinancialYear := by
    apply List.filter_eq_self.2
    intro t ht
    simpa using (hall t ht).1
  rw [hsum, hfilter, sum_amount_split_by_type _ (fun t ht => (hall t ht).2)]
  simp [getTotalIncome, getTotalExpenses, hd, foldl_add_amount]

/-! ## The filters of the reports sheet at `all` -/

theorem reportFilteredTransactions_all (s : State) :
    reportFilteredTransactions s "all" "all" "all"
      = getTransactionsForFinancialYear s s.currentFinancialYear := by
  unfold reportFilteredTransactions
  simp

/-! ## The monthly breakdown of the reports sheet -/

/-- C30 at a failing input: with one transaction in July 2024 and one in August 2024 the
monthly breakdown has one section for each month, and it lists July 2024 before August 2024,
the older month first, because the sections are sorted by the name of the month. -/
theorem pivotData_lists_july_before_august :
    (reportFilteredTransactions julyAugustStore "all" "all" "all").map
        (fun t => (monthKey t.date, monthName t.date))
      = [("2024-07", "July 2024"), ("2024-08", "August 2024")] ∧
    (pivotData julyAugustStore "all" "all" "all").map (fun m => m.month)
      = ["July 2024", "August 2024"] := by
  decide

/-! ## The order of the default sort on month keys -/

theorem padStart2_month (m : Nat) (h : m < 12) :
    padStart2 (m + 1) = [digitChar ((m + 1) / 10), digitChar ((m + 1) % 10)] := by
  interval_cases m <;> rfl

theorem monthKey_data_four_digits (d : JsDate) (n : Nat) (hy : d.year = (n : Int))
    (hn : 1000 ≤ n ∧ n ≤ 9999) (hm : d.month < 12) :
    (monthKey d).data
      = [digitChar (n / 1000), digitChar (n / 100 % 10), digitChar (n / 10 % 10),
          digitChar (n % 10), '-', digitChar ((d.month + 1) / 10),
          digitChar ((d.month + 1) % 10)] := by
  have hr : renderInt d.year = renderNat n := by rw [hy]; rfl
  show renderInt d.year ++ '-' :: padStart2 (d.month + 1) = _
  rw [hr, renderNat_four_digits n hn, padStart2_month d.month hm]
  rfl

/-- Between the keys of months with four-digit years the order of the default sort is the
order of the months. -/
theorem month_le_of_sortsBefore_monthKey (a b : JsDate) (ha : fourDigitYear a)
    (hb : fourDigitYear b) (h : sortsBefore (monthKey a) (monthKey b)) :
    a.year < b.year ∨ (a.year = b.year ∧ a.month ≤ b.month) := by
  obtain ⟨ha1, ha2, ha3⟩ := ha
  obtain ⟨hb1, hb2, hb3⟩ := hb
  obtain ⟨n, hn⟩ := Int.eq_ofNat_of_zero_le (by omega : 0 ≤ a.year)
  obtain ⟨k, hk⟩ := Int.eq_ofNat_of_zero_le (by omega : 0 ≤ b.year)
  have h' : codeUnitLe (monthKey a).data (monthKey b).data = true := h
  rw [monthKey_data_four_digits a n hn (by omega) ha3,
    monthKey_data_four_digits b k hk (by omega) hb3] at h'
  have hdash : ('-' : Char).toNat = 45 := rfl
  simp only [codeUnitLe, Bool.or_eq_true, Bool.and_eq_true, decide_eq_true_eq, hdash] at h'
  rw [digitChar_toNat (n / 1000) (by omega), digitChar_toNat (k / 1000) (by omega),
    digitChar_toNat (n / 100 % 10) (by omega), digitChar_toNat (k / 100 % 10) (by omega),
    digitChar_toNat (n / 10 % 10) (by omega), digitChar_toNat (k / 10 % 10) (by omega),
    digitChar_toNat (n % 10) (by omega), digitChar_toNat (k % 10) (by omega),
    digitChar_toNat ((a.month + 1) / 10) (by omega),
    digitChar_toNat ((b.month + 1) / 10) (by omega),
    digitChar_toNat ((a.month + 1) % 10) (by omega),
    digitChar_toNat ((b.month + 1) % 10) (by omega)] at h'
  rw [hn, hk]
  omega

theorem monthBefore_of_sortsBefore_monthKey (a b : JsDate) (ha : fourDigitYear a)
    (hb : fourDigitYear b) (h : sortsBefore (monthKey a) (monthKey b))
    (hne : monthKey a ≠ monthKey b) : monthBefore a b := by
  rcases month_le_of_sortsBefore_monthKey a b ha hb h with hlt | ⟨hy, hm⟩
  · left; exact hlt
  · right
    refine ⟨hy, ?_⟩
    rcases Nat.lt_or_ge a.month b.month with hlt | hge
    · exact hlt
    · exfalso
      apply hne
      exact (monthKey_eq_iff a b).2 ⟨hy, by omega⟩

theorem mem_objKeys_foldl_monthlyStep (txs : List Transaction) (k : String) :
    ∀ obj : List (String × MonthTotals),
      k ∈ objKeys (txs.foldl monthlyStep obj) ↔
        k ∈ objKeys obj ∨ ∃ t ∈ txs, monthKey t.date = k := by
  induction txs with
  | nil => intro obj; simp
  | cons t ts ih =>
    intro obj
    simp only [List.foldl_cons]
    rw [ih, monthlyStep_eq, objKeys_objSet]
    by_cases hc : monthKey t.date ∈ objKeys obj
    · simp only [if_pos hc, List.mem_cons, exists_eq_or_imp]
      constructor
      · rintro (h | h)
        · left; exact h
        · right; right; exact h
      · rintro (h | h | h)
        · left; exact h
        · left; rw [← h]; exact hc
        · right; exact h
    · simp only [if_neg hc, List.mem_cons, List.mem_append, List.not_mem_nil, or_false,
        exists_eq_or_imp]
      constructor
      · rintro ((h | h) | h)
        · left; exact h
        · right; left; exact h.symm
        · right; right; exact h
      · rintro (h | h | h)
        · left; left; exact h
        · left; right; exact h.symm
        · right; exact h

theorem exists_increasing_months (l : List String) :
    (∀ x ∈ l, ∃ d : JsDate, fourDigitYear d ∧ x = monthKey d) →
    l.Sorted sortsBefore → l.Nodup →
    ∃ dates : List JsDate, (∀ d ∈ dates, fourDigitYear d) ∧ dates.Pairwise monthBefore ∧
      l = dates.map monthKey := by
  induction l with
  | nil => intro _ _ _; exact ⟨[], by simp, List.Pairwise.nil, rfl⟩
  | cons x xs ih =>
    intro hall hs hnd
    obtain ⟨a, ha, hx⟩ := hall x (by simp)
    obtain ⟨hrel, hs'⟩ := List.sorted_cons.1 hs
    obtain ⟨hnot, hnd'⟩ := List.nodup_cons.1 hnd
    obtain ⟨dates, hrange, hsorted, hmap⟩ :=
      ih (fun y hy => hall y (by simp [hy])) hs' hnd'
    refine ⟨a :: dates, ?_, ?_, ?_⟩
    · intro b hb
      rcases List.mem_cons.1 hb with e | e
      · rw [e]; exact ha
      · exact hrange b e
    · refine List.pairwise_cons.2 ⟨?_, hsorted⟩
      intro b hb
      have hmem : monthKey b ∈ xs := by
        rw [hmap]
        exact List.mem_map.2 ⟨b, hb, rfl⟩
      have hr := hrel _ hmem
      rw [hx] at hr
      refine monthBefore_of_sortsBefore_monthKey a b ha (hrange b hb) hr ?_
      intro e
      apply hnot
      rw [hx, e]
      exact hmem
    · rw [hx, hmap]
      rfl

/-! ## The monthly comparison bar chart -/

/-- C24, at an input where the claim fails: the financial year 999-1000 holds a transaction of
August 999 and one of March 1000, and the month axis lists the key of March 1000 before the
key of August 999, so the months are not in ascending chronological order. -/
theorem monthlyBarOptions_year_999_counterexample :
    (getTransactionsForFinancialYear year999Store year999Store.currentFinancialYear).map
        (fun t => (t.date.year, t.date.month, monthKey t.date))
      = [(999, 7, "999-08"), (1000, 2, "1000-03")] ∧
    (monthlyBarOptions year999Store).months = ["1000-03", "999-08"] ∧
    ¬ ∃ dates : List JsDate,
        (monthlyBarOptions year999Store).months = dates.map monthKey ∧
          dates.Pairwise monthBefore := by
  have h1 : (getTransactionsForFinancialYear year999Store
      year999Store.currentFinancialYear).map
        (fun t => (t.date.year, t.date.month, monthKey t.date))
      = [(999, 7, "999-08"), (1000, 2, "1000-03")] := by decide
  have h2 : (monthlyBarOptions year999Store).months = ["1000-03", "999-08"] := by decide
  refine ⟨h1, h2, ?_⟩
  rintro ⟨dates, hmap, hpw⟩
  rw [h2] at hmap
  have hlen : dates.length = 2 := by
    have := congrArg List.length hmap
    simpa using this.symm
  obtain ⟨a, b, hab⟩ := List.length_eq_two.1 hlen
  subst hab
  simp only [List.map_cons, List.map_nil, List.cons.injEq, and_true] at hmap
  obtain ⟨ha, hb⟩ := hmap
  have ha' : monthKey ⟨1000, 2, 1, 0⟩ = monthKey a := by rw [← ha]; decide
  have hb' : monthKey ⟨999, 7, 1, 0⟩ = monthKey b := by rw [← hb]; decide
  obtain ⟨hay, ham⟩ := (monthKey_eq_iff _ _).1 ha'
  obtain ⟨hby, hbm⟩ := (monthKey_eq_iff _ _).1 hb'
  have hlt : monthBefore a b := (List.pairwise_cons.1 hpw).1 b (by simp)
  unfold monthBefore at hlt
  simp only at hay ham hby hbm
  omega

/-- C24, amended: when the label of the current financial year is not empty and every
transaction of that year has a four-digit year (1000 to 9999) and a month index below 12, the
month axis of the bar chart has min 6 n entries, n being the number of month keys of
getMonthlyData for the current financial year; every entry is such a key, and every key is
shown when there are at most six; the entries are in strictly ascending chronological order;
a month of the financial year that is not shown is earlier than every month shown; and the
income and expense values plotted are, entry by entry, the income and expenses that
getMonthlyData holds for the month. -/
theorem monthlyBarOptions_last_six_months (s : State) (hcur : s.currentFinancialYear ≠ "")
    (hyears : ∀ t ∈ getTransactionsForFinancialYear s s.currentFinancialYear,
      fourDigitYear t.date) :
    (monthlyBarOptions s).months.length
      = min 6 (objKeys (getMonthlyData s s.currentFinancialYear)).length ∧
    (∀ m ∈ (monthlyBarOptions s).months,
      m ∈ objKeys (getMonthlyData s s.currentFinancialYear)) ∧
    ((objKeys (getMonthlyData s s.currentFinancialYear)).length ≤ 6 →
      ∀ k ∈ objKeys (getMonthlyData s s.currentFinancialYear),
        k ∈ (monthlyBarOptions s).months) ∧
    (∃ dates : List JsDate, (monthlyBarOptions s).months = dates.map monthKey ∧
      dates.Pairwise monthBefore) ∧
    (∀ t ∈ getTransactionsForFinancialYear s s.currentFinancialYear,
      monthKey t.date ∉ (monthlyBarOptions s).months →
      ∀ u ∈ getTransactionsForFinancialYear s s.currentFinancialYear,
        monthKey u.date ∈ (monthlyBarOptions s).months → monthBefore t.date u.date) ∧
    (∃ entries : List MonthTotals,
      (monthlyBarOptions s).months.map (objGet (getMonthlyData s s.currentFinancialYear))
        = entries.map some ∧
      (monthlyBarOptions s).incomeData = entries.map (fun e => some e.income) ∧
      (monthlyBarOptions s).expenseData = entries.map (fun e => some e.expenses)) := by
  have hd := data_ne_nil_of_ne_empty _ hcur
  have hdef : getMonthlyData s s.currentFinancialYear
      = (getTransactionsForFinancialYear s s.currentFinancialYear).foldl monthlyStep [] := by
    simp [getMonthlyData, hd]
  have hkeys : ∀ k, k ∈ objKeys (getMonthlyData s s.currentFinancialYear) ↔
      ∃ t ∈ getTransactionsForFinancialYear s s.currentFinancialYear, monthKey t.date = k := by
    intro k
    rw [hdef, mem_objKeys_foldl_monthlyStep]
    simp [objKeys]
  have hnd : (objKeys (getMonthlyData s s.currentFinancialYear)).Nodup := by
    rw [hdef]
    exact nodup_objKeys_foldl_monthlyStep _ _ (by simp [objKeys])
  generalize hK : objKeys (getMonthlyData s s.currentFinancialYear) = K at hkeys hnd
  generalize hS : K.insertionSort sortsBefore = sorted
  have hmonths : (monthlyBarOptions s).months = sorted.drop (sorted.length - 6) := by
    rw [← hS, ← hK]
    rfl
  have hperm : sorted.Perm K := by rw [← hS]; exact List.perm_insertionSort _ _
  have hsorted : sorted.Sorted sortsBefore := by
    rw [← hS]; exact List.sorted_insertionSort _ _
  have hsnd : sorted.Nodup := hperm.nodup_iff.2 hnd
  have hlen : sorted.length = K.length := hperm.length_eq
  have hsplit : sorted.take (sorted.length - 6) ++ sorted.drop (sorted.length - 6) = sorted :=
    List.take_append_drop _ _
  have hsub : ∀ m ∈ sorted.drop (sorted.length - 6), m ∈ K := fun m hm =>
    hperm.mem_iff.1 (List.mem_of_mem_drop hm)
  rw [hmonths]
  refine ⟨?_, hsub, ?_, ?_, ?_, ?_⟩
  · rw [List.length_drop, hlen]
    omega
  · intro hle k hk
    have h0 : sorted.length - 6 = 0 := by omega
    rw [h0, List.drop_zero]
    exact hperm.mem_iff.2 hk
  · have hall : ∀ x ∈ sorted.drop (sorted.length - 6),
        ∃ d : JsDate, fourDigitYear d ∧ x = monthKey d := by
      intro x hx
      obtain ⟨t, ht, hk⟩ := (hkeys x).1 (hsub x hx)
      exact ⟨t.date, hyears t ht, hk.symm⟩
    obtain ⟨dates, _, hpw, hmap⟩ := exists_increasing_months _ hall
      (hsorted.sublist (List.drop_sublist _ _)) (hsnd.sublist (List.drop_sublist _ _))
    exact ⟨dates, hmap, hpw⟩
  · intro t ht hnot u hu hin
    have htK : monthKey t.date ∈ sorted := hperm.mem_iff.2 ((hkeys _).2 ⟨t, ht, rfl⟩)
    rw [← hsplit] at htK
    have htake : monthKey t.date ∈ sorted.take (sorted.length - 6) := by
      rcases List.mem_append.1 htK with h | h
      · exact h
      · exact absurd h hnot
    have hpw : (sorted.take (sorted.length - 6) ++ sorted.drop (sorted.length - 6)).Pairwise
        sortsBefore := by rw [hsplit]; exact hsorted
    have hrel := (List.pairwise_append.1 hpw).2.2 _ htake _ hin
    refine monthBefore_of_sortsBefore_monthKey _ _ (hyears t ht) (hyears u hu) hrel ?_
    intro e
    apply hnot
    rw [e]
    exact hin
  · have hsome : ∀ m ∈ sorted.drop (sorted.length - 6),
        ∃ e, objGet (getMonthlyData s s.currentFinancialYear) m = some e := by
      intro m hm
      have hmK : m ∈ objKeys (getMonthlyData s s.currentFinancialYear) := by
        rw [hK]; exact hsub m hm
      cases hget : objGet (getMonthlyData s s.currentFinancialYear) m with
      | none => exact absurd hmK ((objGet_eq_none_iff _ _).1 hget)
      | some e => exact ⟨e, rfl⟩
    have hin : (monthlyBarOptions s).incomeData
        = ((monthlyBarOptions s).months.map
            (objGet (getMonthlyData s s.currentFinancialYear))).map
              (fun o => o.map fun e => e.income) := by
      rw [List.map_map]; rfl
    have hex : (monthlyBarOptions s).expenseData
        = ((monthlyBarOptions s).months.map
            (objGet (getMonthlyData s s.currentFinancialYear))).map
              (fun o => o.map fun e => e.expenses) := by
      rw [List.map_map]; rfl
    rw [hin, hex, hmonths]
    generalize sorted.drop (sorted.length - 6) = ms at hsome
    have hent : ∃ entries : List MonthTotals,
        ms.map (objGet (getMonthlyData s s.currentFinancialYear)) = entries.map some := by
      induction ms with
      | nil => exact ⟨[], rfl⟩
      | cons m rest ih =>
        obtain ⟨e, he⟩ := hsome m (by simp)
        obtain ⟨es, hes⟩ := ih (fun x hx => hsome x (by simp [hx]))
        exact ⟨e :: es, by simp [he, hes]⟩
    obtain ⟨entries, hent⟩ := hent
    refine ⟨entries, hent, ?_, ?_⟩
    · rw [hent, List.map_map]; rfl
    · rw [hent, List.map_map]; rfl

/-- C24, amended, on a store with transactions in seven months of the financial year
2024-2025: the axis drops July 2024 and shows the six later months in order. -/
theorem monthlyBarOptions_last_six_months_witness :
    sevenMonthStore.currentFinancialYear ≠ "" ∧
    (∀ t ∈ getTransactionsForFinancialYear sevenMonthStore
      sevenMonthStore.currentFinancialYear, fourDigitYear t.date) ∧
    (monthlyBarOptions sevenMonthStore).months
      = ["2024-08", "2024-09", "2024-10", "2024-11", "2024-12", "2025-01"] ∧
    (monthlyBarOptions sevenMonthStore).months.length
      = min 6 (objKeys (getMonthlyData sevenMonthStore
          sevenMonthStore.currentFinancialYear)).length ∧
    (∃ dates : List JsDate, (monthlyBarOptions sevenMonthStore).months = dates.map monthKey ∧
      dates.Pairwise monthBefore) := by
  have hcur : sevenMonthStore.currentFinancialYear ≠ "" := by decide
  have hyears : ∀ t ∈ getTransactionsForFinancialYear sevenMonthStore
      sevenMonthStore.currentFinancialYear, fourDigitYear t.date := by decide
  have h := monthlyBarOptions_last_six_months sevenMonthStore hcur hyears
  exact ⟨hcur, hyears, by decide, h.1, h.2.2.2.1⟩

/-! ## Binary64: whole numbers are kept -/

theorem bitLengthAux_zero (fuel : Nat) : bitLengthAux fuel 0 = 0 := by
  cases fuel <;> simp [bitLengthAux]

theorem bitLengthAux_bounds (fuel : Nat) :
    ∀ n : Nat, 0 < n → n ≤ fuel →
      1 ≤ bitLengthAux fuel n ∧ 2 ^ (bitLengthAux fuel n - 1) ≤ n ∧
        n < 2 ^ bitLengthAux fuel n := by
  induction fuel with
  | zero => intro n h0 h1; omega
  | succ fuel ih =>
    intro n h0 h1
    have hn : n ≠ 0 := by omega
    simp only [bitLengthAux, if_neg hn]
    by_cases h2 : n / 2 = 0
    · rw [h2, bitLengthAux_zero]
      have : n = 1 := by omega
      subst this
      simp
    · obtain ⟨hb1, hb2, hb3⟩ := ih (n / 2) (by omega) (by omega)
      obtain ⟨b, hb⟩ : ∃ b, bitLengthAux fuel (n / 2) = b + 1 := ⟨_, (Nat.sub_add_cancel hb1).symm⟩
      rw [hb] at hb2 hb3 ⊢
      simp only [Nat.add_sub_cancel] at hb2 ⊢
      rw [Nat.pow_succ] at hb3 ⊢
      rw [Nat.pow_succ]
      omega

theorem bitLength_bounds (n : Nat) (h : 0 < n) :
    1 ≤ bitLength n ∧ 2 ^ (bitLength n - 1) ≤ n ∧ n < 2 ^ bitLength n :=
  bitLengthAux_bounds n n h (Nat.le_refl n)

theorem roundHalfEven_one (p : Nat) : roundHalfEven p 1 = p := by
  simp [roundHalfEven, Nat.mod_one]

/-- A positive whole number below `2 ^ 53` is a binary64 value. -/
theorem roundMagnitude_nat (p : Nat) (hp : 0 < p) (h : p < 2 ^ 53) :
    roundMagnitude p 1 = (p : ℚ) := by
  obtain ⟨hb1, hb2, _⟩ := bitLength_bounds p hp
  obtain ⟨k, hk⟩ : ∃ k, bitLength p = k + 1 := ⟨_, (Nat.sub_add_cancel hb1).symm⟩
  rw [hk] at hb2
  simp only [Nat.add_sub_cancel] at hb2
  have hk53 : k < 53 := by
    by_contra hge
    have : 2 ^ 53 ≤ 2 ^ k := Nat.pow_le_pow_right (by norm_num) (by omega)
    omega
  have hone : bitLength 1 = 1 := by decide
  have hexp : binaryExponent p 1 = (k : Int) := by
    unfold binaryExponent
    rw [hk, hone]
    have he : ((k + 1 : Nat) : Int) - ((1 : Nat) : Int) = (k : Int) := by push_cast; ring
    simp only [he]
    have hpl : powLe (k : Int) p 1 = true := by
      unfold powLe
      simp [hb2]
    rw [if_pos hpl]
  unfold roundMagnitude
  rw [hexp]
  have hmax : max (k : Int) (-1022) - 52 = (k : Int) - 52 := by
    rw [max_eq_left (by omega)]
  simp only [hmax]
  by_cases h52 : k = 52
  · subst h52
    simp [roundHalfEven_one]
  · have hneg : ¬ (0 : Int) ≤ (k : Int) - 52 := by omega
    rw [if_neg hneg, roundHalfEven_one]
    have hto : (-((k : Int) - 52)).toNat = 52 - k := by omega
    rw [hto]
    have hz : ((k : Int) - 52) = -((52 - k : Nat) : Int) := by omega
    rw [hz, zpow_neg, zpow_natCast]
    push_cast
    have hpos : ((2 : ℚ) ^ (52 - k)) ≠ 0 := pow_ne_zero _ (by norm_num)
    field_simp

/-- A whole number of magnitude below `2 ^ 53` is a Number. -/
theorem toDouble_intCast (z : Int) (h : |z| < 2 ^ 53) :
    toDouble (z : ℚ) = JsQuotient.num (z : ℚ) := by
  unfold toDouble
  by_cases hz : z = 0
  · subst hz
    simp
  · have hq : (z : ℚ) ≠ 0 := by exact_mod_cast hz
    rw [if_neg hq]
    have hnat : 0 < z.natAbs := Int.natAbs_pos.2 hz
    have hlt : z.natAbs < 2 ^ 53 := by
      have := Int.natAbs_lt_natAbs_of_nonneg_of_lt (abs_nonneg z) h
      have habs : (|z|).natAbs = z.natAbs := Int.natAbs_abs z
      rw [habs] at this
      simpa using this
    simp only [Rat.num_intCast, Rat.den_intCast]
    rw [roundMagnitude_nat _ hnat hlt]
    have hsmall : ¬ ((2 : ℚ) ^ (1024 : Nat) ≤ (z.natAbs : ℚ)) := by
      have h1 : (z.natAbs : ℚ) < (2 : ℚ) ^ (53 : Nat) := by exact_mod_cast hlt
      have h2 : (2 : ℚ) ^ (53 : Nat) ≤ (2 : ℚ) ^ (1024 : Nat) :=
        pow_le_pow_right₀ (by norm_num) (by norm_num)
      exact not_le.2 (lt_of_lt_of_le h1 h2)
    rw [if_neg hsmall]
    congr 1
    by_cases hpos : 0 < z
    · have : (0 : ℚ) < (z : ℚ) := by exact_mod_cast hpos
      rw [if_pos this, Nat.cast_natAbs, abs_of_pos hpos]
    · have : ¬ (0 : ℚ) < (z : ℚ) := by
        intro h'
        exact hpos (by exact_mod_cast h')
      rw [if_neg this]
      have hneg : z < 0 := lt_of_le_of_ne (not_lt.1 hpos) hz
      rw [Nat.cast_natAbs, abs_of_neg hneg]
      push_cast
      ring

/-- The sum of two whole Numbers is exact while its magnitude stays below `2 ^ 53`. -/
theorem plus_num_intCast (a b : Int) (h : |a + b| < 2 ^ 53) :
    (JsQuotient.num (a : ℚ)).plus (JsQuotient.num (b : ℚ)) = JsQuotient.num ((a : ℚ) + b) := by
  have := toDouble_intCast (a + b) h
  push_cast at this
  exact this

/-! ## Sums of whole amounts are exact -/

theorem plus_num_whole (a b : ℚ) (ha : a.den = 1) (hb : b.den = 1)
    (h : |a| + |b| ≤ 9007199254740991) :
    (JsQuotient.num a).plus (JsQuotient.num b) = JsQuotient.num (a + b) ∧ (a + b).den = 1 := by
  have ha' : ((a.num : Int) : ℚ) = a := Rat.coe_int_num_of_den_eq_one ha
  have hb' : ((b.num : Int) : ℚ) = b := Rat.coe_int_num_of_den_eq_one hb
  rw [← ha', ← hb'] at h ⊢
  have hz : |a.num + b.num| < 2 ^ 53 := by
    have h1 : |a.num + b.num| ≤ |a.num| + |b.num| := abs_add _ _
    have h2 : |a.num| + |b.num| ≤ 9007199254740991 := by
      have : ((|a.num| + |b.num| : Int) : ℚ) ≤ ((9007199254740991 : Int) : ℚ) := by
        push_cast
        exact h
      exact_mod_cast this
    have h3 : (9007199254740991 : Int) < 2 ^ 53 := by norm_num
    omega
  refine ⟨plus_num_intCast _ _ hz, ?_⟩
  have : ((a.num : Int) : ℚ) + ((b.num : Int) : ℚ) = ((a.num + b.num : Int) : ℚ) := by
    push_cast; rfl
  rw [this, Rat.den_intCast]

theorem wholeAmounts_sublist (l₁ l₂ : List Transaction) (h : l₁.Sublist l₂)
    (hw : wholeAmounts l₂) : wholeAmounts l₁ := by
  refine ⟨fun t ht => hw.1 t (h.subset ht), le_trans ?_ hw.2⟩
  apply List.Sublist.sum_le_sum (h.map _)
  intro x hx
  obtain ⟨t, _, rfl⟩ := List.mem_map.1 hx
  exact abs_nonneg _

theorem foldl_plus_whole (l : List Transaction) :
    ∀ acc : ℚ, acc.den = 1 → (∀ t ∈ l, t.amount.den = 1) →
      |acc| + (l.map fun t => |t.amount|).sum ≤ 9007199254740991 →
      l.foldl (fun sum t => sum.plus (JsQuotient.num t.amount)) (JsQuotient.num acc)
        = JsQuotient.num (l.foldl (fun sum t => sum + t.amount) acc) := by
  induction l with
  | nil => intro acc _ _ _; rfl
  | cons t ts ih =>
    intro acc hacc hl hb
    simp only [List.map_cons, List.sum_cons] at hb
    have hnn : 0 ≤ (ts.map fun t => |t.amount|).sum := by
      apply List.sum_nonneg
      intro x hx
      obtain ⟨u, _, rfl⟩ := List.mem_map.1 hx
      exact abs_nonneg _
    obtain ⟨h1, h2⟩ := plus_num_whole acc t.amount hacc (hl t (by simp)) (by linarith)
    simp only [List.foldl_cons]
    rw [h1]
    apply ih _ h2 (fun u hu => hl u (by simp [hu]))
    have := abs_add acc t.amount
    linarith

theorem getTotalIncome_whole (s : State) (fy : String)
    (hw : wholeAmounts
      (if fy.data = [] then s.transactions else getTransactionsForFinancialYear s fy)) :
    Js.getTotalIncome s fy = JsQuotient.num (getTotalIncome s fy) := by
  unfold Js.getTotalIncome getTotalIncome
  simp only []
  obtain ⟨hd, hb⟩ := wholeAmounts_sublist
    (List.filter (fun t : Transaction => decide (t.type = "Income")) _) _
    (List.filter_sublist _) hw
  exact foldl_plus_whole _ 0 rfl hd (by simpa using hb)

theorem getTotalExpenses_whole (s : State) (fy : String)
    (hw : wholeAmounts
      (if fy.data = [] then s.transactions else getTransactionsForFinancialYear s fy)) :
    Js.getTotalExpenses s fy = JsQuotient.num (getTotalExpenses s fy) := by
  unfold Js.getTotalExpenses getTotalExpenses
  simp only []
  obtain ⟨hd, hb⟩ := wholeAmounts_sublist
    (List.filter (fun t : Transaction => decide (t.type = "Expense")) _) _
    (List.filter_sublist _) hw
  exact foldl_plus_whole _ 0 rfl hd (by simpa using hb)

theorem wholeAmounts_selected (s : State) (fy : String) (hw : wholeAmounts s.transactions) :
    wholeAmounts
      (if fy.data = [] then s.transactions else getTransactionsForFinancialYear s fy) := by
  apply wholeAmounts_sublist _ _ _ hw
  split
  · exact List.Sublist.refl _
  · exact List.filter_sublist _

theorem objSet_map {α β : Type} (f : α → β) (obj : List (String × α)) (k : String) (v : α) :
    objSet (obj.map fun kv => (kv.1, f kv.2)) k (f v)
      = (objSet obj k v).map fun kv => (kv.1, f kv.2) := by
  induction obj with
  | nil => simp [objSet]
  | cons kv rest ih =>
    obtain ⟨k₀, w⟩ := kv
    by_cases h₀ : k₀ = k
    · simp [objSet, h₀]
    · simp [objSet, h₀, ih]

theorem Js_monthlyStep_eq (obj : List (String × Js.MonthTotals)) (t : Transaction) :
    Js.monthlyStep obj t
      = objSet obj (monthKey t.date)
          (Js.monthAdd ((objGet obj (monthKey t.date)).getD
            { income := JsQuotient.num 0, expenses := JsQuotient.num 0 }) t) := by
  unfold Js.monthlyStep Js.monthAdd
  dsimp only
  cases objGet obj (monthKey t.date) <;> simp only [Option.getD] <;> split <;> rfl

theorem monthAdd_toNumbers (e : MonthTotals) (t : Transaction)
    (he : e.income.den = 1 ∧ e.expenses.den = 1) (ht : t.amount.den = 1)
    (hb : |e.income| + |e.expenses| + |t.amount| ≤ 9007199254740991) :
    Js.monthAdd e.toNumbers t = (monthAdd e t).toNumbers ∧
    ((monthAdd e t).income.den = 1 ∧ (monthAdd e t).expenses.den = 1) ∧
    |(monthAdd e t).income| + |(monthAdd e t).expenses|
      ≤ |e.income| + |e.expenses| + |t.amount| := by
  have h1 := abs_nonneg e.income
  have h2 := abs_nonneg e.expenses
  unfold Js.monthAdd monthAdd MonthTotals.toNumbers
  by_cases hty : t.type = "Income"
  · obtain ⟨hp, hd⟩ := plus_num_whole e.income t.amount he.1 ht (by linarith)
    have := abs_add e.income t.amount
    simp only [if_pos hty, hp]
    exact ⟨trivial, ⟨hd, he.2⟩, by linarith⟩
  · obtain ⟨hp, hd⟩ := plus_num_whole e.expenses t.amount he.2 ht (by linarith)
    have := abs_add e.expenses t.amount
    simp only [if_neg hty, hp]
    exact ⟨trivial, ⟨he.1, hd⟩, by linarith⟩

theorem magnitude_le_monthsMagnitude (obj : List (String × MonthTotals)) (k : String)
    (e : MonthTotals) (h : objGet obj k = some e) :
    |e.income| + |e.expenses| ≤ monthsMagnitude obj := by
  unfold monthsMagnitude
  apply List.single_le_sum
  · intro x hx
    obtain ⟨kv, _, rfl⟩ := List.mem_map.1 hx
    positivity
  · exact List.mem_map.2 ⟨(k, e), mem_of_objGet _ _ _ h, rfl⟩

/-- One iteration of the loop of `getMonthlyData` on whole amounts: the Numbers are the exact
values. -/
theorem monthlyStep_whole (obj : List (String × MonthTotals)) (t : Transaction)
    (hobj : ∀ kv ∈ obj, kv.2.income.den = 1 ∧ kv.2.expenses.den = 1)
    (ht : t.amount.den = 1) (hB : monthsMagnitude obj + |t.amount| ≤ 9007199254740991) :
    Js.monthlyStep (obj.map fun kv => (kv.1, kv.2.toNumbers)) t
      = (monthlyStep obj t).map (fun kv => (kv.1, kv.2.toNumbers)) ∧
    (∀ kv ∈ monthlyStep obj t, kv.2.income.den = 1 ∧ kv.2.expenses.den = 1) ∧
    monthsMagnitude (monthlyStep obj t) ≤ monthsMagnitude obj + |t.amount| := by
  have hnn : 0 ≤ monthsMagnitude obj := by
    unfold monthsMagnitude
    apply List.sum_nonneg
    intro x hx
    obtain ⟨kv, _, rfl⟩ := List.mem_map.1 hx
    positivity
  have hE : ∀ e : MonthTotals,
      (objGet obj (monthKey t.date)).getD { income := 0, expenses := 0 } = e →
      (e.income.den = 1 ∧ e.expenses.den = 1) ∧
      |e.income| + |e.expenses|
        = ((objGet obj (monthKey t.date)).map
            fun e : MonthTotals => |e.income| + |e.expenses|).getD 0 ∧
      |e.income| + |e.expenses| ≤ monthsMagnitude obj := by
    intro e he
    cases hget : objGet obj (monthKey t.date) with
    | none =>
      rw [hget] at he
      subst he
      simp [hnn]
    | some e' =>
      rw [hget] at he
      simp only [Option.getD] at he
      subst he
      exact ⟨hobj _ (mem_of_objGet _ _ _ hget), by simp,
        magnitude_le_monthsMagnitude _ _ _ hget⟩
  obtain ⟨hden, hmag, hle⟩ := hE _ rfl
  obtain ⟨hadd, hden', hmag'⟩ := monthAdd_toNumbers _ t hden ht (by linarith)
  refine ⟨?_, ?_, ?_⟩
  · rw [Js_monthlyStep_eq, monthlyStep_eq, objGet_map, ← objSet_map, ← hadd]
    cases objGet obj (monthKey t.date) <;> rfl
  · intro kv hkv
    rw [monthlyStep_eq] at hkv
    rcases mem_objSet _ _ _ _ hkv with h | h
    · exact hobj kv h
    · rw [h]; exact hden'
  · unfold monthsMagnitude
    rw [monthlyStep_eq, sum_map_objSet (fun e : MonthTotals => |e.income| + |e.expenses|),
      ← hmag]
    linarith

theorem foldl_monthlyStep_whole (txs : List Transaction) :
    ∀ obj : List (String × MonthTotals),
      (∀ kv ∈ obj, kv.2.income.den = 1 ∧ kv.2.expenses.den = 1) →
      (∀ t ∈ txs, t.amount.den = 1) →
      monthsMagnitude obj + (txs.map fun t => |t.amount|).sum ≤ 9007199254740991 →
      txs.foldl Js.monthlyStep (obj.map fun kv => (kv.1, kv.2.toNumbers))
        = (txs.foldl monthlyStep obj).map (fun kv => (kv.1, kv.2.toNumbers)) ∧
      (∀ kv ∈ txs.foldl monthlyStep obj, kv.2.income.den = 1 ∧ kv.2.expenses.den = 1) ∧
      monthsMagnitude (txs.foldl monthlyStep obj)
        ≤ monthsMagnitude obj + (txs.map fun t => |t.amount|).sum := by
  induction txs with
  | nil => intro obj hobj _ _; exact ⟨rfl, hobj, by simp⟩
  | cons t ts ih =>
    intro obj hobj hl hB
    simp only [List.map_cons, List.sum_cons] at hB ⊢
    have hnn : 0 ≤ (ts.map fun t => |t.amount|).sum := by
      apply List.sum_nonneg
      intro x hx
      obtain ⟨u, _, rfl⟩ := List.mem_map.1 hx
      exact abs_nonneg _
    obtain ⟨h1, h2, h3⟩ := monthlyStep_whole obj t hobj (hl t (by simp)) (by linarith)
    obtain ⟨h4, h5, h6⟩ := ih (monthlyStep obj t) h2 (fun u hu => hl u (by simp [hu]))
      (by linarith)
    simp only [List.foldl_cons]
    rw [h1]
    exact ⟨h4, h5, by linarith⟩

/-- On whole amounts the Numbers of `getMonthlyData` are the exact values, which are whole,
and their magnitudes add up to no more than the magnitudes of the amounts. -/
theorem getMonthlyData_whole (s : State) (fy : String) (hw : wholeAmounts s.transactions) :
    Js.getMonthlyData s fy
      = (getMonthlyData s fy).map (fun kv => (kv.1, kv.2.toNumbers)) ∧
    (∀ kv ∈ getMonthlyData s fy, kv.2.income.den = 1 ∧ kv.2.expenses.den = 1) ∧
    monthsMagnitude (getMonthlyData s fy) ≤ 9007199254740991 := by
  unfold Js.getMonthlyData getMonthlyData
  simp only []
  obtain ⟨hd, hb⟩ := wholeAmounts_selected s fy hw
  have h0 : monthsMagnitude [] = 0 := rfl
  obtain ⟨h1, h2, h3⟩ := foldl_monthlyStep_whole _ [] (by simp) hd (by rw [h0]; linarith)
  rw [h0] at h3
  exact ⟨h1, h2, by linarith⟩

theorem foldl_plus_rat_whole (l : List ℚ) :
    ∀ acc : ℚ, acc.den = 1 → (∀ x ∈ l, x.den = 1) →
      |acc| + (l.map fun x => |x|).sum ≤ 9007199254740991 →
      l.foldl (fun sum x => sum.plus (JsQuotient.num x)) (JsQuotient.num acc)
        = JsQuotient.num (acc + l.sum) := by
  induction l with
  | nil => intro acc _ _ _; simp
  | cons x xs ih =>
    intro acc hacc hl hb
    simp only [List.map_cons, List.sum_cons] at hb ⊢
    have hnn : 0 ≤ (xs.map fun x => |x|).sum := by
      apply List.sum_nonneg
      intro y hy
      obtain ⟨u, _, rfl⟩ := List.mem_map.1 hy
      exact abs_nonneg _
    obtain ⟨h1, h2⟩ := plus_num_whole acc x hacc (hl x (by simp)) (by linarith)
    simp only [List.foldl_cons]
    rw [h1, ih _ h2 (fun u hu => hl u (by simp [hu]))
      (by have := abs_add acc x; linarith), add_assoc]

/-! ## The loops of `getCategoryBudgetData` when no read reaches the prototype -/

theorem initCategory_foldl_own (cats : List Category)
    (h : ∀ c ∈ cats, c.name ≠ "__proto__") :
    ∀ (obj : List (String × Spending)) (p : Option Js.Spending),
      cats.foldl Js.initCategory { own := obj.map fun kv => (kv.1, kv.2.toNumbers), proto := p }
        = { own := (cats.foldl initCategory obj).map fun kv => (kv.1, kv.2.toNumbers)
            proto := p } := by
  induction cats with
  | nil => intro obj p; rfl
  | cons c cs ih =>
    intro obj p
    simp only [List.foldl_cons]
    have hc : c.name ≠ "__proto__" := h c (by simp)
    have hstep : Js.initCategory
        { own := obj.map fun kv => (kv.1, kv.2.toNumbers), proto := p } c
        = { own := (initCategory obj c).map fun kv => (kv.1, kv.2.toNumbers)
            proto := p } := by
      unfold Js.initCategory initCategory
      simp only [if_neg hc]
      rw [← objSet_map]
      rfl
    rw [hstep]
    exact ih (fun x hx => h x (by simp [hx])) _ _

theorem Js_objKeys_addActualOwn (own : List (String × Js.Spending)) (t : Transaction) :
    objKeys (Js.addActualOwn own t) = objKeys own := by
  unfold Js.addActualOwn
  cases hget : objGet own t.category with
  | none => rfl
  | some e =>
    have hk : t.category ∈ objKeys own := by
      by_contra hk
      rw [(objGet_eq_none_iff own t.category).2 hk] at hget
      exact Option.noConfusion hget
    simp only []
    rw [objKeys_objSet, if_pos hk]

theorem Js_addActual_own (own : List (String × Js.Spending)) (t : Transaction)
    (h : t.category ∈ objectPrototypeKeys → t.category ∈ objKeys own) :
    Js.addActual { own := own, proto := none } t
      = some { own := Js.addActualOwn own t, proto := none } := by
  unfold Js.addActual Js.addActualOwn
  cases hget : objGet own t.category with
  | some e => rfl
  | none =>
    have hk : t.category ∉ objKeys own := (objGet_eq_none_iff own t.category).1 hget
    have hp : t.category ∉ objectPrototypeKeys := fun hp => hk (h hp)
    have hne : t.category ≠ "__proto__" := by
      intro e
      apply hp
      rw [e]
      decide
    simp [hne, Js.inheritedTruthy, hp]

theorem Js_foldlM_addActual_own (txs : List Transaction) :
    ∀ own : List (String × Js.Spending),
      (∀ t ∈ txs, t.category ∈ objectPrototypeKeys → t.category ∈ objKeys own) →
      txs.foldlM Js.addActual { own := own, proto := none }
        = some { own := txs.foldl Js.addActualOwn own, proto := none } := by
  induction txs with
  | nil => intro own _; rfl
  | cons t ts ih =>
    intro own h
    simp only [List.foldlM_cons, List.foldl_cons]
    rw [Js_addActual_own own t (h t (by simp))]
    simp only [Option.bind_eq_bind, Option.some_bind]
    apply ih
    intro u hu hp
    rw [Js_objKeys_addActualOwn]
    exact h u (by simp [hu]) hp

theorem objKeys_map_toNumbers {α β : Type} (f : α → β) (obj : List (String × α)) :
    objKeys (obj.map fun kv => (kv.1, f kv.2)) = objKeys obj := by
  simp [objKeys, List.map_map, Function.comp_def]

/-- The value of `getCategoryBudgetData` when no category is named `__proto__` and every
transaction of the financial year whose category names a member of `Object.prototype` has a
category of that name in the store: no read reaches the prototype. -/
theorem Js_getCategoryBudgetData_own (s : State)
    (hnames : ∀ c ∈ s.categories, c.name ≠ "__proto__")
    (hcats : ∀ t ∈ getTransactionsForFinancialYear s s.currentFinancialYear,
      t.category ∈ objectPrototypeKeys → t.category ∈ s.categories.map fun c => c.name) :
    Js.getCategoryBudgetData s = some
      { own := ((getTransactionsForFinancialYear s s.currentFinancialYear).foldl
          Js.addActualOwn
            ((s.categories.foldl initCategory []).map fun kv => (kv.1, kv.2.toNumbers))).map
              fun kv => (kv.1, Js.finishEntry kv.2)
        proto := none } := by
  unfold Js.getCategoryBudgetData
  have hinit := initCategory_foldl_own s.categories hnames [] none
  simp only [List.map_nil] at hinit
  simp only []
  rw [hinit, Js_foldlM_addActual_own]
  intro t ht hp
  rw [objKeys_map_toNumbers, mem_objKeys_foldl_initCategory]
  right
  exact hcats t ht hp

/-! ## The actual amounts on whole amounts -/

theorem magnitude_le_spendingMagnitude (obj : List (String × Spending)) (k : String)
    (e : Spending) (h : objGet obj k = some e) : |e.actual| ≤ spendingMagnitude obj := by
  unfold spendingMagnitude
  apply List.single_le_sum
  · intro x hx
    obtain ⟨kv, _, rfl⟩ := List.mem_map.1 hx
    exact abs_nonneg _
  · exact List.mem_map.2 ⟨(k, e), mem_of_objGet _ _ _ h, rfl⟩

theorem addActual_whole (obj : List (String × Spending)) (t : Transaction)
    (hobj : ∀ kv ∈ obj, kv.2.actual.den = 1) (ht : t.amount.den = 1)
    (hB : spendingMagnitude obj + |t.amount| ≤ 9007199254740991) :
    Js.addActualOwn (obj.map fun kv => (kv.1, kv.2.toNumbers)) t
      = (addActual obj t).map (fun kv => (kv.1, kv.2.toNumbers)) ∧
    (∀ kv ∈ addActual obj t, kv.2.actual.den = 1) ∧
    spendingMagnitude (addActual obj t) ≤ spendingMagnitude obj + |t.amount| := by
  have hnn := abs_nonneg t.amount
  unfold Js.addActualOwn
  rw [objGet_map]
  cases hget : objGet obj t.category with
  | none =>
    rw [addActual_of_none obj t hget]
    exact ⟨rfl, hobj, by linarith⟩
  | some e =>
    have hadd : addActual obj t = objSet obj t.category
        { e with actual := e.actual + t.amount, transactions := e.transactions ++ [t] } := by
      unfold addActual
      rw [hget]
    have hle := magnitude_le_spendingMagnitude obj _ e hget
    obtain ⟨hp, hd⟩ := plus_num_whole e.actual t.amount
      (hobj _ (mem_of_objGet _ _ _ hget)) ht (by linarith)
    refine ⟨?_, ?_, ?_⟩
    · rw [hadd, ← objSet_map]
      simp only [Option.map_some', Spending.toNumbers, hp]
    · intro kv hkv
      rw [hadd] at hkv
      rcases mem_objSet _ _ _ _ hkv with h | h
      · exact hobj kv h
      · rw [h]; exact hd
    · unfold spendingMagnitude
      rw [hadd, sum_map_objSet (fun e : Spending => |e.actual|), hget]
      simp only [Option.map_some', Option.getD_some]
      have := abs_add e.actual t.amount
      linarith

theorem foldl_addActual_whole (txs : List Transaction) :
    ∀ obj : List (String × Spending),
      (∀ kv ∈ obj, kv.2.actual.den = 1) → (∀ t ∈ txs, t.amount.den = 1) →
      spendingMagnitude obj + (txs.map fun t => |t.amount|).sum ≤ 9007199254740991 →
      txs.foldl Js.addActualOwn (obj.map fun kv => (kv.1, kv.2.toNumbers))
        = (txs.foldl addActual obj).map (fun kv => (kv.1, kv.2.toNumbers)) ∧
      (∀ kv ∈ txs.foldl addActual obj, kv.2.actual.den = 1) ∧
      spendingMagnitude (txs.foldl addActual obj)
        ≤ spendingMagnitude obj + (txs.map fun t => |t.amount|).sum := by
  induction txs with
  | nil => intro obj hobj _ _; exact ⟨rfl, hobj, by simp⟩
  | cons t ts ih =>
    intro obj hobj hl hB
    simp only [List.map_cons, List.sum_cons] at hB ⊢
    have hnn : 0 ≤ (ts.map fun t => |t.amount|).sum := by
      apply List.sum_nonneg
      intro x hx
      obtain ⟨u, _, rfl⟩ := List.mem_map.1 hx
      exact abs_nonneg _
    obtain ⟨h1, h2, h3⟩ := addActual_whole obj t hobj (hl t (by simp)) (by linarith)
    obtain ⟨h4, h5, h6⟩ := ih (addActual obj t) h2 (fun u hu => hl u (by simp [hu]))
      (by linarith)
    simp only [List.foldl_cons]
    rw [h1]
    exact ⟨h4, h5, by linarith⟩

/-! ## The own entries of `getCategoryBudgetData` on Numbers -/

theorem Js_withActual_nil (k : String) (e : Js.Spending) : Js.withActual k [] e = e := by
  simp [Js.withActual]

theorem Js_objGet_foldl_addActualOwn (txs : List Transaction) (k : String) :
    ∀ own : List (String × Js.Spending),
      objGet (txs.foldl Js.addActualOwn own) k = (objGet own k).map (Js.withActual k txs) := by
  induction txs with
  | nil =>
    intro own
    simp only [List.foldl_nil]
    cases objGet own k <;> simp [Js_withActual_nil]
  | cons t ts ih =>
    intro own
    simp only [List.foldl_cons]
    rw [ih]
    by_cases hk : t.category = k
    · cases hget : objGet own k with
      | none =>
        have : Js.addActualOwn own t = own := by
          unfold Js.addActualOwn
          rw [hk, hget]
        rw [this, hget]
        rfl
      | some e =>
        have : Js.addActualOwn own t = objSet own k
            { e with
              actual := e.actual.plus (JsQuotient.num t.amount)
              transactions := e.transactions ++ [t] } := by
          unfold Js.addActualOwn
          rw [hk, hget]
        rw [this, objGet_objSet_same]
        simp [Js.withActual, hk]
    · have : objGet (Js.addActualOwn own t) k = objGet own k := by
        unfold Js.addActualOwn
        cases hget : objGet own t.category with
        | none => rfl
        | some e => exact objGet_objSet_ne _ _ _ _ hk
      rw [this]
      cases hget : objGet own k with
      | none => rfl
      | some e => simp [Js.withActual, hk]

/-- The own entry of `getCategoryBudgetData` under the name of a category, when the names are
distinct and no read reaches the prototype. -/
theorem Js_entry_of_category (s : State)
    (hnd : (s.categories.map fun c => c.name).Nodup)
    (hnames : ∀ c ∈ s.categories, c.name ≠ "__proto__")
    (hcats : ∀ t ∈ getTransactionsForFinancialYear s s.currentFinancialYear,
      t.category ∈ objectPrototypeKeys → t.category ∈ s.categories.map fun c => c.name)
    (c : Category) (hc : c ∈ s.categories) :
    ∃ cbd : Js.CategoryBudgetData, Js.getCategoryBudgetData s = some cbd ∧
      objGet cbd.own c.name = some (Js.finishEntry (Js.withActual c.name
        (getTransactionsForFinancialYear s s.currentFinancialYear)
          (initialSpending c).toNumbers)) := by
  refine ⟨_, Js_getCategoryBudgetData_own s hnames hcats, ?_⟩
  simp only []
  rw [objGet_map, Js_objGet_foldl_addActualOwn, objGet_map,
    objGet_foldl_initCategory_of_mem _ hnd c hc]
  rfl

/-! ## The category summary of the reports sheet on Numbers -/

theorem Js_objGet_categoryStep_same (cbd : Js.CategoryBudgetData)
    (data : List (String × Js.CategoryItem)) (t : Transaction)
    (hp : t.category ∉ objectPrototypeKeys) :
    objGet (Js.categoryStep cbd data t) t.category
      = Js.categoryFoldAt cbd (objGet data t.category) t := by
  unfold Js.categoryStep Js.categoryFoldAt
  cases objGet data t.category with
  | none => simp only [if_neg hp]; rw [objGet_objSet_same]
  | some item => simp only []; rw [objGet_objSet_same]

theorem Js_objGet_categoryStep_ne (cbd : Js.CategoryBudgetData)
    (data : List (String × Js.CategoryItem)) (t : Transaction) (k : String)
    (hk : t.category ≠ k) :
    objGet (Js.categoryStep cbd data t) k = objGet data k := by
  unfold Js.categoryStep
  cases objGet data t.category with
  | none =>
    simp only []
    split
    · rfl
    · exact objGet_objSet_ne _ _ _ _ hk
  | some item => exact objGet_objSet_ne _ _ _ _ hk

theorem Js_objGet_foldl_categoryStep (cbd : Js.CategoryBudgetData)
    (txs : List Transaction) (k : String) (hp : k ∉ objectPrototypeKeys) :
    ∀ data : List (String × Js.CategoryItem),
      objGet (txs.foldl (Js.categoryStep cbd) data) k
        = (txs.filter fun t => t.category = k).foldl (Js.categoryFoldAt cbd)
            (objGet data k) := by
  induction txs with
  | nil => intro data; rfl
  | cons t ts ih =>
    intro data
    simp only [List.foldl_cons]
    rw [ih]
    by_cases hk : t.category = k
    · have hstep : objGet (Js.categoryStep cbd data t) k
          = Js.categoryFoldAt cbd (objGet data k) t := by
        rw [← hk]
        exact Js_objGet_categoryStep_same cbd data t (by rw [hk]; exact hp)
      rw [hstep]
      simp [List.filter_cons, hk]
    · rw [Js_objGet_categoryStep_ne cbd data t k hk]
      simp [List.filter_cons, hk]

theorem Js_foldl_categoryFoldAt_some (cbd : Js.CategoryBudgetData) (l : List Transaction) :
    ∀ item : Js.CategoryItem,
      l.foldl (Js.categoryFoldAt cbd) (some item) = some (l.foldl Js.categoryAdd item) := by
  induction l with
  | nil => intro item; rfl
  | cons t ts ih =>
    intro item
    simp only [List.foldl_cons]
    exact ih (Js.categoryAdd item t)

theorem Js_foldl_categoryAdd_fixed (l : List Transaction) :
    ∀ item : Js.CategoryItem,
      (l.foldl Js.categoryAdd item).category = item.category ∧
      (l.foldl Js.categoryAdd item).type = item.type ∧
      (l.foldl Js.categoryAdd item).budget = item.budget := by
  induction l with
  | nil => intro item; exact ⟨rfl, rfl, rfl⟩
  | cons t ts ih =>
    intro item
    simp only [List.foldl_cons]
    obtain ⟨h1, h2, h3⟩ := ih (Js.categoryAdd item t)
    rw [h1, h2, h3]
    unfold Js.categoryAdd
    split <;> exact ⟨rfl, rfl, rfl⟩

theorem Js_foldl_categoryAdd_expenses (l : List Transaction)
    (h : ∀ t ∈ l, t.type ≠ "Income") :
    ∀ item : Js.CategoryItem,
      (l.foldl Js.categoryAdd item).expenses
        = l.foldl (fun a t => a.plus (JsQuotient.num t.amount)) item.expenses := by
  induction l with
  | nil => intro item; rfl
  | cons t ts ih =>
    intro item
    have ht : t.type ≠ "Income" := h t (by simp)
    simp only [List.foldl_cons]
    rw [ih (fun x hx => h x (by simp [hx]))]
    simp [Js.categoryAdd, ht]

theorem Js_foldl_categoryAdd_income (l : List Transaction)
    (h : ∀ t ∈ l, t.type = "Income") :
    ∀ item : Js.CategoryItem,
      (l.foldl Js.categoryAdd item).income
        = l.foldl (fun a t => a.plus (JsQuotient.num t.amount)) item.income := by
  induction l with
  | nil => intro item; rfl
  | cons t ts ih =>
    intro item
    have ht : t.type = "Income" := h t (by simp)
    simp only [List.foldl_cons]
    rw [ih (fun x hx => h x (by simp [hx]))]
    simp [Js.categoryAdd, ht]

theorem Js_categoryAdd_category (item : Js.CategoryItem) (t : Transaction) :
    (Js.categoryAdd item t).category = item.category := by
  unfold Js.categoryAdd
  split <;> rfl

theorem Js_mem_categoryStep (cbd : Js.CategoryBudgetData)
    (data : List (String × Js.CategoryItem)) (t : Transaction)
    (kv : String × Js.CategoryItem) (h : kv ∈ Js.categoryStep cbd data t) :
    kv ∈ data ∨
      kv = (t.category,
        Js.categoryAdd ((objGet data t.category).getD (Js.newCategoryItem cbd t)) t) := by
  unfold Js.categoryStep at h
  cases hget : objGet data t.category with
  | none =>
    rw [hget] at h
    simp only [] at h
    split at h
    · left; exact h
    · exact mem_objSet _ _ _ _ h
  | some item =>
    rw [hget] at h
    exact mem_objSet _ _ _ _ h

theorem Js_category_eq_key_foldl_categoryStep (cbd : Js.CategoryBudgetData)
    (txs : List Transaction) :
    ∀ data : List (String × Js.CategoryItem), (∀ kv ∈ data, kv.2.category = kv.1) →
      ∀ kv ∈ txs.foldl (Js.categoryStep cbd) data, kv.2.category = kv.1 := by
  induction txs with
  | nil => intro data h; exact h
  | cons t ts ih =>
    intro data h
    simp only [List.foldl_cons]
    apply ih
    intro kv hkv
    rcases Js_mem_categoryStep _ _ _ _ hkv with h' | h'
    · exact h kv h'
    · rw [h']
      show (Js.categoryAdd _ t).category = t.category
      rw [Js_categoryAdd_category]
      cases hget : objGet data t.category with
      | none => rfl
      | some item => exact h _ (mem_of_objGet _ _ _ hget)

theorem Js_nodup_objKeys_foldl_categoryStep (cbd : Js.CategoryBudgetData)
    (txs : List Transaction) :
    ∀ data : List (String × Js.CategoryItem), (objKeys data).Nodup →
      (objKeys (txs.foldl (Js.categoryStep cbd) data)).Nodup := by
  induction txs with
  | nil => intro data h; exact h
  | cons t ts ih =>
    intro data h
    simp only [List.foldl_cons]
    apply ih
    unfold Js.categoryStep
    cases objGet data t.category with
    | none =>
      simp only []
      split
      · exact h
      · exact nodup_objKeys_objSet data _ _ h
    | some item => exact nodup_objKeys_objSet data _ _ h

/-! ## Monthly sums and totals on Numbers -/

/-- C26 as stated fails.  The three Income transactions of the store have the Numbers of
`0.1`, `0.2` and `10.1` as amounts.  The income of August 2024 is the Number of `0.1 + 10.1`
and that of September 2024 the Number of `0.2`; `getTotalIncome` is the Number of
`(0.1 + 0.2) + 10.1`, that is `10.4`.  The two months add up to another value, exactly and as
Numbers (`10.399999999999999`). -/
theorem monthly_incomes_regrouped_counterexample :
    (∀ t ∈ tenthsStore.transactions, t.type = "Income" ∨ t.type = "Expense") ∧
    (tenthsStore.transactions.map fun t => JsQuotient.num t.amount)
      = [toDouble (1 / 10), toDouble (2 / 10), toDouble (101 / 10)] ∧
    Js.getMonthlyData tenthsStore "2024-2025"
      = [("2024-08", { income := JsQuotient.num (2871044762448691 / 281474976710656)
                       expenses := JsQuotient.num 0 }),
         ("2024-09", { income := JsQuotient.num (3602879701896397 / 18014398509481984)
                       expenses := JsQuotient.num 0 })] ∧
    Js.getTotalIncome tenthsStore "2024-2025"
      = JsQuotient.num (5854679515581645 / 562949953421312) ∧
    (2871044762448691 / 281474976710656 + 3602879701896397 / 18014398509481984 : ℚ)
      ≠ 5854679515581645 / 562949953421312 ∧
    (JsQuotient.num (2871044762448691 / 281474976710656)).plus
        (JsQuotient.num (3602879701896397 / 18014398509481984))
      = JsQuotient.num (1463669878895411 / 140737488355328) ∧
    (1463669878895411 / 140737488355328 : ℚ) ≠ 5854679515581645 / 562949953421312 := by
  refine ⟨by decide, by decide!, by decide!, by decide!, by norm_num, by decide!, by norm_num⟩

/-- C26, amended: when every transaction has type Income or Expense and the amounts are whole
numbers whose magnitudes add up to at most `2 ^ 53 - 1`, then for every argument the income
and the expenses of every month of `getMonthlyData` are finite Numbers, the incomes add up to
`getTotalIncome` and the expenses to `getTotalExpenses`, both as exact sums and as sums of
Numbers taken month by month. -/
theorem monthly_sums_equal_totals_on_whole_amounts (s : State) (fy : String)
    (htypes : ∀ t ∈ s.transactions, t.type = "Income" ∨ t.type = "Expense")
    (hwhole : wholeAmounts s.transactions) :
    ∃ months : List (String × ℚ × ℚ),
      Js.getMonthlyData s fy
        = months.map (fun m =>
            (m.1, ({ income := JsQuotient.num m.2.1, expenses := JsQuotient.num m.2.2 }
              : Js.MonthTotals))) ∧
      Js.getTotalIncome s fy = JsQuotient.num (months.map fun m => m.2.1).sum ∧
      Js.getTotalExpenses s fy = JsQuotient.num (months.map fun m => m.2.2).sum ∧
      (months.map fun m => m.2.1).foldl (fun sum x => sum.plus (JsQuotient.num x))
          (JsQuotient.num 0) = Js.getTotalIncome s fy ∧
      (months.map fun m => m.2.2).foldl (fun sum x => sum.plus (JsQuotient.num x))
          (JsQuotient.num 0) = Js.getTotalExpenses s fy := by
  obtain ⟨hmd, hden, hmag⟩ := getMonthlyData_whole s fy hwhole
  obtain ⟨hsumI, hsumE⟩ := monthlyData_sums_to_totals s fy htypes
  have hI := getTotalIncome_whole s fy (wholeAmounts_selected s fy hwhole)
  have hE := getTotalExpenses_whole s fy (wholeAmounts_selected s fy hwhole)
  have hmI : ((getMonthlyData s fy).map fun kv => (kv.1, kv.2.income, kv.2.expenses)).map
      (fun m => m.2.1) = (getMonthlyData s fy).map fun kv => kv.2.income := by
    simp [List.map_map, Function.comp_def]
  have hmE : ((getMonthlyData s fy).map fun kv => (kv.1, kv.2.income, kv.2.expenses)).map
      (fun m => m.2.2) = (getMonthlyData s fy).map fun kv => kv.2.expenses := by
    simp [List.map_map, Function.comp_def]
  have hboundI : ((getMonthlyData s fy).map fun kv => |kv.2.income|).sum
      ≤ monthsMagnitude (getMonthlyData s fy) := by
    unfold monthsMagnitude
    apply List.sum_le_sum
    intro kv _
    have := abs_nonneg kv.2.expenses
    linarith
  have hboundE : ((getMonthlyData s fy).map fun kv => |kv.2.expenses|).sum
      ≤ monthsMagnitude (getMonthlyData s fy) := by
    unfold monthsMagnitude
    apply List.sum_le_sum
    intro kv _
    have := abs_nonneg kv.2.income
    linarith
  refine ⟨(getMonthlyData s fy).map fun kv => (kv.1, kv.2.income, kv.2.expenses),
    ?_, ?_, ?_, ?_, ?_⟩
  · rw [hmd, List.map_map]
    rfl
  · rw [hmI, hsumI, hI]
  · rw [hmE, hsumE, hE]
  · rw [hmI, foldl_plus_rat_whole _ 0 rfl, zero_add, hsumI, hI]
    · intro x hx
      obtain ⟨kv, hkv, rfl⟩ := List.mem_map.1 hx
      exact (hden kv hkv).1
    · rw [List.map_map]
      simp only [abs_zero, zero_add]
      exact le_trans hboundI hmag
  · rw [hmE, foldl_plus_rat_whole _ 0 rfl, zero_add, hsumE, hE]
    · intro x hx
      obtain ⟨kv, hkv, rfl⟩ := List.mem_map.1 hx
      exact (hden kv hkv).2
    · rw [List.map_map]
      simp only [abs_zero, zero_add]
      exact le_trans hboundE hmag

/-- C26, amended, on the scenario store for `2024-2025`, whose amounts are 4500 and 700. -/
theorem monthly_sums_equal_totals_on_whole_amounts_witness :
    (∀ t ∈ scenarioStore.transactions, t.type = "Income" ∨ t.type = "Expense") ∧
    wholeAmounts scenarioStore.transactions ∧
    Js.getTotalIncome scenarioStore "2024-2025" = JsQuotient.num 4500 ∧
    Js.getTotalExpenses scenarioStore "2024-2025" = JsQuotient.num 700 ∧
    ∃ months : List (String × ℚ × ℚ),
      Js.getMonthlyData scenarioStore "2024-2025"
        = months.map (fun m =>
            (m.1, ({ income := JsQuotient.num m.2.1, expenses := JsQuotient.num m.2.2 }
              : Js.MonthTotals))) ∧
      Js.getTotalIncome scenarioStore "2024-2025"
        = JsQuotient.num (months.map fun m => m.2.1).sum ∧
      Js.getTotalExpenses scenarioStore "2024-2025"
        = JsQuotient.num (months.map fun m => m.2.2).sum := by
  have htypes : ∀ t ∈ scenarioStore.transactions, t.type = "Income" ∨ t.type = "Expense" := by
    decide
  have hwhole : wholeAmounts scenarioStore.transactions := by decide!
  obtain ⟨months, h1, h2, h3, _, _⟩ :=
    monthly_sums_equal_totals_on_whole_amounts scenarioStore "2024-2025" htypes hwhole
  exact ⟨htypes, hwhole, by decide!, by decide!, months, h1, h2, h3⟩

/-! ## The sum of the actual amounts on Numbers -/

/-- C27 as stated fails.  In the store the entry of Interest has as `actual` the Number of
`0.1 + 10.1` and the entry of Refunds the Number of `0.2`.  Every transaction of the financial
year has a category of the store and the type Income; their amounts add up to another value
than the two `actual` values, and `getTotalIncome + getTotalExpenses` is `10.4 + 0`, which the
two `actual` values do not add up to, exactly or as Numbers. -/
theorem actuals_regrouped_counterexample :
    (Js.getCategoryBudgetData tenthsStore).map
        (fun cbd => cbd.own.map fun kv => (kv.1, kv.2.actual))
      = some [("Interest", JsQuotient.num (2871044762448691 / 281474976710656)),
              ("Refunds", JsQuotient.num (3602879701896397 / 18014398509481984))] ∧
    (∀ t ∈ getTransactionsForFinancialYear tenthsStore tenthsStore.currentFinancialYear,
      (t.category ∈ tenthsStore.categories.map fun c => c.name) ∧ t.type = "Income") ∧
    (((getTransactionsForFinancialYear tenthsStore tenthsStore.currentFinancialYear).filter
        fun t => t.category ∈ tenthsStore.categories.map fun c => c.name).map
          fun t => t.amount).sum = 374699488997225255 / 36028797018963968 ∧
    (2871044762448691 / 281474976710656 + 3602879701896397 / 18014398509481984 : ℚ)
      ≠ 374699488997225255 / 36028797018963968 ∧
    Js.getTotalIncome tenthsStore tenthsStore.currentFinancialYear
      = JsQuotient.num (5854679515581645 / 562949953421312) ∧
    Js.getTotalExpenses tenthsStore tenthsStore.currentFinancialYear = JsQuotient.num 0 ∧
    (2871044762448691 / 281474976710656 + 3602879701896397 / 18014398509481984 : ℚ)
      ≠ 5854679515581645 / 562949953421312 + 0 ∧
    (JsQuotient.num (2871044762448691 / 281474976710656)).plus
        (JsQuotient.num (3602879701896397 / 18014398509481984))
      ≠ (JsQuotient.num (5854679515581645 / 562949953421312)).plus (JsQuotient.num 0) := by
  refine ⟨by decide!, by decide, by decide!, by norm_num, by decide!, by decide!, by norm_num,
    by decide!⟩

/-- C27, amended: when no category is named `__proto__`, every transaction of the current
financial year whose category is the name of a member of `Object.prototype` has a category of
that name in the store, and the amounts of that year are whole numbers whose magnitudes add up
to at most `2 ^ 53 - 1`, then `getCategoryBudgetData` returns, the `actual` values of its
entries are finite Numbers, and they add up, exactly and as Numbers, to the sum of the amounts
of the transactions of the year whose category is a name of the category store; when moreover
the current financial year is a label and each of its transactions has such a category and the
type Income or Expense, that sum is `getTotalIncome` plus `getTotalExpenses`. -/
theorem actuals_add_up_on_whole_amounts (s : State)
    (hnames : ∀ c ∈ s.categories, c.name ≠ "__proto__")
    (hcats : ∀ t ∈ getTransactionsForFinancialYear s s.currentFinancialYear,
      t.category ∈ objectPrototypeKeys → t.category ∈ s.categories.map fun c => c.name)
    (hwhole : wholeAmounts (getTransactionsForFinancialYear s s.currentFinancialYear)) :
    ∃ (cbd : Js.CategoryBudgetData) (actuals : List ℚ),
      Js.getCategoryBudgetData s = some cbd ∧
      (cbd.own.map fun kv => kv.2.actual) = actuals.map JsQuotient.num ∧
      actuals.sum
        = (((getTransactionsForFinancialYear s s.currentFinancialYear).filter fun t =>
            t.category ∈ s.categories.map fun c => c.name).map fun t => t.amount).sum ∧
      actuals.foldl (fun sum x => sum.plus (JsQuotient.num x)) (JsQuotient.num 0)
        = JsQuotient.num actuals.sum ∧
      (s.currentFinancialYear ≠ "" →
        (∀ t ∈ getTransactionsForFinancialYear s s.currentFinancialYear,
          (t.category ∈ s.categories.map fun c => c.name) ∧
            (t.type = "Income" ∨ t.type = "Expense")) →
        ∃ income expenses : ℚ,
          Js.getTotalIncome s s.currentFinancialYear = JsQuotient.num income ∧
          Js.getTotalExpenses s s.currentFinancialYear = JsQuotient.num expenses ∧
          actuals.sum = income + expenses) := by
  have hzero : ∀ kv ∈ s.categories.foldl initCategory [], kv.2.actual = 0 :=
    actual_zero_foldl_initCategory s.categories [] (by simp)
  have hmag0 : spendingMagnitude (s.categories.foldl initCategory []) = 0 := by
    unfold spendingMagnitude
    apply List.sum_eq_zero
    intro x hx
    obtain ⟨kv, hkv, rfl⟩ := List.mem_map.1 hx
    rw [hzero kv hkv, abs_zero]
  obtain ⟨hfold, hden, hmag⟩ := foldl_addActual_whole
    (getTransactionsForFinancialYear s s.currentFinancialYear)
    (s.categories.foldl initCategory [])
    (fun kv hkv => by rw [hzero kv hkv]; rfl) hwhole.1 (by rw [hmag0, zero_add]; exact hwhole.2)
  rw [hmag0, zero_add] at hmag
  have hact : ((getCategoryBudgetData s).map fun kv => kv.2.actual)
      = ((getTransactionsForFinancialYear s s.currentFinancialYear).foldl addActual
          (s.categories.foldl initCategory [])).map fun kv => kv.2.actual := by
    unfold getCategoryBudgetData
    simp only [List.map_map]
    rfl
  obtain ⟨hsum, htotal⟩ := sum_actual_getCategoryBudgetData s
  refine ⟨_, (getCategoryBudgetData s).map fun kv => kv.2.actual,
    Js_getCategoryBudgetData_own s hnames hcats, ?_, hsum, ?_, ?_⟩
  · rw [hfold, hact]
    simp only [List.map_map]
    rfl
  · rw [foldl_plus_rat_whole _ 0 rfl, zero_add]
    · intro x hx
      rw [hact] at hx
      obtain ⟨kv, hkv, rfl⟩ := List.mem_map.1 hx
      exact hden kv hkv
    · rw [hact, List.map_map]
      simp only [abs_zero, zero_add]
      exact le_trans hmag hwhole.2
  · intro hcur hall
    have hd := data_ne_nil_of_ne_empty _ hcur
    have hsel : wholeAmounts (if s.currentFinancialYear.data = [] then s.transactions
        else getTransactionsForFinancialYear s s.currentFinancialYear) := by
      rw [if_neg hd]
      exact hwhole
    exact ⟨_, _, getTotalIncome_whole s _ hsel, getTotalExpenses_whole s _ hsel,
      htotal hcur hall⟩

/-- C27, amended, on the scenario store: the actual amounts 4500 and 700 add up to the total
income plus the total expenses. -/
theorem actuals_add_up_on_whole_amounts_witness :
    (∀ c ∈ scenarioStore.categories, c.name ≠ "__proto__") ∧
    (∀ t ∈ getTransactionsForFinancialYear scenarioStore scenarioStore.currentFinancialYear,
      t.category ∈ objectPrototypeKeys →
        t.category ∈ scenarioStore.categories.map fun c => c.name) ∧
    wholeAmounts
      (getTransactionsForFinancialYear scenarioStore scenarioStore.currentFinancialYear) ∧
    (Js.getCategoryBudgetData scenarioStore).map
        (fun cbd => cbd.own.map fun kv => (kv.1, kv.2.actual))
      = some [("Salary", JsQuotient.num 4500), ("Food", JsQuotient.num 700)] ∧
    ∃ (cbd : Js.CategoryBudgetData) (actuals : List ℚ),
      Js.getCategoryBudgetData scenarioStore = some cbd ∧
      (cbd.own.map fun kv => kv.2.actual) = actuals.map JsQuotient.num ∧
      ∃ income expenses : ℚ,
        Js.getTotalIncome scenarioStore scenarioStore.currentFinancialYear
          = JsQuotient.num income ∧
        Js.getTotalExpenses scenarioStore scenarioStore.currentFinancialYear
          = JsQuotient.num expenses ∧
        actuals.sum = income + expenses := by
  have hnames : ∀ c ∈ scenarioStore.categories, c.name ≠ "__proto__" := by decide
  have hcats : ∀ t ∈ getTransactionsForFinancialYear scenarioStore
      scenarioStore.currentFinancialYear, t.category ∈ objectPrototypeKeys →
        t.category ∈ scenarioStore.categories.map fun c => c.name := by decide
  have hwhole : wholeAmounts
      (getTransactionsForFinancialYear scenarioStore scenarioStore.currentFinancialYear) := by
    decide!
  obtain ⟨cbd, actuals, h1, h2, _, _, h5⟩ :=
    actuals_add_up_on_whole_amounts scenarioStore hnames hcats hwhole
  exact ⟨hnames, hcats, hwhole, by decide!, cbd, actuals, h1, h2,
    h5 (by decide) (by decide)⟩

/-! ## Categories that throw -/

/-- C6 at a failing input: the category names of the store are distinct and Food is one of
them, the two transactions are of the current financial year, and `getCategoryBudgetData`
throws, so that it has no entry for Food; the second transaction has the category
`constructor`, the name of a member of `Object.prototype`.  Without that transaction the
function returns, with an entry for Food. -/
theorem getCategoryBudgetData_throws_for_inherited_name :
    (constructorStore.categories.map fun c => c.name).Nodup ∧
    (constructorStore.categories.map fun c => c.name) = ["Food"] ∧
    (getTransactionsForFinancialYear constructorStore constructorStore.currentFinancialYear).map
        (fun t => t.category) = ["Food", "constructor"] ∧
    Js.getCategoryBudgetData constructorStore = none ∧
    (Js.getCategoryBudgetData foodOnlyStore).map
        (fun cbd => cbd.own.map fun kv => (kv.1, kv.2.actual, kv.2.remaining))
      = some [("Food", JsQuotient.num 700, JsQuotient.num (-100))] := by
  refine ⟨by decide, by decide, by decide, by decide, by decide!⟩

/-- C8 at two failing inputs.  The transaction of 20 August 2024 with the category
`constructor` matches no category of the store and is in the current financial year
2024-2025; with it appended, `getCategoryBudgetData` throws, where it returned before.  And
the only transaction of the other store, entered for 30 June 2024 and read at 10:00, matches
no category and has the label 2023-2024 of the current financial year, yet
`getTransactionsForFinancialYear` does not return it. -/
theorem orphan_named_constructor_throws :
    (∀ c ∈ foodOnlyStore.categories, c.name ≠ constructorOrphan.category) ∧
    transactionFinancialYear constructorOrphan.date = foodOnlyStore.currentFinancialYear ∧
    constructorOrphan ∈ getTransactionsForFinancialYear
      (appendTransaction foodOnlyStore constructorOrphan) foodOnlyStore.currentFinancialYear ∧
    Js.getCategoryBudgetData foodOnlyStore ≠ none ∧
    Js.getCategoryBudgetData (appendTransaction foodOnlyStore constructorOrphan) = none ∧
    june30Store.categories = [] ∧
    june30Store.transactions.map (fun t => transactionFinancialYear t.date)
      = [june30Store.currentFinancialYear] ∧
    getTransactionsForFinancialYear june30Store june30Store.currentFinancialYear = [] := by
  refine ⟨by decide, by decide, by decide, by decide, by decide, by decide, by decide,
    by decide⟩

/-! ## Report rows and budget entries on Numbers -/

/-- The item that the first loop of `categoryData` leaves under the name of a category, on
Numbers, when the filters are at `all`, the name is the name of no member of
`Object.prototype` and the category has transactions in the current financial year. -/
theorem Js_categoryData_item (s : State) (cbd : Js.CategoryBudgetData) (k : String)
    (hk : k ∉ objectPrototypeKeys) (t0 : Transaction) (rest : List Transaction)
    (hL : ((getTransactionsForFinancialYear s s.currentFinancialYear).filter
      fun t => t.category = k) = t0 :: rest) :
    objGet ((getTransactionsForFinancialYear s s.currentFinancialYear).foldl
        (Js.categoryStep cbd) []) k
      = some ((t0 :: rest).foldl Js.categoryAdd (Js.newCategoryItem cbd t0)) := by
  rw [Js_objGet_foldl_categoryStep cbd _ k hk, hL]
  simp only [List.foldl_cons, objGet, Js.categoryFoldAt]
  rw [Js_foldl_categoryFoldAt_some]

/-- C29 as stated fails: in a store with an Income and an Expense category both named Food
and one Income transaction of 50 under Food, the Income category meets the conditions, its
report row has variance -50, and the entry under its name has remaining 50.  It fails as well
for a category of type Transfer with budget 100 and one transaction of 50 of that type: the
row has variance -100 and percentage 0, the entry has remaining -50 and percentage 50. -/
theorem report_row_differs_from_entry_counterexample :
    ((∃ c ∈ twoFoodStore.categories, c.id = 7 ∧ c.name = "Food" ∧ c.type = "Income" ∧
        (∃ t ∈ getTransactionsForFinancialYear twoFoodStore twoFoodStore.currentFinancialYear,
          t.category = c.name) ∧
        ∀ t ∈ getTransactionsForFinancialYear twoFoodStore twoFoodStore.currentFinancialYear,
          t.category = c.name → t.type = c.type) ∧
      (Js.categoryData twoFoodStore "all" "all" "all").map
          (fun rows => rows.map fun r => (r.category, r.budget, r.variance, r.percentage))
        = some [("Food", 100, JsQuotient.num (-50), JsQuotient.num 50)] ∧
      (Js.getCategoryBudgetData twoFoodStore).map
          (fun cbd => cbd.own.map fun kv =>
            (kv.1, kv.2.budget, kv.2.remaining, kv.2.percentage))
        = some [("Food", 100, JsQuotient.num 50, JsQuotient.num 50)] ∧
      JsQuotient.num (-50) ≠ JsQuotient.num 50) ∧
    ((∃ c ∈ transferCategoryStore.categories, c.name = "Savings" ∧ c.type = "Transfer" ∧
        (∃ t ∈ getTransactionsForFinancialYear transferCategoryStore
            transferCategoryStore.currentFinancialYear, t.category = c.name) ∧
        ∀ t ∈ getTransactionsForFinancialYear transferCategoryStore
            transferCategoryStore.currentFinancialYear,
          t.category = c.name → t.type = c.type) ∧
      (Js.categoryData transferCategoryStore "all" "all" "all").map
          (fun rows => rows.map fun r => (r.category, r.budget, r.variance, r.percentage))
        = some [("Savings", 100, JsQuotient.num (-100), JsQuotient.num 0)] ∧
      (Js.getCategoryBudgetData transferCategoryStore).map
          (fun cbd => cbd.own.map fun kv =>
            (kv.1, kv.2.budget, kv.2.remaining, kv.2.percentage))
        = some [("Savings", 100, JsQuotient.num (-50), JsQuotient.num 50)] ∧
      JsQuotient.num (-100) ≠ JsQuotient.num (-50) ∧
      JsQuotient.num 0 ≠ JsQuotient.num 50) := by
  refine ⟨⟨by decide, by decide!, by decide!, by decide!⟩,
    ⟨by decide, by decide!, by decide!, by decide!, by decide!⟩⟩

/-- C29, amended: let the category names be pairwise distinct and none of them `__proto__`,
and let every transaction of the current financial year whose category is the name of a
member of `Object.prototype` have a category of that name in the store.  Then
`getCategoryBudgetData` and, with the three filters at `all`, `categoryData` return; and a
category of type Income or Expense whose name is the name of no member of `Object.prototype`
and that has a transaction in the current financial year, all of them of the category's type,
has a row in `categoryData`, and the budget, variance and percentage of its row are the
budget, remaining and percentage of its entry in `getCategoryBudgetData`. -/
theorem report_row_matches_budget_entry (s : State) (c : Category)
    (hnd : (s.categories.map fun c => c.name).Nodup) (hc : c ∈ s.categories)
    (htype : c.type = "Income" ∨ c.type = "Expense")
    (hex : ∃ t ∈ getTransactionsForFinancialYear s s.currentFinancialYear,
      t.category = c.name)
    (hsame : ∀ t ∈ getTransactionsForFinancialYear s s.currentFinancialYear,
      t.category = c.name → t.type = c.type)
    (hname : c.name ∉ objectPrototypeKeys)
    (hnames : ∀ c ∈ s.categories, c.name ≠ "__proto__")
    (hcats : ∀ t ∈ getTransactionsForFinancialYear s s.currentFinancialYear,
      t.category ∈ objectPrototypeKeys → t.category ∈ s.categories.map fun c => c.name) :
    ∃ (cbd : Js.CategoryBudgetData) (rows : List Js.CategoryRow) (e : Js.BudgetEntry),
      Js.getCategoryBudgetData s = some cbd ∧
      Js.categoryData s "all" "all" "all" = some rows ∧
      objGet cbd.own c.name = some e ∧
      (∃ row ∈ rows, row.category = c.name) ∧
      ∀ row ∈ rows, row.category = c.name →
        row.budget = e.budget ∧ row.variance = e.remaining ∧
          row.percentage = e.percentage := by
  obtain ⟨t, ht, htc⟩ := hex
  have hne : ((getTransactionsForFinancialYear s s.currentFinancialYear).filter
      fun t => t.category = c.name) ≠ [] := by
    intro hnil
    have hmem : t ∈ (getTransactionsForFinancialYear s s.currentFinancialYear).filter
        fun t => t.category = c.name := List.mem_filter.2 ⟨ht, by simpa using htc⟩
    rw [hnil] at hmem
    exact List.not_mem_nil _ hmem
  obtain ⟨t0, rest, hL⟩ := List.exists_cons_of_ne_nil hne
  obtain ⟨cbd, hcbd, he⟩ := Js_entry_of_category s hnd hnames hcats c hc
  have hitem := Js_categoryData_item s cbd c.name hname t0 rest hL
  have ht0 : t0.category = c.name := by
    have hmem : t0 ∈ (getTransactionsForFinancialYear s s.currentFinancialYear).filter
        fun t => t.category = c.name := by
      rw [hL]
      exact List.mem_cons_self _ _
    simpa using (List.mem_filter.1 hmem).2
  have hbudget : (Js.newCategoryItem cbd t0).budget = c.budget := by
    simp [Js.newCategoryItem, Js.budgetInfoBudget, ht0, he, Js.finishEntry, Js.withActual,
      initialSpending, Spending.toNumbers, orZero_eq]
  have hcat : (Js.newCategoryItem cbd t0).category = c.name := ht0
  have hLtype : ∀ x ∈ t0 :: rest, x.type = c.type := by
    intro x hx
    rw [← hL] at hx
    obtain ⟨hx1, hx2⟩ := List.mem_filter.1 hx
    exact hsame x hx1 (by simpa using hx2)
  obtain ⟨hfc, hft, hfb⟩ := Js_foldl_categoryAdd_fixed (t0 :: rest) (Js.newCategoryItem cbd t0)
  have hdata : Js.categoryData s "all" "all" "all" = some
      ((((getTransactionsForFinancialYear s s.currentFinancialYear).foldl
        (Js.categoryStep cbd) []).map fun kv => Js.finishCategoryItem kv.2).insertionSort
          Js.largestTotalFirst) := by
    unfold Js.categoryData
    rw [hcbd]
    simp only [reportFilteredTransactions_all]
  have hrows : ∀ row : Js.CategoryRow,
      row ∈ (((getTransactionsForFinancialYear s s.currentFinancialYear).foldl
        (Js.categoryStep cbd) []).map fun kv => Js.finishCategoryItem kv.2).insertionSort
          Js.largestTotalFirst ↔
      ∃ kv ∈ (getTransactionsForFinancialYear s s.currentFinancialYear).foldl
        (Js.categoryStep cbd) [], row = Js.finishCategoryItem kv.2 := by
    intro row
    simp only [List.mem_insertionSort, List.mem_map]
    constructor
    · rintro ⟨kv, hkv, h⟩; exact ⟨kv, hkv, h.symm⟩
    · rintro ⟨kv, hkv, h⟩; exact ⟨kv, hkv, h.symm⟩
  refine ⟨cbd, _, _, hcbd, hdata, he, ?_, ?_⟩
  · refine ⟨Js.finishCategoryItem _, (hrows _).2 ⟨_, mem_of_objGet _ _ _ hitem, rfl⟩, ?_⟩
    show ((t0 :: rest).foldl Js.categoryAdd _).category = c.name
    rw [hfc, hcat]
  · intro row hrow hrc
    obtain ⟨kv, hkv, hrowEq⟩ := (hrows row).1 hrow
    have hkey : kv.2.category = kv.1 :=
      Js_category_eq_key_foldl_categoryStep _ _ [] (by simp) kv hkv
    have hk1 : kv.1 = c.name := by
      rw [← hkey]
      rw [hrowEq] at hrc
      exact hrc
    have hget : objGet ((getTransactionsForFinancialYear s s.currentFinancialYear).foldl
        (Js.categoryStep cbd) []) kv.1 = some kv.2 :=
      objGet_of_mem _ (Js_nodup_objKeys_foldl_categoryStep _ _ [] (by simp [objKeys]))
        kv.1 kv.2 hkv
    rw [hk1, hitem] at hget
    have hkv2 : kv.2 = (t0 :: rest).foldl Js.categoryAdd (Js.newCategoryItem cbd t0) :=
      (Option.some.inj hget).symm
    have hactual : (Js.withActual c.name
        (getTransactionsForFinancialYear s s.currentFinancialYear)
          (initialSpending c).toNumbers).actual
        = (t0 :: rest).foldl (fun a x => a.plus (JsQuotient.num x.amount))
            (JsQuotient.num 0) := by
      simp only [Js.withActual, hL]
      rfl
    have hnewtype : (Js.newCategoryItem cbd t0).type = c.type :=
      hLtype t0 (List.mem_cons_self _ _)
    rw [hrowEq, hkv2]
    rcases htype with hty | hty
    · have hinc := Js_foldl_categoryAdd_income (t0 :: rest)
        (fun x hx => (hLtype x hx).trans hty) (Js.newCategoryItem cbd t0)
      have hIE : ("Income" : String) ≠ "Expense" := by decide
      have hzero : (Js.newCategoryItem cbd t0).income = JsQuotient.num 0 := rfl
      simp only [Js.finishCategoryItem, Js.finishEntry, hft, hfb, hnewtype, hty, hIE, if_false,
        hinc, hzero, hbudget, hactual]
      simp [Js.withActual, initialSpending, Spending.toNumbers, orZero_eq, hty, hIE]
    · have hEI : ("Expense" : String) ≠ "Income" := by decide
      have hexp := Js_foldl_categoryAdd_expenses (t0 :: rest)
        (fun x hx => by rw [hLtype x hx, hty]; exact hEI)
        (Js.newCategoryItem cbd t0)
      have hzero : (Js.newCategoryItem cbd t0).expenses = JsQuotient.num 0 := rfl
      simp only [Js.finishCategoryItem, Js.finishEntry, hft, hfb, hnewtype, hty, if_true,
        hexp, hzero, hbudget, hactual]
      simp [Js.withActual, initialSpending, Spending.toNumbers, orZero_eq, hty]

/-- C29, amended, on the scenario store, for its category Food. -/
theorem report_row_matches_budget_entry_witness :
    (scenarioStore.categories.map fun c => c.name).Nodup ∧
    scenarioFood ∈ scenarioStore.categories ∧
    (∃ t ∈ getTransactionsForFinancialYear scenarioStore scenarioStore.currentFinancialYear,
      t.category = scenarioFood.name) ∧
    scenarioFood.name ∉ objectPrototypeKeys ∧
    ∃ (cbd : Js.CategoryBudgetData) (rows : List Js.CategoryRow) (e : Js.BudgetEntry),
      Js.getCategoryBudgetData scenarioStore = some cbd ∧
      Js.categoryData scenarioStore "all" "all" "all" = some rows ∧
      objGet cbd.own "Food" = some e ∧
      (∃ row ∈ rows, row.category = "Food") ∧
      ∀ row ∈ rows, row.category = "Food" →
        row.budget = e.budget ∧ row.variance = e.remaining ∧
          row.percentage = e.percentage := by
  have hnd : (scenarioStore.categories.map fun c => c.name).Nodup := by decide
  have hmem : scenarioFood ∈ scenarioStore.categories := by
    simp [scenarioStore, scenarioFood]
  have hex : ∃ t ∈ getTransactionsForFinancialYear scenarioStore
      scenarioStore.currentFinancialYear, t.category = scenarioFood.name := by decide
  have hname : scenarioFood.name ∉ objectPrototypeKeys := by decide
  exact ⟨hnd, hmem, hex, hname,
    report_row_matches_budget_entry scenarioStore scenarioFood hnd hmem
      (Or.inr rfl) hex (by decide) hname (by decide) (by decide)⟩

/-! ## The percentage of a category -/

/-- C7: when no budget of the store is negative, every entry of `getCategoryBudgetData`
stands under the name of a category of the store and carries that category's budget; its
percentage is 0 when the budget is 0 and `actual / budget * 100` for every other budget; and
an entry without transactions, whose actual is 0, has percentage 0. -/
theorem percentage_rule (s : State) (hb : ∀ c ∈ s.categories, 0 ≤ c.budget)
    (k : String) (e : BudgetEntry) (h : (k, e) ∈ getCategoryBudgetData s) :
    (∃ c ∈ s.categories, c.name = k ∧ e.budget = c.budget) ∧
    (e.budget = 0 → e.percentage = 0) ∧
    (e.budget ≠ 0 → e.percentage = e.actual / e.budget * 100) ∧
    (e.transactions = [] → e.actual = 0 ∧ e.percentage = 0) := by
  have hget := objGet_of_mem _ (nodup_objKeys_getCategoryBudgetData s) k e h
  rw [objGet_getCategoryBudgetData] at hget
  cases h0 : objGet (s.categories.foldl initCategory []) k with
  | none => rw [h0] at hget; exact Option.noConfusion hget
  | some e0 =>
    rw [h0] at hget
    have he : e = finishEntry
        (withActual k (getTransactionsForFinancialYear s s.currentFinancialYear) e0) :=
      (Option.some.inj hget).symm
    rcases objGet_foldl_initCategory_some _ _ _ _ h0 with hnil | ⟨c, hc, hname, hinit⟩
    · simp [objGet] at hnil
    · subst he
      have hbudget : (finishEntry (withActual k
          (getTransactionsForFinancialYear s s.currentFinancialYear) e0)).budget
          = c.budget := by
        simp [finishEntry, withActual, hinit, initialSpending, orZero_eq]
      refine ⟨⟨c, hc, hname, hbudget⟩, ?_, ?_, ?_⟩
      · intro hz
        have hz' : e0.budget = 0 := hz
        simp [finishEntry, withActual, hz']
      · intro hnz
        have hnz' : e0.budget ≠ 0 := hnz
        have hpos : 0 < e0.budget := by
          have h0c : 0 ≤ c.budget := hb c hc
          have hbe : e0.budget = c.budget := hbudget
          rw [← hbe] at h0c
          exact lt_of_le_of_ne h0c (Ne.symm hnz')
        simp [finishEntry, withActual, hpos]
      · intro htx
        have htx' : e0.transactions ++ (getTransactionsForFinancialYear s
            s.currentFinancialYear).filter (fun t => t.category = k) = [] := htx
        obtain ⟨_, hfilter⟩ := List.append_eq_nil.1 htx'
        have hzero : e0.actual = 0 := by rw [hinit]; rfl
        constructor
        · simp [finishEntry, withActual, hfilter, hzero]
        · simp [finishEntry, withActual, hfilter, hzero]

/-- C7 on the scenario store, whose budgets are 5000 and 600: the entry under Food has
percentage `700 / 600 * 100`. -/
theorem percentage_rule_witness :
    (∀ c ∈ scenarioStore.categories, 0 ≤ c.budget) ∧
    (∃ e : BudgetEntry, ("Food", e) ∈ getCategoryBudgetData scenarioStore ∧
      e.budget = 600 ∧ e.actual = 700 ∧ e.percentage = e.actual / e.budget * 100) := by
  have hb : ∀ c ∈ scenarioStore.categories, 0 ≤ c.budget := by
    intro c hc
    simp only [scenarioStore, List.mem_cons, List.mem_singleton, List.not_mem_nil,
      or_false] at hc
    rcases hc with h | h <;> rw [h] <;> norm_num
  have hfy : getTransactionsForFinancialYear scenarioStore
      scenarioStore.currentFinancialYear = scenarioStore.transactions := by rfl
  have hget : ∃ e : BudgetEntry, objGet (getCategoryBudgetData scenarioStore) "Food" = some e ∧
      e.budget = 600 ∧ e.actual = 700 := by
    rw [objGet_getCategoryBudgetData, hfy]
    simp [scenarioStore, initCategory, objSet, objGet, finishEntry, withActual, orZero]
  obtain ⟨e, he, hbud, hact⟩ := hget
  have hmem := mem_of_objGet _ _ _ he
  have hne : e.budget ≠ 0 := by rw [hbud]; norm_num
  exact ⟨hb, e, hmem, hbud, hact, (percentage_rule scenarioStore hb "Food" e hmem).2.2.1 hne⟩

/-! ## The keys and values of the monthly series -/

/-- C10: for a financial-year label (a non-empty string) whose transactions have the type
Income or Expense, the keys of `getMonthlyData` are, without repetition, the month keys of the
transactions of that financial year, so that a month without a transaction has no key; the
key of a date is its year, a dash and the two-digit month number, which for a year from 1000
to 9999 reads `YYYY-MM`; and under the key of a transaction `income` is the sum of the amounts
of the Income transactions of the same year and month, and `expenses` the sum of the amounts
of its Expense transactions. -/
theorem monthlyData_spec (s : State) (fy : String) (h : fy ≠ "")
    (htypes : ∀ t ∈ getTransactionsForFinancialYear s fy,
      t.type = "Income" ∨ t.type = "Expense") :
    (objKeys (getMonthlyData s fy)).Nodup ∧
    (∀ k : String, k ∈ objKeys (getMonthlyData s fy) ↔
      ∃ t ∈ getTransactionsForFinancialYear s fy, monthKey t.date = k) ∧
    (∀ t ∈ getTransactionsForFinancialYear s fy, t.date.month < 12 →
      ∃ mm : List Char, mm.length = 2 ∧ jsNumber mm = some (t.date.month + 1) ∧
        (monthKey t.date).data = renderInt t.date.year ++ '-' :: mm) ∧
    (∀ t ∈ getTransactionsForFinancialYear s fy, fourDigitYear t.date →
      ∃ (n : Nat) (yyyy mm : List Char), (n : Int) = t.date.year ∧
        yyyy.length = 4 ∧ jsNumber yyyy = some n ∧
        mm.length = 2 ∧ jsNumber mm = some (t.date.month + 1) ∧
        (monthKey t.date).data = yyyy ++ '-' :: mm) ∧
    (∀ t0 ∈ getTransactionsForFinancialYear s fy,
      objGet (getMonthlyData s fy) (monthKey t0.date) = some
        { income :=
            (((getTransactionsForFinancialYear s fy).filter fun t =>
              t.date.year = t0.date.year ∧ t.date.month = t0.date.month ∧
                t.type = "Income").map fun t => t.amount).sum
          expenses :=
            (((getTransactionsForFinancialYear s fy).filter fun t =>
              t.date.year = t0.date.year ∧ t.date.month = t0.date.month ∧
                t.type = "Expense").map fun t => t.amount).sum }) := by
  have hd := data_ne_nil_of_ne_empty fy h
  have hdef : getMonthlyData s fy
      = (getTransactionsForFinancialYear s fy).foldl monthlyStep [] := by
    simp [getMonthlyData, hd]
  rw [hdef]
  refine ⟨?_, ?_, ?_, ?_, ?_⟩
  · exact nodup_objKeys_foldl_monthlyStep _ _ (by simp [objKeys])
  · intro k
    by_cases hex : ∃ t ∈ getTransactionsForFinancialYear s fy, monthKey t.date = k
    · have hsome := objGet_foldl_monthlyStep_none _ k [] rfl hex
      constructor
      · intro _; exact hex
      · intro _
        by_contra hk
        rw [(objGet_eq_none_iff _ k).2 hk] at hsome
        exact Option.noConfusion hsome
    · have hother : ∀ t ∈ getTransactionsForFinancialYear s fy, monthKey t.date ≠ k :=
        fun t ht hk => hex ⟨t, ht, hk⟩
      have hnone : objGet ((getTransactionsForFinancialYear s fy).foldl monthlyStep []) k
          = none := by
        rw [objGet_foldl_monthlyStep_other _ k hother]
        rfl
      constructor
      · intro hk
        exact absurd hk ((objGet_eq_none_iff _ k).1 hnone)
      · intro hk
        exact absurd hk hex
  · intro t _ hm
    exact ⟨padStart2 (t.date.month + 1), padStart2_month_length _ hm, jsNumber_padStart2 _, rfl⟩
  · intro t _ hfour
    obtain ⟨h1, h2, h3⟩ := hfour
    obtain ⟨n, hn⟩ := Int.eq_ofNat_of_zero_le (by omega : 0 ≤ t.date.year)
    have hr : renderInt t.date.year = renderNat n := by rw [hn]; rfl
    have hlen : (renderNat n).length = 4 := by
      rw [renderNat_four_digits n (by omega)]
      rfl
    refine ⟨n, renderNat n, padStart2 (t.date.month + 1), hn.symm, hlen,
      jsNumber_renderNat n, padStart2_month_length _ h3, jsNumber_padStart2 _, ?_⟩
    rw [← hr]
    rfl
  · intro t0 ht0
    rw [objGet_foldl_monthlyStep_none _ _ [] rfl ⟨t0, ht0, rfl⟩, monthAcc_zero_eq_sums]
    have hexp : ((getTransactionsForFinancialYear s fy).filter fun t =>
          t.date.year = t0.date.year ∧ t.date.month = t0.date.month ∧ t.type ≠ "Income")
        = (getTransactionsForFinancialYear s fy).filter fun t =>
          t.date.year = t0.date.year ∧ t.date.month = t0.date.month ∧ t.type = "Expense" := by
      apply List.filter_congr
      intro t ht
      rcases htypes t ht with hty | hty <;> simp [hty]
    rw [hexp]

/-- C10 on the scenario store: the only key for `2024-2025` is `2024-08`, with income 4500
and expenses 700. -/
theorem monthlyData_spec_witness :
    "2024-2025" ≠ "" ∧
    (∀ t ∈ getTransactionsForFinancialYear scenarioStore "2024-2025",
      t.type = "Income" ∨ t.type = "Expense") ∧
    objKeys (getMonthlyData scenarioStore "2024-2025") = ["2024-08"] ∧
    (∀ k : String, k ∈ objKeys (getMonthlyData scenarioStore "2024-2025") ↔
      ∃ t ∈ getTransactionsForFinancialYear scenarioStore "2024-2025", monthKey t.date = k) :=
  ⟨by decide, by decide, by rfl,
    (monthlyData_spec scenarioStore "2024-2025" (by decide) (by decide)).2.1⟩

end BudgetTracker
